import Mathlib

/-!
# Monster enchantments (`crawl-ref/source/mon-ench.cc`)

A shallow embedding of the enchantment table of a monster: the records
(`mon_enchant`), the keyed table with its presence cache, the merge, removal and
decay operations, the tick hook and the pass that dispatches it, the table of
names, and the duration calculator.

Conventions.
* `enchant_type` is the ordinal of the C++ enumerator.  The ordinals are read off
  `enchant_names`, which `_mons_enchantment_name` indexes by kind, with the
  `TAG_MAJOR_VERSION == 34` entries present.
* C++ `int` is `Int`, taken to stay in range; `/` on `int` is `Int.tdiv`
  (truncation toward zero).
* `std::map<enchant_type, mon_enchant>` is a function from keys to optional
  records; `FixedBitVector` is a function from indices to `Bool`.
* A method that changes the monster returns the monster afterwards, next to its
  C++ result if it has one.
* Everything the file calls but does not define (terrain, behaviour, messages,
  death processing, random numbers, header constants) is a field of `Env`.  A
  random draw is a function of its arguments; statements about every outcome
  quantify over `Env`.  Statements that only print a message or touch global
  state outside the monster are left out.
* Calls that leave out `quiet` and `effect` pass `false` and `true`, the
  defaults of the declarations.
* A random test (`one_chance_in`, `coinflip`) is a `Probe`, numbered when one
  hook draws it more than once.
-/

namespace Crawl

/-- Ordinal of an enchantment kind. -/
abbrev enchant_type := Nat

@[reducible, simp] def ENCH_NONE : enchant_type := 0
@[reducible, simp] def ENCH_BERSERK : enchant_type := 1
@[reducible, simp] def ENCH_HASTE : enchant_type := 2
@[reducible, simp] def ENCH_MIGHT : enchant_type := 3
@[reducible, simp] def ENCH_FATIGUE : enchant_type := 4
@[reducible, simp] def ENCH_SLOW : enchant_type := 5
@[reducible, simp] def ENCH_FEAR : enchant_type := 6
@[reducible, simp] def ENCH_CONFUSION : enchant_type := 7
@[reducible, simp] def ENCH_INVIS : enchant_type := 8
@[reducible, simp] def ENCH_POISON : enchant_type := 9
@[reducible, simp] def ENCH_ROT : enchant_type := 10
@[reducible, simp] def ENCH_SUMMON : enchant_type := 11
@[reducible, simp] def ENCH_ABJ : enchant_type := 12
@[reducible, simp] def ENCH_CORONA : enchant_type := 13
@[reducible, simp] def ENCH_CHARM : enchant_type := 14
@[reducible, simp] def ENCH_STICKY_FLAME : enchant_type := 15
@[reducible, simp] def ENCH_GLOWING_SHAPESHIFTER : enchant_type := 16
@[reducible, simp] def ENCH_SHAPESHIFTER : enchant_type := 17
@[reducible, simp] def ENCH_TP : enchant_type := 18
@[reducible, simp] def ENCH_SLEEP_WARY : enchant_type := 19
@[reducible, simp] def ENCH_SUBMERGED : enchant_type := 20
@[reducible, simp] def ENCH_SHORT_LIVED : enchant_type := 21
@[reducible, simp] def ENCH_PARALYSIS : enchant_type := 22
@[reducible, simp] def ENCH_SICK : enchant_type := 23
@[reducible, simp] def ENCH_SLEEPY : enchant_type := 24
@[reducible, simp] def ENCH_HELD : enchant_type := 25
@[reducible, simp] def ENCH_BATTLE_FRENZY : enchant_type := 26
@[reducible, simp] def ENCH_TEMP_PACIF : enchant_type := 27
@[reducible, simp] def ENCH_PETRIFYING : enchant_type := 28
@[reducible, simp] def ENCH_PETRIFIED : enchant_type := 29
@[reducible, simp] def ENCH_LOWERED_MR : enchant_type := 30
@[reducible, simp] def ENCH_SOUL_RIPE : enchant_type := 31
@[reducible, simp] def ENCH_SLOWLY_DYING : enchant_type := 32
@[reducible, simp] def ENCH_EAT_ITEMS : enchant_type := 33
@[reducible, simp] def ENCH_AQUATIC_LAND : enchant_type := 34
@[reducible, simp] def ENCH_SPORE_PRODUCTION : enchant_type := 35
@[reducible, simp] def ENCH_SLOUCH : enchant_type := 36
@[reducible, simp] def ENCH_SWIFT : enchant_type := 37
@[reducible, simp] def ENCH_TIDE : enchant_type := 38
@[reducible, simp] def ENCH_INSANE : enchant_type := 39
@[reducible, simp] def ENCH_SILENCE : enchant_type := 40
@[reducible, simp] def ENCH_AWAKEN_FOREST : enchant_type := 41
@[reducible, simp] def ENCH_EXPLODING : enchant_type := 42
@[reducible, simp] def ENCH_BLEED : enchant_type := 43
@[reducible, simp] def ENCH_PORTAL_TIMER : enchant_type := 44
@[reducible, simp] def ENCH_SEVERED : enchant_type := 45
@[reducible, simp] def ENCH_ANTIMAGIC : enchant_type := 46
@[reducible, simp] def ENCH_FADING_AWAY : enchant_type := 47
@[reducible, simp] def ENCH_PREPARING_RESURRECT : enchant_type := 48
@[reducible, simp] def ENCH_REGENERATION : enchant_type := 49
@[reducible, simp] def ENCH_RAISED_MR : enchant_type := 50
@[reducible, simp] def ENCH_MIRROR_DAMAGE : enchant_type := 51
@[reducible, simp] def ENCH_STONESKIN : enchant_type := 52
@[reducible, simp] def ENCH_FEAR_INSPIRING : enchant_type := 53
@[reducible, simp] def ENCH_PORTAL_PACIFIED : enchant_type := 54
@[reducible, simp] def ENCH_WITHDRAWN : enchant_type := 55
@[reducible, simp] def ENCH_ATTACHED : enchant_type := 56
@[reducible, simp] def ENCH_LIFE_TIMER : enchant_type := 57
@[reducible, simp] def ENCH_FLIGHT : enchant_type := 58
@[reducible, simp] def ENCH_LIQUEFYING : enchant_type := 59
@[reducible, simp] def ENCH_TORNADO : enchant_type := 60
@[reducible, simp] def ENCH_FAKE_ABJURATION : enchant_type := 61
@[reducible, simp] def ENCH_DAZED : enchant_type := 62
@[reducible, simp] def ENCH_MUTE : enchant_type := 63
@[reducible, simp] def ENCH_BLIND : enchant_type := 64
@[reducible, simp] def ENCH_DUMB : enchant_type := 65
@[reducible, simp] def ENCH_MAD : enchant_type := 66
@[reducible, simp] def ENCH_SILVER_CORONA : enchant_type := 67
@[reducible, simp] def ENCH_RECITE_TIMER : enchant_type := 68
@[reducible, simp] def ENCH_INNER_FLAME : enchant_type := 69
@[reducible, simp] def ENCH_ROUSED : enchant_type := 70
@[reducible, simp] def ENCH_BREATH_WEAPON : enchant_type := 71
@[reducible, simp] def ENCH_DEATHS_DOOR : enchant_type := 72
@[reducible, simp] def ENCH_ROLLING : enchant_type := 73
@[reducible, simp] def ENCH_OZOCUBUS_ARMOUR : enchant_type := 74
@[reducible, simp] def ENCH_WRETCHED : enchant_type := 75
@[reducible, simp] def ENCH_SCREAMED : enchant_type := 76
@[reducible, simp] def ENCH_WORD_OF_RECALL : enchant_type := 77
@[reducible, simp] def ENCH_INJURY_BOND : enchant_type := 78
@[reducible, simp] def ENCH_WATER_HOLD : enchant_type := 79
@[reducible, simp] def ENCH_FLAYED : enchant_type := 80
@[reducible, simp] def ENCH_HAUNTING : enchant_type := 81
@[reducible, simp] def ENCH_RETCHING : enchant_type := 82
@[reducible, simp] def ENCH_WEAK : enchant_type := 83
@[reducible, simp] def ENCH_DIMENSION_ANCHOR : enchant_type := 84
@[reducible, simp] def ENCH_AWAKEN_VINES : enchant_type := 85
@[reducible, simp] def ENCH_CONTROL_WINDS : enchant_type := 86
@[reducible, simp] def ENCH_WIND_AIDED : enchant_type := 87
@[reducible, simp] def ENCH_SUMMON_CAPPED : enchant_type := 88
@[reducible, simp] def ENCH_TOXIC_RADIANCE : enchant_type := 89
@[reducible, simp] def ENCH_GRASPING_ROOTS_SOURCE : enchant_type := 90
@[reducible, simp] def ENCH_GRASPING_ROOTS : enchant_type := 91
@[reducible, simp] def ENCH_IOOD_CHARGED : enchant_type := 92
@[reducible, simp] def ENCH_FIRE_VULN : enchant_type := 93
@[reducible, simp] def ENCH_TORNADO_COOLDOWN : enchant_type := 94
@[reducible, simp] def ENCH_MERFOLK_AVATAR_SONG : enchant_type := 95
@[reducible, simp] def ENCH_BARBS : enchant_type := 96
@[reducible, simp] def ENCH_BUILDING_CHARGE : enchant_type := 97
@[reducible, simp] def ENCH_POISON_VULN : enchant_type := 98
@[reducible, simp] def ENCH_ICEMAIL : enchant_type := 99
@[reducible, simp] def ENCH_AGILE : enchant_type := 100
@[reducible, simp] def ENCH_FROZEN : enchant_type := 101
@[reducible, simp] def ENCH_EPHEMERAL_INFUSION : enchant_type := 102
@[reducible, simp] def ENCH_BLACK_MARK : enchant_type := 103
@[reducible, simp] def ENCH_GRAND_AVATAR : enchant_type := 104
@[reducible, simp] def ENCH_SAP_MAGIC : enchant_type := 105
@[reducible, simp] def ENCH_SHROUD : enchant_type := 106
@[reducible, simp] def ENCH_PHANTOM_MIRROR : enchant_type := 107
@[reducible, simp] def ENCH_NEUTRAL_BRIBED : enchant_type := 108
@[reducible, simp] def ENCH_FRIENDLY_BRIBED : enchant_type := 109
@[reducible, simp] def ENCH_CORROSION : enchant_type := 110
@[reducible, simp] def ENCH_GOLD_LUST : enchant_type := 111
@[reducible, simp] def ENCH_DRAINED : enchant_type := 112
@[reducible, simp] def ENCH_REPEL_MISSILES : enchant_type := 113
@[reducible, simp] def ENCH_DEFLECT_MISSILES : enchant_type := 114
@[reducible, simp] def ENCH_NEGATIVE_VULN : enchant_type := 115
@[reducible, simp] def ENCH_CONDENSATION_SHIELD : enchant_type := 116
@[reducible, simp] def ENCH_RESISTANCE : enchant_type := 117
@[reducible, simp] def ENCH_HEXED : enchant_type := 118
@[reducible, simp] def ENCH_CORPSE_ARMOUR : enchant_type := 119
@[reducible, simp] def NUM_ENCHANTMENTS : enchant_type := 120

/-- Attribution of an enchantment (`kill_category`). -/
inductive kill_category
  | KC_YOU
  | KC_FRIENDLY
  | KC_OTHER
deriving DecidableEq, Repr

/-- Modelled from the spec: the declaration order of `kill_category`, which
`merge_killer` compares with `>=`.  The enumeration is declared in a header that
is not among the translated sources; the spec ranks player before ally before
other. -/
def kill_category.rank : kill_category → Nat
  | .KC_YOU => 0
  | .KC_FRIENDLY => 1
  | .KC_OTHER => 2

/-- The `killer_type` values the enchantment code passes on. -/
inductive killer_type
  | KILL_YOU
  | KILL_MON
  | KILL_MISC
  | KILL_RESET
  | KILL_DISMISSED
  | KILL_TIMEOUT
deriving DecidableEq, Repr

/-- The monster types the table operations distinguish; every other type is
`other n`. -/
inductive monster_type
  | MONS_TRAPDOOR_SPIDER
  | MONS_BATTLESPHERE
  | MONS_SPECTRAL_WEAPON
  | MONS_AIR_ELEMENTAL
  | MONS_GLOWING_SHAPESHIFTER
  | MONS_SHAPESHIFTER
  | other (n : Nat)
deriving DecidableEq, Repr

/-- An enchantment record (`class mon_enchant`).  The default value is the
record built by `mon_enchant()`, whose kind is `ENCH_NONE`. -/
structure mon_enchant where
  ench : enchant_type := ENCH_NONE
  degree : Int := 0
  duration : Int := 0
  maxduration : Int := 0
  who : kill_category := kill_category.KC_OTHER
  source : Nat := 0
deriving DecidableEq, Repr

/-- The part of `class monster` that the enchantment code reads and writes.
`eph_amount` is `props["eph_amount"]`; `rest` stands for every other field of
the monster and of the game, which only collaborators look at. -/
structure monster where
  enchantments : enchant_type → Option mon_enchant
  ench_cache : enchant_type → Bool
  type : monster_type
  speed : Int
  hit_dice : Int
  hit_points : Int
  max_hit_points : Int
  eph_amount : Option Int
  rest : Nat

/-- Questions put to collaborators about a monster. -/
inductive Probe
  /-- The test `holiness() == MH_NONLIVING`. -/
  | nonliving
  /-- The call `berserk_or_insane()`. -/
  | berserk_or_insane
  /-- The call `mons_is_lurking(this)`. -/
  | mons_is_lurking
  /-- The call `pacified()`. -/
  | pacified
  /-- The call `alive()`. -/
  | alive
  /-- In `_prepare_del_ench`: the monster is on deep water, cannot drown and
  cannot live in deep water. -/
  | stays_on_the_bottom
  /-- In `_prepare_del_ench`: the foe exists, is seen and is not adjacent. -/
  | foe_seen_not_adjacent
  /-- The draw `one_chance_in(n)`; `draw` numbers the draws of one hook. -/
  | one_chance_in (n : Int) (draw : Nat)
  /-- The draw `coinflip()`; `draw` numbers the draws of one hook. -/
  | coinflip (draw : Nat)
  /-- The draw `x_chance_in_y(x, y)`. -/
  | x_chance_in_y (x y : Int)
  /-- The test `feat_is_watery(grd(pos()))`. -/
  | feat_is_watery
  | mons_is_zombified
  /-- The test `mons_class_flag(type, M_CONFUSED)`. -/
  | class_confused
  /-- The test `mons_class_flag(type, M_INVIS)`. -/
  | class_invis
  /-- The test `is_harmless_cloud(cloud_type_at(pos()))`. -/
  | is_harmless_cloud
  /-- The test `monster_can_submerge(this, grd(pos()))`. -/
  | monster_can_submerge
  /-- On-tick test of a submerged monster that cannot stay submerged: the square
  is not deep water, or the monster can live there, or it can drown. -/
  | forced_to_surface
  | mons_landlubbers_in_reach
  /-- The test `res_poison() < 0`. -/
  | res_poison_negative
  /-- On-tick test of `ENCH_STICKY_FLAME`: the square is watery and the monster is
  on the ground, or is clever enough and flying. -/
  | flames_go_out
  /-- On-tick test of the shapeshifter kinds: taking the stairs, paralysed,
  petrified, petrifying or asleep. -/
  | cannot_change_shape
  /-- The call `no_tele(true, false)`. -/
  | no_tele
  | how_chaotic
  /-- On-tick test of the recital and the song: silenced, paralysed, petrified,
  confused or asleep. -/
  | incapacitated
  /-- The test `res_water_drowning() == 0`. -/
  | res_water_drowning_none
  /-- The test `res_water_drowning() <= 0`. -/
  | res_water_drowning_not_positive
  /-- The agent `source` is missing or not alive. -/
  | agent_gone (source : Nat)
  /-- The agent `source` is the anonymous friend (`MID_ANON_FRIEND`). -/
  | agent_anonymous (source : Nat)
  /-- In `clear_far_engulf`: the agent `source` is missing or not adjacent. -/
  | agent_not_adjacent (source : Nat)
  /-- On-tick test of `ENCH_FLAYED`: a hostile flayed ghost is in view. -/
  | flayed_ghost_near
  /-- The result of `_apply_grasping_roots(this)`, asked after the procedure ran. -/
  | found_hostile
  /-- The test `!see_cell_no_trans(you.pos())`. -/
  | player_out_of_view
  /-- On-tick test of `ENCH_SPORE_PRODUCTION`, asked after the spawning block: the
  activity count dropped to zero. -/
  | ballisto_went_inactive
  /-- The test `friendly()`. -/
  | friendly
deriving DecidableEq, Repr

/-- Procedures of collaborators that receive the monster.  Each stands for the
named call, or for the run of field writes and calls of one `case` that never
mentions the enchantment table. -/
inductive Call
  | scale_hp (num den : Int)
  | calc_speed
  /-- The call `behaviour_event(this, ME_EVAL)`. -/
  | behaviour_event
  /-- The statements `behaviour = BEH_WANDER; behaviour_event(this, ME_EVAL)`. -/
  | wander
  | mons_clear_trapping_net
  | make_mons_leave_level
  /-- On-add block of charm, bribe and hex: retarget, stop patrolling,
  `mons_att_changed`, release constrictions, seen interrupt. -/
  | control_taken (kind : enchant_type) (source : Nat) (quiet : Bool)
  /-- On-remove block of charm, bribe and hex. -/
  | control_lost (kind : enchant_type) (quiet : Bool)
  /-- On-add block of `ENCH_INVIS`: note that the monster went unseen. -/
  | went_unseen
  /-- On-remove block of `ENCH_INVIS`: `handle_seen_interrupt`. -/
  | seen_again (quiet : Bool)
  | shoals_release_tide
  /-- The statements `attitude = props["old_attitude"]; mons_att_changed(this)`. -/
  | restore_attitude
  | fully_petrify (source : Nat) (who : kill_category) (quiet : Bool)
  /-- On-remove block of `ENCH_HELD`: free the net, forget `NEWLY_TRAPPED_KEY`. -/
  | break_free (quiet : Bool)
  | end_battlesphere
  | end_spectral_weapon
  | monster_die (killer : killer_type)
  /-- On-remove block of `ENCH_SUBMERGED`. -/
  | surface (quiet : Bool)
  | apply_location_effects (killer : killer_type) (kill_agent : Int)
  | heal_flayed_effect
  | unawaken_vines (quiet : Bool)
  /-- The statement `props.erase("merfolk_avatar_call")`. -/
  | forget_avatar_call
  /-- The call `hurt(nullptr, dam)`. -/
  | hurt (dam : Int)
  /-- The call `hurt(me.agent(), dam, flavour)` of a tick hook; `kind` is the
  kind being ticked, which fixes the flavour. -/
  | hurt_by (kind : enchant_type) (source : Nat) (dam : Int)
  /-- The call `heal(1, max_too)` of a submerged air elemental. -/
  | heal_in_air (max_too : Bool)
  | make_mons_stop_fleeing
  /-- On-tick block of `ENCH_STICKY_FLAME` after the water test: the fire damage,
  the burning sheep and `hurt`. -/
  | burn (source : Nat) (degree : Int)
  | suicide
  /-- On-tick block of `ENCH_SPORE_PRODUCTION`: the search for a free square, the
  spawned spore and the activity count, up to its test against zero. -/
  | spawn_spore
  /-- The statement `colour = MAGENTA`. -/
  | turn_magenta
  /-- The statements `setup_spore_explosion(beam, *this); beam.explode()`. -/
  | explode
  /-- On-tick block of `ENCH_PORTAL_TIMER` before `add_ench`: close the gateway. -/
  | close_portal
  /-- The statements `attitude = a; mons_att_changed(this); behaviour_event(this,
  ME_ALERT, ...)` with `a` neutral (`hostile = false`) or hostile. -/
  | turn_attitude (hostile : Bool)
  /-- On-tick block of `ENCH_SEVERED`: writhe, bleed and `hurt(me.agent(), 20)`. -/
  | writhe (source : Nat)
  /-- The call `monster_polymorph(this, RANDOM_MONSTER)`. -/
  | monster_polymorph
  /-- The call `monster_teleport(this, true)`. -/
  | monster_teleport
  | forest_damage
  | tornado_damage (dur : Int)
  /-- On-tick block of `ENCH_BLEED`: the damage draw, the blood and `hurt`. -/
  | bleed (source : Nat) (degree : Int)
  /-- The statement `speed_increment += dur`. -/
  | refund_time (dur : Int)
  | mons_word_of_recall (n : Int)
  /-- On-tick block of `ENCH_WATER_HOLD` after the duration grew: the drowning
  damage and `hurt`. -/
  | drown (source : Nat)
  | apply_control_winds
  | toxic_radiance_effect
  /-- The body of `_apply_grasping_roots(this)`, which entangles other actors. -/
  | apply_grasping_roots
  | check_grasping_roots
  /-- The body of `_merfolk_avatar_song(this)`. -/
  | merfolk_avatar_song
deriving DecidableEq, Repr

/-- The value an `int` variable holds when the exact result of the arithmetic is
`x`: 32-bit two's-complement wrap-around. -/
def to_int (x : Int) : Int :=
  (x + 2147483648) % 4294967296 - 2147483648

/-- Collaborators and header constants of the enchantment code. -/
structure Env where
  INFINITE_DURATION : Int
  /-- The constant `INFINITE_DURATION` is an `int`. -/
  INFINITE_DURATION_fits : -2147483648 ≤ INFINITE_DURATION ∧ INFINITE_DURATION ≤ 2147483647
  BASELINE_DELAY : Int
  FRESHEST_CORPSE : Int
  ANON_FRIENDLY_MONSTER : Int
  speed_to_duration : Int → Int
  random2 : Int → Int
  random2avg : Int → Int → Int
  random_range : Int → Int → Int
  roll_dice : Int → Int → Int
  fuzz_value : Int → Int → Int → Int
  mons_can_be_blinded : monster_type → Bool
  test : Probe → monster → Bool
  call : Call → monster → monster
  /-- The method `monster::heal(amount)`: whether anything was healed, and the monster
  afterwards. -/
  heal : monster → Int → Bool × monster
  /-- The tail of `_prepare_del_ench` for a submerged monster: repair of the
  grid occupancy and the search for a free square to surface on. -/
  find_room_to_surface : monster → Bool × monster
  /-- The monster as an agent: its `kill_alignment()` and its `mid`. -/
  self_agent : monster → kill_category × Nat
  /-- The default of the parameter `decay_degree` of `decay_enchantment`, which
  the class declaration gives. -/
  decay_degree_default : Bool

/-- The constructor `mon_enchant::mon_enchant(e, deg, a, dur)`; the agent `a` is given by its
`kill_alignment()` and `mid`, a null agent by `none`. -/
def mon_enchant.make (e : enchant_type) (deg : Int) (a : Option (kill_category × Nat))
    (dur : Int) : mon_enchant :=
  match a with
  | some (al, mid) =>
    { ench := e, degree := deg, duration := dur, maxduration := 0, who := al, source := mid }
  | none =>
    { ench := e, degree := deg, duration := dur, maxduration := 0,
      who := kill_category.KC_OTHER, source := 0 }

/-- The function `mon_enchant::merge_killer` -/
def mon_enchant.merge_killer (self : mon_enchant) (k : kill_category) (m : Nat) : mon_enchant :=
  if self.who.rank ≥ k.rank then { self with who := k, source := m } else self

/-- The function `mon_enchant::cap_degree` -/
def mon_enchant.cap_degree (self : mon_enchant) : mon_enchant :=
  if self.ench = ENCH_SICK ∨ self.ench = ENCH_DRAINED then self
  else
    let max : Int := if self.ench = ENCH_ABJ ∨ self.ench = ENCH_FAKE_ABJURATION then 6 else 4
    if self.degree > max then { self with degree := max } else self

/-- The function `mon_enchant::operator+=`.  The two sums are `int` additions. -/
def mon_enchant.add_assign (env : Env) (self other : mon_enchant) : mon_enchant :=
  if self.ench = other.ench then
    let s1 :=
      ({ self with degree := to_int (self.degree + other.degree) } : mon_enchant).cap_degree
    let s2 : mon_enchant := { s1 with duration := to_int (s1.duration + other.duration) }
    let s3 : mon_enchant :=
      if s2.duration > env.INFINITE_DURATION then { s2 with duration := env.INFINITE_DURATION }
      else s2
    s3.merge_killer other.who other.source
  else self

/-- The function `mon_enchant::killer` -/
def mon_enchant.killer (self : mon_enchant) : killer_type :=
  if self.who = kill_category.KC_YOU then killer_type.KILL_YOU
  else if self.who = kill_category.KC_FRIENDLY then killer_type.KILL_MON
  else killer_type.KILL_MISC

/-- The function `mon_enchant::kill_agent` -/
def mon_enchant.kill_agent (env : Env) (self : mon_enchant) : Int :=
  if self.who = kill_category.KC_FRIENDLY then env.ANON_FRIENDLY_MONSTER else 0

/-- The function `_mod_speed`: adjusts time durations in `calc_duration` for monster speed. -/
def _mod_speed (val speed : Int) : Int :=
  let speed := if speed = 0 then 10 else speed
  let modded := Int.tdiv (val * 10) speed
  if modded ≠ 0 then modded else 1

/-- The function `mon_enchant::modded_speed` -/
def mon_enchant.modded_speed (mons : monster) (hdplus : Int) : Int :=
  _mod_speed (mons.hit_dice + hdplus) mons.speed

/-- The function `mon_enchant::calc_duration`.  `added` is the optional record
being merged in.  The cases that `return` directly give their value; the others
set `cturn` and go through the common tail `fuzzed`. -/
def mon_enchant.calc_duration (env : Env) (self : mon_enchant) (mons : monster)
    (added : Option mon_enchant) : Int :=
  let newdegree : Int := match added with
    | some a => a.degree
    | none => self.degree
  let deg : Int := if newdegree ≠ 0 then newdegree else 1
  let fuzzed (cturn : Int) : Int :=
    let cturn := max 2 cturn
    let raw_duration := cturn * env.speed_to_duration mons.speed
    max 15 (env.fuzz_value raw_duration 60 40)
  let e := self.ench
  if e = ENCH_WITHDRAWN then fuzzed (Int.tdiv 5000 (_mod_speed 25 mons.speed))
  else if e = ENCH_SWIFT then fuzzed (Int.tdiv 1000 (_mod_speed 25 mons.speed))
  else if e = ENCH_HASTE ∨ e = ENCH_MIGHT ∨ e = ENCH_INVIS ∨ e = ENCH_FEAR_INSPIRING
      ∨ e = ENCH_STONESKIN ∨ e = ENCH_AGILE ∨ e = ENCH_BLACK_MARK ∨ e = ENCH_RESISTANCE then
    fuzzed (Int.tdiv 1000 (_mod_speed 25 mons.speed))
  else if e = ENCH_LIQUEFYING ∨ e = ENCH_SILENCE ∨ e = ENCH_REGENERATION ∨ e = ENCH_RAISED_MR
      ∨ e = ENCH_MIRROR_DAMAGE ∨ e = ENCH_DEATHS_DOOR ∨ e = ENCH_SAP_MAGIC then
    fuzzed (Int.tdiv 300 (_mod_speed 25 mons.speed))
  else if e = ENCH_SLOW ∨ e = ENCH_CORROSION then
    fuzzed (Int.tdiv 250 (1 + mon_enchant.modded_speed mons 10))
  else if e = ENCH_FEAR then fuzzed (Int.tdiv 150 (1 + mon_enchant.modded_speed mons 5))
  else if e = ENCH_PARALYSIS then
    fuzzed (max (Int.tdiv 90 (mon_enchant.modded_speed mons 5)) 3)
  else if e = ENCH_PETRIFIED then
    fuzzed (max 8 (Int.tdiv 150 (1 + mon_enchant.modded_speed mons 5)))
  else if e = ENCH_DAZED ∨ e = ENCH_PETRIFYING then
    fuzzed (Int.tdiv 50 (_mod_speed 10 mons.speed))
  else if e = ENCH_CONFUSION then
    fuzzed (max (Int.tdiv 100 (mon_enchant.modded_speed mons 5)) 3)
  else if e = ENCH_HELD then fuzzed (Int.tdiv 120 (_mod_speed 25 mons.speed))
  else if e = ENCH_POISON then fuzzed (Int.tdiv (1000 * deg) (_mod_speed 125 mons.speed))
  else if e = ENCH_STICKY_FLAME then fuzzed (Int.tdiv (1000 * deg) (_mod_speed 200 mons.speed))
  else if e = ENCH_ROT then
    let cturn : Int := if deg > 1 then Int.tdiv (1000 * (deg - 1)) (_mod_speed 333 mons.speed) else 0
    fuzzed (cturn + Int.tdiv 1000 (_mod_speed 250 mons.speed))
  else if e = ENCH_CORONA ∨ e = ENCH_SILVER_CORONA then
    let cturn : Int := if deg > 1 then Int.tdiv (1000 * (deg - 1)) (_mod_speed 200 mons.speed) else 0
    fuzzed (cturn + Int.tdiv 1000 (_mod_speed 100 mons.speed))
  else if e = ENCH_SHORT_LIVED then fuzzed (Int.tdiv 1200 (_mod_speed 200 mons.speed))
  else if e = ENCH_SLOWLY_DYING then
    (2 * env.FRESHEST_CORPSE + env.random2 10) * env.speed_to_duration mons.speed
  else if e = ENCH_SPORE_PRODUCTION then env.random_range 475 525 * 10
  else if e = ENCH_EXPLODING then env.random_range 3 7 * 10
  else if e = ENCH_PORTAL_PACIFIED then 0
  else if e = ENCH_BREATH_WEAPON then 0
  else if e = ENCH_PORTAL_TIMER then fuzzed (Int.tdiv (30 * 10) (_mod_speed 10 mons.speed))
  else if e = ENCH_FAKE_ABJURATION ∨ e = ENCH_ABJ then
    let c1 : Int := if deg ≥ 6 then Int.tdiv 1000 (_mod_speed 10 mons.speed) else 0
    let c2 : Int := if deg ≥ 5 then c1 + Int.tdiv 1000 (_mod_speed 20 mons.speed) else c1
    fuzzed (c2 + Int.tdiv (1000 * min 4 deg) (_mod_speed 100 mons.speed))
  else if e = ENCH_CHARM ∨ e = ENCH_HEXED then
    fuzzed (Int.tdiv 500 (mon_enchant.modded_speed mons 10))
  else if e = ENCH_TP then fuzzed (Int.tdiv (1000 * deg) (_mod_speed 1000 mons.speed))
  else if e = ENCH_SLEEP_WARY then fuzzed (Int.tdiv 1000 (_mod_speed 50 mons.speed))
  else if e = ENCH_LIFE_TIMER then
    fuzzed (Int.tdiv (10 * (4 + env.random2 4)) (_mod_speed 10 mons.speed))
  else if e = ENCH_INNER_FLAME then env.random_range 25 35 * 10
  else if e = ENCH_BERSERK then (16 + env.random2avg 13 2) * 10
  else if e = ENCH_ROLLING then fuzzed (Int.tdiv 10000 (_mod_speed 25 mons.speed))
  else if e = ENCH_WRETCHED then
    fuzzed (Int.tdiv ((20 + env.roll_dice 3 10) * 10) (_mod_speed 10 mons.speed))
  else if e = ENCH_TORNADO_COOLDOWN then
    fuzzed (Int.tdiv (env.random_range 25 35 * 10) (_mod_speed 10 mons.speed))
  else if e = ENCH_EPHEMERAL_INFUSION then fuzzed (Int.tdiv 150 (_mod_speed 25 mons.speed))
  else if e = ENCH_FROZEN then fuzzed (3 * env.BASELINE_DELAY)
  else fuzzed 0

/-- The function `mon_enchant::set_duration`: the effective duration of the
enchantment, computed when the caller gave none. -/
def mon_enchant.set_duration (env : Env) (self : mon_enchant) (mons : monster)
    (added : Option mon_enchant) : mon_enchant :=
  if self.duration ≠ 0 ∧ added = none then self
  else
    let dur : Int := match added with
      | some a => if a.duration ≠ 0 then self.duration + a.duration
                  else self.duration + self.calc_duration env mons added
      | none => self.duration + self.calc_duration env mons added
    let s1 : mon_enchant := { self with duration := dur }
    if s1.duration > s1.maxduration then { s1 with maxduration := s1.duration } else s1

/-- The one-argument `monster::has_ench`: the presence cache bit.  The
diagnostics build first checks the bit against `get_ench` and dies when they
differ: that build is `monster.has_ench_checked` below, which on a consistent
table returns this bit for every kind. -/
def monster.has_ench (m : monster) (ench : enchant_type) : Bool :=
  m.ench_cache ench

/-- The loop of the two-argument `monster::has_ench`, from `i` over `n` kinds. -/
def monster.has_ench_loop (m : monster) (i : Nat) : Nat → Bool
  | 0 => false
  | n + 1 => if m.has_ench i then true else monster.has_ench_loop m (i + 1) n

/-- The two-argument `monster::has_ench(ench, ench2)`: some kind of the
inclusive range is present. -/
def monster.has_ench_range (m : monster) (ench ench2 : enchant_type) : Bool :=
  let ench2 := if ench2 = ENCH_NONE then ench else ench2
  monster.has_ench_loop m ench (ench2 + 1 - ench)

/-- The loop of `monster::get_ench`, from `e` over `n` kinds. -/
def monster.get_ench_loop (m : monster) (e : Nat) : Nat → mon_enchant
  | 0 => {}
  | n + 1 =>
    match m.enchantments e with
    | some r => r
    | none => monster.get_ench_loop m (e + 1) n

/-- The function `monster::get_ench(ench1, ench2)`: the record of the first
kind of the inclusive range that the table holds, or the default record. -/
def monster.get_ench (m : monster) (ench1 ench2 : enchant_type) : mon_enchant :=
  let ench2 := if ench2 = ENCH_NONE then ench1 else ench2
  monster.get_ench_loop m ench1 (ench2 + 1 - ench1)

/-- The one-argument `monster::has_ench` of the diagnostics build: the presence
cache bit, after a check of the bit against `get_ench`; `none` stands for
`die`. -/
def monster.has_ench_checked (m : monster) (ench : enchant_type) : Option Bool :=
  let e := m.get_ench ench ENCH_NONE
  if e.ench = ench then
    if m.ench_cache ench = false then none else some (m.ench_cache ench)
  else if e.ench = ENCH_NONE then
    if m.ench_cache ench = true then none else some (m.ench_cache ench)
  else none

/-- The function `monster::update_ench`: overwrite the record stored under the
kind of `ench`, when there is one. -/
def monster.update_ench (m : monster) (ench : mon_enchant) : monster :=
  if ench.ench ≠ ENCH_NONE then
    match m.enchantments ench.ench with
    | some _ => { m with enchantments := Function.update m.enchantments ench.ench (some ench) }
    | none => m
  else m

/-- Narrowing of an `int` to the `char` that `get_byte()` refers to. -/
def to_byte (x : Int) : Int :=
  (x + 128) % 256 - 128

/-- The function `_prepare_del_ench`: only a submerged monster can be kept from
losing its enchantment. -/
def _prepare_del_ench (env : Env) (mon : monster) (me : mon_enchant) : Bool × monster :=
  if me.ench ≠ ENCH_SUBMERGED then (true, mon)
  else if env.test Probe.stays_on_the_bottom mon then (false, mon)
  else if env.test Probe.mons_is_lurking mon && env.test Probe.foe_seen_not_adjacent mon then
    (false, mon)
  else env.find_room_to_surface mon

/-- Kinds whose addition can call back into `del_ench`. -/
def adds_reentrantly (k : enchant_type) : Bool :=
  k = ENCH_FLIGHT || k = ENCH_BERSERK || k = ENCH_INSANE || k = ENCH_CONFUSION || k = ENCH_MAD

/-- Nesting rank of the on-remove hook of a kind. -/
def hook_rank (k : enchant_type) : Nat :=
  if k = ENCH_PETRIFIED then 2 else if k = ENCH_ABJ ∨ k = ENCH_FAKE_ABJURATION then 1 else 0

/-- Nesting measure of the on-remove hook: rank of the kind, then presence of
`ENCH_PETRIFYING`. -/
def hook_measure (m : monster) (me : mon_enchant) : Nat :=
  100 * hook_rank me.ench + (if (m.enchantments ENCH_PETRIFYING).isSome then 10 else 0)

/-- The monster with the record under `et` erased and its cache bit cleared. -/
def monster.erase (m : monster) (et : enchant_type) : monster :=
  { m with enchantments := Function.update m.enchantments et none,
           ench_cache := Function.update m.ench_cache et false }

mutual

/-- The function `monster::add_ench`.  Returns the result and the monster
afterwards. -/
def monster.add_ench (env : Env) (m : monster) (ench : mon_enchant) : Bool × monster :=
  if ench.ench = ENCH_NONE then (false, m)
  else if ench.ench = ENCH_FEAR
      ∧ (env.test Probe.nonliving m = true ∨ env.test Probe.berserk_or_insane m = true) then
    (false, m)
  else if ench.ench = ENCH_BLIND ∧ env.mons_can_be_blinded m.type = false then (false, m)
  else
    let m1 : monster :=
      if ench.ench = ENCH_FLIGHT ∧ m.has_ench ENCH_LIQUEFYING = true then
        (monster.del_ench env m ENCH_LIQUEFYING false true).2
      else m
    match m1.enchantments ench.ench with
    | some cur =>
      let added := cur.add_assign env ench
      let m2 : monster :=
        { m1 with enchantments := Function.update m1.enchantments ench.ench (some added) }
      let added := if ench.duration = 0 then added.set_duration env m2 (some ench) else added
      (true, { m2 with enchantments := Function.update m2.enchantments ench.ench (some added) })
    | none =>
      let m2 : monster :=
        { m1 with enchantments := Function.update m1.enchantments ench.ench (some ench),
                  ench_cache := Function.update m1.ench_cache ench.ench true }
      let added := if ench.duration = 0 then ench.set_duration env m2 none else ench
      let m3 : monster :=
        { m2 with enchantments := Function.update m2.enchantments ench.ench (some added) }
      (true, monster.add_enchantment_effect env m3 ench false)
termination_by if adds_reentrantly ench.ench then 400 else 2
decreasing_by
  · simp_wf
    rename_i h
    have hr : adds_reentrantly ench.ench = true := by simp [adds_reentrantly, h.1]
    rw [if_pos hr]
    split
    · omega
    · simp only [hook_measure, hook_rank]
      split_ifs <;> decide
  · simp_wf
    split_ifs <;> omega

/-- The function `monster::add_enchantment_effect`, the on-add hook. -/
def monster.add_enchantment_effect (env : Env) (m : monster) (ench : mon_enchant)
    (quiet : Bool) : monster :=
  if ench.ench = ENCH_BERSERK ∨ ench.ench = ENCH_INSANE then
    let m := if ench.ench = ENCH_BERSERK then env.call (Call.scale_hp 3 2) m else m
    let m := if m.has_ench ENCH_SUBMERGED then (monster.del_ench env m ENCH_SUBMERGED false true).2
             else m
    let m := if env.test Probe.mons_is_lurking m then env.call Call.wander m else m
    env.call Call.calc_speed m
  else if ench.ench = ENCH_HASTE then env.call Call.calc_speed m
  else if ench.ench = ENCH_SLOW then env.call Call.calc_speed m
  else if ench.ench = ENCH_SUBMERGED then
    let m := env.call Call.mons_clear_trapping_net m
    if env.test Probe.pacified m then env.call Call.make_mons_leave_level m else m
  else if ench.ench = ENCH_CONFUSION ∨ ench.ench = ENCH_MAD then
    let m := if m.type = monster_type.MONS_TRAPDOOR_SPIDER ∧ m.has_ench ENCH_SUBMERGED = true then
               (monster.del_ench env m ENCH_SUBMERGED false true).2
             else m
    if env.test Probe.mons_is_lurking m then env.call Call.wander m else m
  else if ench.ench = ENCH_CHARM ∨ ench.ench = ENCH_NEUTRAL_BRIBED
      ∨ ench.ench = ENCH_FRIENDLY_BRIBED ∨ ench.ench = ENCH_HEXED then
    env.call (Call.control_taken ench.ench ench.source quiet) m
  else if ench.ench = ENCH_LIQUEFYING ∨ ench.ench = ENCH_SILENCE then m
  else if ench.ench = ENCH_ROLLING then env.call Call.calc_speed m
  else if ench.ench = ENCH_FROZEN then env.call Call.calc_speed m
  else if ench.ench = ENCH_EPHEMERAL_INFUSION then
    if m.eph_amount = none then
      let amount : Int := min (Int.tdiv ench.degree 2 + env.random2avg ench.degree 2)
                              (m.max_hit_points - m.hit_points)
      if amount > 0 then
        let healed := env.heal m amount
        if healed.1 = true ∧ quiet = false then
          { healed.2 with eph_amount := some (to_byte amount) }
        else { healed.2 with eph_amount := some (to_byte 0) }
      else { m with eph_amount := some (to_byte 0) }
    else m
  else if ench.ench = ENCH_INVIS then env.call Call.went_unseen m
  else m
termination_by if adds_reentrantly ench.ench then 300 else 1
decreasing_by
  · simp_wf
    rename_i h _
    have hr : adds_reentrantly ench.ench = true := by
      rcases h with h | h <;> simp [adds_reentrantly, h]
    rw [if_pos hr]
    split
    · omega
    · simp only [hook_measure, hook_rank]
      split_ifs <;> decide
  · simp_wf
    rename_i h _
    have hr : adds_reentrantly ench.ench = true := by
      rcases h with h | h <;> simp [adds_reentrantly, h]
    rw [if_pos hr]
    split
    · omega
    · simp only [hook_measure, hook_rank]
      split_ifs <;> decide

/-- The function `monster::del_ench`.  Returns the result and the monster
afterwards. -/
def monster.del_ench (env : Env) (m : monster) (ench : enchant_type) (quiet effect : Bool) :
    Bool × monster :=
  match hfind : m.enchantments ench with
  | none => (false, m)
  | some me =>
    let et := ench
    if (_prepare_del_ench env m me).1 = false then (false, (_prepare_del_ench env m me).2)
    else
      if effect then
        (true, monster.remove_enchantment_effect env ((_prepare_del_ench env m me).2.erase et) me quiet)
      else (true, (_prepare_del_ench env m me).2.erase et)
termination_by
  match m.enchantments ench with
  | none => 0
  | some me => hook_measure ((_prepare_del_ench env m me).2.erase ench) me + 1
decreasing_by
  simp_wf
  rw [hfind]
  simp

/-- The function `monster::remove_enchantment_effect`, the on-remove hook. -/
def monster.remove_enchantment_effect (env : Env) (m : monster) (me : mon_enchant)
    (quiet : Bool) : monster :=
  if me.ench = ENCH_TIDE then env.call Call.shoals_release_tide m
  else if me.ench = ENCH_INSANE then env.call Call.restore_attitude m
  else if me.ench = ENCH_BERSERK then env.call Call.calc_speed (env.call (Call.scale_hp 2 3) m)
  else if me.ench = ENCH_HASTE then env.call Call.calc_speed m
  else if me.ench = ENCH_SLOW then env.call Call.calc_speed m
  else if me.ench = ENCH_PARALYSIS then env.call Call.behaviour_event m
  else if me.ench = ENCH_PETRIFIED then
    let m := (monster.del_ench env m ENCH_PETRIFYING false true).2
    env.call Call.behaviour_event m
  else if me.ench = ENCH_PETRIFYING then
    let m := env.call (Call.fully_petrify me.source me.who quiet) m
    if env.test Probe.alive m then env.call Call.behaviour_event m else m
  else if me.ench = ENCH_FEAR then env.call Call.behaviour_event m
  else if me.ench = ENCH_CONFUSION then env.call Call.behaviour_event m
  else if me.ench = ENCH_INVIS then env.call (Call.seen_again quiet) m
  else if me.ench = ENCH_CHARM ∨ me.ench = ENCH_NEUTRAL_BRIBED ∨ me.ench = ENCH_FRIENDLY_BRIBED
      ∨ me.ench = ENCH_HEXED then
    env.call Call.behaviour_event (env.call (Call.control_lost me.ench quiet) m)
  else if me.ench = ENCH_HELD then env.call (Call.break_free quiet) m
  else if me.ench = ENCH_FAKE_ABJURATION ∧ m.type = monster_type.MONS_BATTLESPHERE then
    env.call Call.end_battlesphere m
  else if me.ench = ENCH_FAKE_ABJURATION ∨ me.ench = ENCH_ABJ then
    if m.type = monster_type.MONS_SPECTRAL_WEAPON then env.call Call.end_spectral_weapon m
    else
      let m := (monster.add_ench env m
        (mon_enchant.make (if me.ench ≠ ENCH_FAKE_ABJURATION then ENCH_ABJ else ENCH_FAKE_ABJURATION)
          0 none (-1))).2
      env.call (Call.monster_die
        (if me.ench = ENCH_FAKE_ABJURATION then killer_type.KILL_MISC
         else if quiet then killer_type.KILL_DISMISSED else killer_type.KILL_RESET)) m
  else if me.ench = ENCH_SHORT_LIVED then env.call (Call.monster_die killer_type.KILL_TIMEOUT) m
  else if me.ench = ENCH_SUBMERGED then env.call (Call.surface quiet) m
  else if me.ench = ENCH_FLIGHT then
    env.call (Call.apply_location_effects me.killer (me.kill_agent env)) m
  else if me.ench = ENCH_ROLLING then env.call Call.calc_speed m
  else if me.ench = ENCH_BLIND ∨ me.ench = ENCH_DUMB ∨ me.ench = ENCH_MAD then env.call Call.behaviour_event m
  else if me.ench = ENCH_FLAYED then env.call Call.heal_flayed_effect m
  else if me.ench = ENCH_HAUNTING then
    let abj := m.get_ench ENCH_ABJ ENCH_NONE
    let abj : mon_enchant := { abj with degree := 1 }
    let abj : mon_enchant := { abj with duration := min (5 + env.random2 30) abj.duration }
    m.update_ench abj
  else if me.ench = ENCH_AWAKEN_VINES then env.call (Call.unawaken_vines quiet) m
  else if me.ench = ENCH_MERFOLK_AVATAR_SONG then env.call Call.forget_avatar_call m
  else if me.ench = ENCH_FROZEN then env.call Call.calc_speed m
  else if me.ench = ENCH_EPHEMERAL_INFUSION then
    let dam : Int := match m.eph_amount with
      | some a => a
      | none => 0
    let m : monster := { m with eph_amount := none }
    let dam := min dam (m.hit_points - 1)
    if dam > 0 then env.call (Call.hurt dam) m else m
  else if me.ench = ENCH_BLACK_MARK then env.call Call.calc_speed m
  else m
termination_by hook_measure m me
decreasing_by
  · simp_wf
    rename_i h
    simp only [hook_measure, hook_rank, h]
    cases m.enchantments 28 with
    | none => simp
    | some r =>
      simp [monster.erase]
      split_ifs <;> decide
  · simp_wf
    have hr : adds_reentrantly
        (mon_enchant.make (if me.ench = 61 then 61 else 12) 0 none (-1)).ench = false := by
      simp only [mon_enchant.make]
      split_ifs <;> simp [adds_reentrantly]
    rw [hr]
    rename_i h _
    simp only [hook_measure, hook_rank]
    rcases h with h | h <;> simp [h] <;> split_ifs <;> decide

end

/-- The function `monster::lose_ench_levels`. -/
def monster.lose_ench_levels (env : Env) (m : monster) (e : mon_enchant) (lev : Int)
    (infinite : Bool) : Bool × monster :=
  if lev = 0 then (false, m)
  else if e.duration ≥ env.INFINITE_DURATION ∧ infinite = false then (false, m)
  else if e.degree ≤ lev then (true, (m.del_ench env e.ench false true).2)
  else
    let newe : mon_enchant := { e with degree := e.degree - lev }
    (false, m.update_ench newe)

/-- The function `monster::lose_ench_duration`. -/
def monster.lose_ench_duration (env : Env) (m : monster) (e : mon_enchant) (dur : Int) :
    Bool × monster :=
  if dur = 0 then (false, m)
  else if e.duration ≥ env.INFINITE_DURATION then (false, m)
  else if e.duration ≤ dur then (true, (m.del_ench env e.ench false true).2)
  else
    let newe : mon_enchant := { e with duration := e.duration - dur }
    (false, m.update_ench newe)

/-- The function `monster::decay_enchantment`.  `me` is the copy of the record
that `get_ench` returned before the duration was reduced. -/
def monster.decay_enchantment (env : Env) (m : monster) (en : enchant_type)
    (decay_degree : Bool) : Bool × monster :=
  if m.has_ench en = false then (false, m)
  else
    let me := m.get_ench en ENCH_NONE
    if me.duration ≥ env.INFINITE_DURATION then (false, m)
    else
      let spd : Int := if me.ench = ENCH_HELD then m.speed else 10
      let actdur := env.speed_to_duration spd
      let lost := m.lose_ench_duration env me actdur
      if lost.1 = true then (true, lost.2)
      else if decay_degree = false then (false, lost.2)
      else
        let level := me.degree
        if level ≤ 1 then (false, lost.2)
        else
          let decay_factor := Int.tdiv (level * (level + 1)) 2
          if me.duration < Int.tdiv (me.maxduration * (decay_factor - 1)) decay_factor then
            let newme : mon_enchant := { me with degree := me.degree - 1 }
            let newme : mon_enchant := { newme with maxduration := newme.duration }
            if newme.degree ≤ 0 then (true, (lost.2.del_ench env me.ench false true).2)
            else (false, lost.2.update_ench newme)
          else (false, lost.2)

/-- The table and the presence cache agree, every record is stored under its
own kind, and nothing is stored under `ENCH_NONE`. -/
def monster.consistent (m : monster) : Prop :=
  (∀ k, m.ench_cache k = (m.enchantments k).isSome) ∧
  (∀ k r, m.enchantments k = some r → r.ench = k) ∧
  m.enchantments ENCH_NONE = none

/-- Every collaborator procedure keeps the property `P` of the monster. -/
def Env.keeps (env : Env) (P : monster → Prop) : Prop :=
  (∀ c m, P m → P (env.call c m)) ∧
  (∀ m a, P m → P (env.heal m a).2) ∧
  (∀ m, P m → P (env.find_room_to_surface m).2)

/-- No collaborator procedure changes the table or the presence cache. -/
def Env.passive (env : Env) : Prop :=
  (∀ c m, (env.call c m).enchantments = m.enchantments ∧
      (env.call c m).ench_cache = m.ench_cache) ∧
  (∀ m a, (env.heal m a).2.enchantments = m.enchantments ∧
      (env.heal m a).2.ench_cache = m.ench_cache) ∧
  (∀ m, (env.find_room_to_surface m).2.enchantments = m.enchantments ∧
      (env.find_room_to_surface m).2.ench_cache = m.ench_cache)

/-- States reached from an empty table by the table operations, each run with
collaborators that keep the table consistent. -/
inductive Reachable : monster → Prop
  | empty (m : monster) : (∀ k, m.enchantments k = none) → (∀ k, m.ench_cache k = false) →
      Reachable m
  | add_ench (env : Env) (m : monster) (e : mon_enchant) :
      env.keeps monster.consistent → Reachable m → Reachable (m.add_ench env e).2
  | update_ench (m : monster) (e : mon_enchant) : Reachable m → Reachable (m.update_ench e)
  | del_ench (env : Env) (m : monster) (k : enchant_type) (quiet effect : Bool) :
      env.keeps monster.consistent → Reachable m → Reachable (m.del_ench env k quiet effect).2
  | lose_ench_duration (env : Env) (m : monster) (e : mon_enchant) (dur : Int) :
      env.keeps monster.consistent → Reachable m → Reachable (m.lose_ench_duration env e dur).2
  | lose_ench_levels (env : Env) (m : monster) (e : mon_enchant) (lev : Int) (infinite : Bool) :
      env.keeps monster.consistent → Reachable m →
      Reachable (m.lose_ench_levels env e lev infinite).2
  | decay_enchantment (env : Env) (m : monster) (en : enchant_type) (decay_degree : Bool) :
      env.keeps monster.consistent → Reachable m →
      Reachable (m.decay_enchantment env en decay_degree).2

/-- A world in which collaborators do nothing: no probe holds, every procedure
returns the monster as it got it, random draws are 0 and the fuzz is the
identity. -/
def still : Env :=
  { INFINITE_DURATION := 30000
    INFINITE_DURATION_fits := by decide
    BASELINE_DELAY := 10
    FRESHEST_CORPSE := 210
    ANON_FRIENDLY_MONSTER := 0
    speed_to_duration := fun _ => 10
    random2 := fun _ => 0
    random2avg := fun _ _ => 0
    random_range := fun lo _ => lo
    roll_dice := fun n _ => n
    fuzz_value := fun v _ _ => v
    mons_can_be_blinded := fun _ => true
    test := fun _ _ => false
    call := fun _ m => m
    heal := fun m _ => (false, m)
    find_room_to_surface := fun m => (true, m)
    self_agent := fun _ => (kill_category.KC_OTHER, 0)
    decay_degree_default := true }

/-- A speed-10 monster with an empty enchantment table. -/
def blank : monster :=
  { enchantments := fun _ => none
    ench_cache := fun _ => false
    type := monster_type.other 0
    speed := 10
    hit_dice := 1
    hit_points := 10
    max_hit_points := 10
    eph_amount := none
    rest := 0 }

/-- The more player-attributable of two kill categories, in the words of the
spec: player before ally before other. -/
def more_player_attributable (x y : kill_category) : kill_category :=
  if x = kill_category.KC_YOU ∨ y = kill_category.KC_YOU then kill_category.KC_YOU
  else if x = kill_category.KC_FRIENDLY ∨ y = kill_category.KC_FRIENDLY then
    kill_category.KC_FRIENDLY
  else kill_category.KC_OTHER

/-- The record and the cache bit of kind `i` are the same in `m'` as in `m`. -/
def same_at (i : enchant_type) (m m' : monster) : Prop :=
  m'.enchantments i = m.enchantments i ∧ m'.ench_cache i = m.ench_cache i

/-- A world like `still` in which `berserk_or_insane()` reports the presence of
`ENCH_BERSERK` or `ENCH_INSANE`. -/
def wary : Env :=
  { still with
    test := fun p m =>
      match p with
      | Probe.berserk_or_insane => m.has_ench ENCH_BERSERK || m.has_ench ENCH_INSANE
      | _ => false }

/-- A world like `still` in which a submerged monster stays on the bottom. -/
def murky : Env :=
  { still with
    test := fun p _ =>
      match p with
      | Probe.stays_on_the_bottom => true
      | _ => false }

/-- The monster `m` holding the record `r` under its kind, cache bit set. -/
def monster.holding (m : monster) (r : mon_enchant) : monster :=
  { m with enchantments := Function.update m.enchantments r.ench (some r),
           ench_cache := Function.update m.ench_cache r.ench true }

/-- The monster after `add_ench` of each record of the list in turn. -/
def monster.add_all (env : Env) (m : monster) : List mon_enchant → monster
  | [] => m
  | e :: es => monster.add_all env (m.add_ench env e).2 es

/-- Whether every `add_ench` of the list, run in turn, returns true. -/
def monster.all_added (env : Env) (m : monster) : List mon_enchant → Bool
  | [] => true
  | e :: es => (m.add_ench env e).1 && monster.all_added env (m.add_ench env e).2 es

/-- A poisoned monster: `blank` with a degree-2 poison record of duration 100. -/
def envenomed : monster :=
  blank.holding (mon_enchant.make ENCH_POISON 2 none 100)

/-- A summoned monster: `blank` with an abjuration record of duration 50. -/
def summoned : monster :=
  blank.holding (mon_enchant.make ENCH_ABJ 1 none 50)

/-- A submerged monster: `blank` with a submersion record of duration 5. -/
def lurker : monster :=
  blank.holding (mon_enchant.make ENCH_SUBMERGED 1 none 5)

/-- A monster that was frightened and then went berserk, by two `add_ench`
calls on `blank`. -/
def frightened_berserker : monster :=
  ((blank.add_ench wary (mon_enchant.make ENCH_FEAR 1 none 100)).2.add_ench wary
    (mon_enchant.make ENCH_BERSERK 1 none 100)).2

/-- A monster whose poison has ten ticks less than `INFINITE_DURATION` left. -/
def long_poisoned (env : Env) : monster :=
  blank.holding (mon_enchant.make ENCH_POISON 1 none (env.INFINITE_DURATION - 10))

/-- The monster `m` with the record `r` written under its kind, nothing else
changing. -/
def monster.storing (m : monster) (r : mon_enchant) : monster :=
  { m with enchantments := Function.update m.enchantments r.ench (some r) }

/-- The function `monster::clear_far_engulf`: drop the water hold when its
agent is gone or no longer adjacent. -/
def monster.clear_far_engulf (env : Env) (m : monster) : Bool × monster :=
  let me := m.get_ench ENCH_WATER_HOLD ENCH_NONE
  if me.ench = ENCH_NONE then (false, m)
  else if env.test (Probe.agent_not_adjacent me.source) m then
    (true, (m.del_ench env ENCH_WATER_HOLD false true).2)
  else (false, m)

/-- The function `monster::apply_enchantment`, the tick hook.  `me` is the
record the caller found under its kind.  A call `decay_enchantment(en)` that
leaves out `decay_degree` passes `env.decay_degree_default`; a record built from
a kind alone has degree 0, no agent and duration 0.  Assertions are left out. -/
def monster.apply_enchantment (env : Env) (m : monster) (me : mon_enchant) : monster :=
  let en := me.ench
  let dflt := env.decay_degree_default
  if en = ENCH_INSANE ∨ en = ENCH_BERSERK then
    let d := m.decay_enchantment env en dflt
    if d.1 then
      let duration := env.random_range 70 130
      let m1 := (d.2.add_ench env (mon_enchant.make ENCH_FATIGUE 0 none duration)).2
      (m1.add_ench env (mon_enchant.make ENCH_SLOW 0 none duration)).2
    else d.2
  else if en = ENCH_FATIGUE then
    let d := m.decay_enchantment env en dflt
    if d.1 then (d.2.del_ench env ENCH_SLOW true true).2 else d.2
  else if en = ENCH_WITHDRAWN then
    if m.hit_points ≥ m.max_hit_points - Int.tdiv m.max_hit_points 4
        ∧ env.test (Probe.one_chance_in 3 0) m = false then
      (m.del_ench env ENCH_WITHDRAWN false true).2
    else (m.decay_enchantment env en dflt).2
  else if en = ENCH_SLOW ∨ en = ENCH_HASTE ∨ en = ENCH_SWIFT ∨ en = ENCH_MIGHT ∨ en = ENCH_FEAR
      ∨ en = ENCH_PARALYSIS ∨ en = ENCH_PETRIFYING ∨ en = ENCH_PETRIFIED ∨ en = ENCH_SICK
      ∨ en = ENCH_CORONA ∨ en = ENCH_ABJ ∨ en = ENCH_CHARM ∨ en = ENCH_SLEEP_WARY
      ∨ en = ENCH_LOWERED_MR ∨ en = ENCH_SOUL_RIPE ∨ en = ENCH_TIDE ∨ en = ENCH_REGENERATION
      ∨ en = ENCH_RAISED_MR ∨ en = ENCH_STONESKIN ∨ en = ENCH_FEAR_INSPIRING
      ∨ en = ENCH_LIFE_TIMER ∨ en = ENCH_FLIGHT ∨ en = ENCH_DAZED ∨ en = ENCH_FAKE_ABJURATION
      ∨ en = ENCH_RECITE_TIMER ∨ en = ENCH_INNER_FLAME ∨ en = ENCH_MUTE ∨ en = ENCH_BLIND
      ∨ en = ENCH_DUMB ∨ en = ENCH_MAD ∨ en = ENCH_BREATH_WEAPON ∨ en = ENCH_WRETCHED
      ∨ en = ENCH_SCREAMED ∨ en = ENCH_WEAK ∨ en = ENCH_AWAKEN_VINES ∨ en = ENCH_FIRE_VULN
      ∨ en = ENCH_BARBS ∨ en = ENCH_POISON_VULN ∨ en = ENCH_DIMENSION_ANCHOR ∨ en = ENCH_AGILE
      ∨ en = ENCH_FROZEN ∨ en = ENCH_EPHEMERAL_INFUSION ∨ en = ENCH_SAP_MAGIC
      ∨ en = ENCH_CORROSION ∨ en = ENCH_GOLD_LUST ∨ en = ENCH_RESISTANCE ∨ en = ENCH_HEXED then
    (m.decay_enchantment env en dflt).2
  else if en = ENCH_ANTIMAGIC then
    if m.has_ench ENCH_SAP_MAGIC = false then (m.decay_enchantment env en dflt).2 else m
  else if en = ENCH_MIRROR_DAMAGE then (m.decay_enchantment env en dflt).2
  else if en = ENCH_SILENCE ∨ en = ENCH_LIQUEFYING then (m.decay_enchantment env en dflt).2
  else if en = ENCH_BATTLE_FRENZY ∨ en = ENCH_ROUSED ∨ en = ENCH_DRAINED then
    (m.decay_enchantment env en false).2
  else if en = ENCH_AQUATIC_LAND then
    if env.test Probe.feat_is_watery m then (m.del_ench env ENCH_AQUATIC_LAND false true).2
    else if env.test Probe.mons_is_zombified m then m
    else env.call (Call.hurt_by en me.source (1 + env.random2 5)) m
  else if en = ENCH_HELD then m
  else if en = ENCH_CONFUSION then
    if env.test Probe.class_confused m = false then (m.decay_enchantment env en dflt).2 else m
  else if en = ENCH_INVIS then
    if env.test Probe.class_invis m = false then (m.decay_enchantment env en dflt).2 else m
  else if en = ENCH_SUBMERGED then
    if env.test Probe.is_harmless_cloud m = false then m
    else if m.type = monster_type.MONS_AIR_ELEMENTAL then
      let m1 := env.call (Call.heal_in_air (env.test (Probe.one_chance_in 5 0) m)) m
      if env.test (Probe.one_chance_in 5 1) m1 then (m1.del_ench env ENCH_SUBMERGED false true).2
      else m1
    else if env.test Probe.monster_can_submerge m = false then
      if env.test Probe.forced_to_surface m then (m.del_ench env ENCH_SUBMERGED false true).2
      else m
    else if env.test Probe.mons_landlubbers_in_reach m then
      env.call Call.make_mons_stop_fleeing (m.del_ench env ENCH_SUBMERGED false true).2
    else m
  else if en = ENCH_POISON then
    let poisonval := me.degree
    let dam0 : Int := if poisonval ≥ 4 then 1 else 0
    let dam1 : Int :=
      if env.test (Probe.coinflip 0) m then dam0 + env.roll_dice 1 (poisonval + 1) else dam0
    let dam : Int :=
      if env.test Probe.res_poison_negative m then dam1 + (env.roll_dice 2 poisonval - 1)
      else dam1
    let m1 := if dam > 0 then env.call (Call.hurt_by en me.source dam) m else m
    (m1.decay_enchantment env en true).2
  else if en = ENCH_ROT then
    let m1 :=
      if m.hit_points > 1 ∧ env.test (Probe.one_chance_in 3 0) m = true then
        let h := env.call (Call.hurt_by en me.source 1) m
        if h.hit_points < h.max_hit_points ∧ env.test (Probe.coinflip 0) h = true then
          { h with max_hit_points := h.max_hit_points - 1 }
        else h
      else m
    (m1.decay_enchantment env en true).2
  else if en = ENCH_STICKY_FLAME then
    if env.test Probe.flames_go_out m then (m.del_ench env ENCH_STICKY_FLAME false true).2
    else ((env.call (Call.burn me.source me.degree) m).decay_enchantment env en true).2
  else if en = ENCH_SHORT_LIVED then
    let d := m.decay_enchantment env en dflt
    if d.1 then env.call Call.suicide d.2 else d.2
  else if en = ENCH_SLOWLY_DYING then
    let d := m.decay_enchantment env en dflt
    if d.1 then env.call (Call.monster_die killer_type.KILL_MISC) d.2 else d.2
  else if en = ENCH_SPORE_PRODUCTION then
    let d := m.decay_enchantment env en dflt
    if d.1 then
      let m1 := env.call Call.spawn_spore d.2
      if env.test Probe.ballisto_went_inactive m1 then
        ((env.call Call.turn_magenta m1).del_ench env ENCH_SPORE_PRODUCTION false true).2
      else (m1.add_ench env (mon_enchant.make ENCH_SPORE_PRODUCTION 0 none 0)).2
    else d.2
  else if en = ENCH_EXPLODING then
    let d := m.decay_enchantment env en dflt
    if d.1 then
      let m1 := env.call Call.explode d.2
      if env.test Probe.alive m1 = true ∧ m1.type = d.2.type then
        (m1.add_ench env (mon_enchant.make ENCH_EXPLODING 0 none 0)).2
      else m1
    else d.2
  else if en = ENCH_PORTAL_TIMER then
    let d := m.decay_enchantment env en dflt
    if d.1 then
      let m1 := env.call Call.close_portal d.2
      let m2 := (m1.add_ench env (mon_enchant.make ENCH_SEVERED 0 none 0)).2
      env.call (Call.turn_attitude false) m2
    else d.2
  else if en = ENCH_PORTAL_PACIFIED then
    let d := m.decay_enchantment env en dflt
    if d.1 then
      if d.2.has_ench ENCH_SEVERED then d.2
      else if env.test Probe.friendly d.2 = false then d.2
      else env.call (Call.turn_attitude true) d.2
    else d.2
  else if en = ENCH_SEVERED then env.call (Call.writhe me.source) m
  else if en = ENCH_GLOWING_SHAPESHIFTER then
    if env.test Probe.cannot_change_shape m = false
        ∧ (m.type = monster_type.MONS_GLOWING_SHAPESHIFTER
          ∨ env.test (Probe.one_chance_in 4 0) m = true) then
      env.call Call.monster_polymorph m
    else m
  else if en = ENCH_SHAPESHIFTER then
    if env.test Probe.cannot_change_shape m = false
        ∧ (m.type = monster_type.MONS_SHAPESHIFTER
          ∨ env.test (Probe.x_chance_in_y
              (Int.tdiv 1000 (Int.tdiv (15 * max 1 m.hit_dice) 5)) 1000) m = true) then
      env.call Call.monster_polymorph m
    else m
  else if en = ENCH_TP then
    let d := m.decay_enchantment env en true
    if d.1 = true ∧ env.test Probe.no_tele d.2 = false then env.call Call.monster_teleport d.2
    else d.2
  else if en = ENCH_EAT_ITEMS then m
  else if en = ENCH_AWAKEN_FOREST then
    ((env.call Call.forest_damage m).decay_enchantment env en dflt).2
  else if en = ENCH_TORNADO then
    let m1 := env.call (Call.tornado_damage (env.speed_to_duration m.speed)) m
    let d := m1.decay_enchantment env en dflt
    if d.1 then (d.2.add_ench env (mon_enchant.make ENCH_TORNADO_COOLDOWN 0 none 0)).2
    else d.2
  else if en = ENCH_BLEED then
    ((env.call (Call.bleed me.source me.degree) m).decay_enchantment env en true).2
  else if en = ENCH_SILVER_CORONA then
    let m1 :=
      if env.test Probe.how_chaotic m then
        env.call (Call.hurt_by en me.source (env.roll_dice 2 4 - 1)) m
      else m
    (m1.decay_enchantment env en true).2
  else if en = ENCH_WORD_OF_RECALL then
    if env.test Probe.incapacitated m = true ∨ m.has_ench ENCH_FEAR = true
        ∨ m.has_ench ENCH_BREATH_WEAPON = true
        ∨ (m.has_ench ENCH_WATER_HOLD = true ∧ env.test Probe.res_water_drowning_none m = true)
        ∨ m.has_ench ENCH_MUTE = true then
      ((env.call (Call.refund_time me.duration) m).del_ench env ENCH_WORD_OF_RECALL true false).2
    else
      let d := m.decay_enchantment env en dflt
      if d.1 then
        let m1 := env.call (Call.mons_word_of_recall (3 + env.random2 5)) d.2
        (m1.add_ench env (mon_enchant.make ENCH_BREATH_WEAPON 1 (some (env.self_agent m1))
          ((4 + env.random2 9) * env.BASELINE_DELAY))).2
      else d.2
  else if en = ENCH_INJURY_BOND then
    if env.test (Probe.agent_gone me.source) m = true
        ∨ env.test (Probe.agent_anonymous me.source) m = true then
      (m.del_ench env ENCH_INJURY_BOND true false).2
    else (m.decay_enchantment env en dflt).2
  else if en = ENCH_WATER_HOLD then
    let c := m.clear_far_engulf env
    if c.1 = false then
      if env.test Probe.res_water_drowning_not_positive c.2 then
        let l := c.2.lose_ench_duration env me (- env.speed_to_duration c.2.speed)
        env.call (Call.drown me.source) l.2
      else c.2
    else c.2
  else if en = ENCH_FLAYED then
    if env.test Probe.flayed_ghost_near m = false then (m.decay_enchantment env en dflt).2 else m
  else if en = ENCH_HAUNTING then
    if env.test (Probe.agent_gone me.source) m then (m.del_ench env ENCH_HAUNTING false true).2
    else m
  else if en = ENCH_CONTROL_WINDS then
    ((env.call Call.apply_control_winds m).decay_enchantment env en dflt).2
  else if en = ENCH_TOXIC_RADIANCE then
    ((env.call Call.toxic_radiance_effect m).decay_enchantment env en dflt).2
  else if en = ENCH_GRASPING_ROOTS_SOURCE then
    let m1 := env.call Call.apply_grasping_roots m
    if env.test Probe.found_hostile m1 = false then (m1.decay_enchantment env en dflt).2 else m1
  else if en = ENCH_GRASPING_ROOTS then env.call Call.check_grasping_roots m
  else if en = ENCH_TORNADO_COOLDOWN then (m.decay_enchantment env en dflt).2
  else if en = ENCH_DEATHS_DOOR then
    let d := m.decay_enchantment env en dflt
    if d.1 then
      (d.2.add_ench env (mon_enchant.make ENCH_FATIGUE 0 none
        ((1 + env.random2 3) * env.BASELINE_DELAY))).2
    else d.2
  else if en = ENCH_MERFOLK_AVATAR_SONG then
    if env.test Probe.incapacitated m = true ∨ m.has_ench ENCH_FEAR = true then
      (m.del_ench env ENCH_MERFOLK_AVATAR_SONG true false).2
    else
      let m1 := env.call Call.merfolk_avatar_song m
      if env.test Probe.player_out_of_view m1 then (m1.decay_enchantment env en dflt).2 else m1
  else if en = ENCH_GRAND_AVATAR then
    if env.test (Probe.agent_gone me.source) m then
      (m.del_ench env ENCH_GRAND_AVATAR true false).2
    else m
  else m

/-- The test `enchantments.empty()`; the keys of the table are kinds, which lie
below `NUM_ENCHANTMENTS`. -/
def monster.enchantments_empty (m : monster) : Bool :=
  (List.range NUM_ENCHANTMENTS).all fun k => (m.enchantments k).isNone

/-- The loop of `monster::apply_enchantments` when it reaches kind `i`, run with
the hook `tick` and the snapshot `ec`: the monster, and the kinds whose hook has
been invoked so far, in the order of the invocations (this list is kept only to
state properties of the dispatch).  The result is `none` when the loop
dereferenced `enchantments.find(k)` for a kind whose cache bit is set while the
table has no record of it. -/
def monster.apply_enchantments_upto (tick : monster → mon_enchant → monster)
    (ec : enchant_type → Bool) (m : monster) : Nat → Option (monster × List enchant_type)
  | 0 => some (m, [])
  | i + 1 =>
    match monster.apply_enchantments_upto tick ec m i with
    | none => none
    | some s =>
      if ec i && s.1.has_ench i then
        match s.1.enchantments i with
        | some me => some (tick s.1 me, s.2 ++ [i])
        | none => none
      else some s

/-- The function `monster::apply_enchantments`: one pass over the kinds, with
the list of the kinds whose hook was invoked. -/
def monster.apply_enchantments (env : Env) (m : monster) :
    Option (monster × List enchant_type) :=
  if m.enchantments_empty then some (m, [])
  else monster.apply_enchantments_upto (monster.apply_enchantment env) m.ench_cache m
    NUM_ENCHANTMENTS

/-- The table `enchant_names`, with the `TAG_MAJOR_VERSION == 34` entries. -/
def enchant_names : List String :=
  ["none", "berserk", "haste", "might", "fatigue", "slow", "fear",
   "confusion", "invis", "poison", "rot", "summon", "abj", "corona",
   "charm", "sticky_flame", "glowing_shapeshifter", "shapeshifter", "tp",
   "sleep_wary", "submerged", "short_lived", "paralysis", "sick",
   "sleepy",
   "held", "battle_frenzy",
   "temp_pacif",
   "petrifying",
   "petrified", "lowered_mr", "soul_ripe", "slowly_dying", "eat_items",
   "aquatic_land", "spore_production",
   "slouch",
   "swift", "tide",
   "insane", "silenced", "awaken_forest", "exploding", "bleeding",
   "tethered", "severed", "antimagic",
   "fading_away", "preparing_resurrect",
   "regen",
   "magic_res", "mirror_dam", "stoneskin", "fear inspiring", "temporarily pacified",
   "withdrawn", "attached", "guardian_timer", "flight",
   "liquefying", "tornado", "fake_abjuration",
   "dazed", "mute", "blind", "dumb", "mad", "silver_corona", "recite timer",
   "inner_flame", "roused", "breath timer", "deaths_door", "rolling",
   "ozocubus_armour", "wretched", "screamed", "rune_of_recall", "injury bond",
   "drowning", "flayed", "haunting",
   "retching",
   "weak", "dimension_anchor", "awaken vines", "control_winds",
   "wind_aided",
   "summon_capped",
   "toxic_radiance", "grasping_roots_source", "grasping_roots",
   "iood_charged", "fire_vuln", "tornado_cooldown", "merfolk_avatar_song",
   "barbs",
   "building_charge",
   "poison_vuln", "icemail", "agile",
   "frozen", "ephemeral_infusion", "black_mark", "grand_avatar",
   "sap magic", "shroud", "phantom_mirror", "bribed", "permabribed",
   "corrosion", "gold_lust", "drained", "repel missiles",
   "deflect missiles",
   "negative_vuln",
   "condensation_shield", "resistant",
   "hexed", "corpse_armour", "buggy"]

/-- The function `_mons_enchantment_name`; the index is within the table after
the clamp. -/
def _mons_enchantment_name (ench : enchant_type) : String :=
  let ench := if ench > NUM_ENCHANTMENTS then NUM_ENCHANTMENTS else ench
  enchant_names.getD ench ""

/-- The loop of `name_to_ench`, from index `i` over `n` entries. -/
def name_to_ench_loop (name : String) (i : Nat) : Nat → enchant_type
  | 0 => ENCH_NONE
  | n + 1 => if name = enchant_names.getD i "" then i else name_to_ench_loop name (i + 1) n

/-- The function `name_to_ench`: the index of the first entry of `enchant_names`
equal to `name`, or `ENCH_NONE`. -/
def name_to_ench (name : String) : enchant_type :=
  name_to_ench_loop name ENCH_NONE (enchant_names.length - ENCH_NONE)

/-- The monster after `n` ticks, each a call `decay_enchantment(en, decay_degree)`. -/
def monster.decay_ticks (env : Env) (en : enchant_type) (decay_degree : Bool) :
    Nat → monster → monster
  | 0, m => m
  | n + 1, m => monster.decay_ticks env en decay_degree n (m.decay_enchantment env en decay_degree).2

/-- Kinds whose case of `calc_duration` returns its value directly instead of
going through the final floor and fuzz. -/
def returns_directly (k : enchant_type) : Bool :=
  k = ENCH_SLOWLY_DYING || k = ENCH_SPORE_PRODUCTION || k = ENCH_EXPLODING
    || k = ENCH_PORTAL_PACIFIED || k = ENCH_BREATH_WEAPON || k = ENCH_INNER_FLAME
    || k = ENCH_BERSERK

/-- The test of the degree-decay rule of `decay_enchantment` on the record `r`
that a call found: degree decay is asked for, the degree is above 1, and the
duration is below the fraction `(f - 1) / f` of `maxduration`, where `f` is
`degree * (degree + 1) / 2`. -/
def mon_enchant.degree_decays (r : mon_enchant) (decay_degree : Bool) : Bool :=
  decay_degree && decide (r.degree > 1)
    && decide (r.duration < Int.tdiv (r.maxduration * (Int.tdiv (r.degree * (r.degree + 1)) 2 - 1))
        (Int.tdiv (r.degree * (r.degree + 1)) 2))

/-- Summary of one call of `decay_enchantment` on the record `r` it finds, for a
per-call delta `delta`: `none` when the duration runs out, else the record the
call leaves in the table (theorem `decay_enchantment_after_tick`). -/
def mon_enchant.after_tick (r : mon_enchant) (delta : Int) (decay_degree : Bool) :
    Option mon_enchant :=
  if r.duration ≤ delta then none
  else if r.degree_decays decay_degree then
    some { r with degree := r.degree - 1, maxduration := r.duration }
  else some { r with duration := r.duration - delta }

/-- The record after `n` calls, each summarised by `after_tick`. -/
def mon_enchant.after_ticks (delta : Int) (decay_degree : Bool) :
    Nat → mon_enchant → Option mon_enchant
  | 0, r => some r
  | n + 1, r =>
    match r.after_tick delta decay_degree with
    | none => none
    | some r' => mon_enchant.after_ticks delta decay_degree n r'

/-- A world like `still` in which a tick of a monster of speed `s` lasts
`100 / s` time units. -/
def paced : Env :=
  { still with speed_to_duration := fun s => Int.tdiv 100 s }

/-- A monster of speed 100 held in a net: a degree-2 record of duration 2 whose
`maxduration` is 100. -/
def netted : monster :=
  ({ blank with speed := 100 } : monster).holding
    { ench := ENCH_HELD, degree := 2, duration := 2, maxduration := 100 }

/-- A berserk, hasted monster: `blank` with a berserk record of duration 5 and a
haste record of duration 100. -/
def raging : monster :=
  (blank.holding (mon_enchant.make ENCH_BERSERK 1 none 5)).holding
    (mon_enchant.make ENCH_HASTE 1 none 100)

/-- A tired, slowed monster: `blank` with a fatigue record of duration 5 and a
slowness record of duration 100. -/
def tired : monster :=
  (blank.holding (mon_enchant.make ENCH_FATIGUE 1 none 5)).holding
    (mon_enchant.make ENCH_SLOW 1 none 100)

/-- A monster turning to stone: `blank` with a petrifying record of duration
100 and a petrified record of duration 5. -/
def statue : monster :=
  (blank.holding (mon_enchant.make ENCH_PETRIFYING 1 none 100)).holding
    (mon_enchant.make ENCH_PETRIFIED 1 none 5)

/-- A monster like `blank` but of speed 30. -/
def fleet : monster :=
  { blank with speed := 30 }

/-- The durations of the abjuration kinds before the fuzz, on a speed-10
monster, in the words of the spec: 100, 200, 300, 400, 900 and 1900 ticks for
degrees 1 to 6, degree 0 counting as degree 1 and every degree above 6 as
degree 6. -/
def abj_documented_ticks (deg : Int) : Int :=
  if deg ≤ 1 then 100
  else if deg = 2 then 200
  else if deg = 3 then 300
  else if deg = 4 then 400
  else if deg = 5 then 900
  else 1900

/-- A world in which healing and hurting work: `heal(amount)` succeeds and adds
`amount` to the hit points, `hurt(nullptr, dam)` takes `dam` off; every other
collaborator is as in `still`. -/
def hale : Env :=
  { still with
    heal := fun m a => (true, { m with hit_points := m.hit_points + a })
    call := fun c m =>
      match c with
      | Call.hurt dam => { m with hit_points := m.hit_points - dam }
      | _ => m }

/-- A monster at 5 of 10 hit points with no enchantment and nothing stashed. -/
def wounded : monster :=
  { blank with hit_points := 5 }

/-- The infusion record the examples add: degree 4, duration 100. -/
def infusion : mon_enchant :=
  mon_enchant.make ENCH_EPHEMERAL_INFUSION 4 none 100

/-- Integer division of C++ as a partial operation: no result on a zero
divisor, the truncated quotient otherwise. -/
def checked_div (a b : Int) : Option Int :=
  if b = 0 then none else some (Int.tdiv a b)

/-- The function `_mod_speed` with its division made partial. -/
def _mod_speed_checked (val speed : Int) : Option Int :=
  let speed := if speed = 0 then 10 else speed
  (checked_div (val * 10) speed).map (fun modded => if modded ≠ 0 then modded else 1)

/-- The function `mon_enchant::modded_speed` with its division made partial. -/
def mon_enchant.modded_speed_checked (mons : monster) (hdplus : Int) : Option Int :=
  _mod_speed_checked (mons.hit_dice + hdplus) mons.speed

/-- The quotient `a / d` when the divisor `d` is itself the result of a partial
computation. -/
def div_by (a : Int) (d : Option Int) : Option Int :=
  d.bind (checked_div a)

/-- The function `mon_enchant::calc_duration` with every division made partial:
no result when a divisor is zero.  The cases, their order and their formulas
are those of `calc_duration`. -/
def mon_enchant.calc_duration_checked (env : Env) (self : mon_enchant) (mons : monster)
    (added : Option mon_enchant) : Option Int :=
  let newdegree : Int := match added with
    | some a => a.degree
    | none => self.degree
  let deg : Int := if newdegree ≠ 0 then newdegree else 1
  let fuzzed (cturn : Int) : Int :=
    let cturn := max 2 cturn
    let raw_duration := cturn * env.speed_to_duration mons.speed
    max 15 (env.fuzz_value raw_duration 60 40)
  let ms (val : Int) : Option Int := _mod_speed_checked val mons.speed
  let hd (hdplus : Int) : Option Int := mon_enchant.modded_speed_checked mons hdplus
  let e := self.ench
  if e = ENCH_WITHDRAWN then (div_by 5000 (ms 25)).map fuzzed
  else if e = ENCH_SWIFT then (div_by 1000 (ms 25)).map fuzzed
  else if e = ENCH_HASTE ∨ e = ENCH_MIGHT ∨ e = ENCH_INVIS ∨ e = ENCH_FEAR_INSPIRING
      ∨ e = ENCH_STONESKIN ∨ e = ENCH_AGILE ∨ e = ENCH_BLACK_MARK ∨ e = ENCH_RESISTANCE then
    (div_by 1000 (ms 25)).map fuzzed
  else if e = ENCH_LIQUEFYING ∨ e = ENCH_SILENCE ∨ e = ENCH_REGENERATION ∨ e = ENCH_RAISED_MR
      ∨ e = ENCH_MIRROR_DAMAGE ∨ e = ENCH_DEATHS_DOOR ∨ e = ENCH_SAP_MAGIC then
    (div_by 300 (ms 25)).map fuzzed
  else if e = ENCH_SLOW ∨ e = ENCH_CORROSION then
    (div_by 250 ((hd 10).map (fun s => 1 + s))).map fuzzed
  else if e = ENCH_FEAR then (div_by 150 ((hd 5).map (fun s => 1 + s))).map fuzzed
  else if e = ENCH_PARALYSIS then (div_by 90 (hd 5)).map (fun q => fuzzed (max q 3))
  else if e = ENCH_PETRIFIED then
    (div_by 150 ((hd 5).map (fun s => 1 + s))).map (fun q => fuzzed (max 8 q))
  else if e = ENCH_DAZED ∨ e = ENCH_PETRIFYING then (div_by 50 (ms 10)).map fuzzed
  else if e = ENCH_CONFUSION then (div_by 100 (hd 5)).map (fun q => fuzzed (max q 3))
  else if e = ENCH_HELD then (div_by 120 (ms 25)).map fuzzed
  else if e = ENCH_POISON then (div_by (1000 * deg) (ms 125)).map fuzzed
  else if e = ENCH_STICKY_FLAME then (div_by (1000 * deg) (ms 200)).map fuzzed
  else if e = ENCH_ROT then
    let cturn : Option Int := if deg > 1 then div_by (1000 * (deg - 1)) (ms 333) else some 0
    cturn.bind (fun c => (div_by 1000 (ms 250)).map (fun q => fuzzed (c + q)))
  else if e = ENCH_CORONA ∨ e = ENCH_SILVER_CORONA then
    let cturn : Option Int := if deg > 1 then div_by (1000 * (deg - 1)) (ms 200) else some 0
    cturn.bind (fun c => (div_by 1000 (ms 100)).map (fun q => fuzzed (c + q)))
  else if e = ENCH_SHORT_LIVED then (div_by 1200 (ms 200)).map fuzzed
  else if e = ENCH_SLOWLY_DYING then
    some ((2 * env.FRESHEST_CORPSE + env.random2 10) * env.speed_to_duration mons.speed)
  else if e = ENCH_SPORE_PRODUCTION then some (env.random_range 475 525 * 10)
  else if e = ENCH_EXPLODING then some (env.random_range 3 7 * 10)
  else if e = ENCH_PORTAL_PACIFIED then some 0
  else if e = ENCH_BREATH_WEAPON then some 0
  else if e = ENCH_PORTAL_TIMER then (div_by (30 * 10) (ms 10)).map fuzzed
  else if e = ENCH_FAKE_ABJURATION ∨ e = ENCH_ABJ then
    let c1 : Option Int := if deg ≥ 6 then div_by 1000 (ms 10) else some 0
    let c2 : Option Int :=
      if deg ≥ 5 then c1.bind (fun c => (div_by 1000 (ms 20)).map (fun q => c + q)) else c1
    c2.bind (fun c => (div_by (1000 * min 4 deg) (ms 100)).map (fun q => fuzzed (c + q)))
  else if e = ENCH_CHARM ∨ e = ENCH_HEXED then (div_by 500 (hd 10)).map fuzzed
  else if e = ENCH_TP then (div_by (1000 * deg) (ms 1000)).map fuzzed
  else if e = ENCH_SLEEP_WARY then (div_by 1000 (ms 50)).map fuzzed
  else if e = ENCH_LIFE_TIMER then (div_by (10 * (4 + env.random2 4)) (ms 10)).map fuzzed
  else if e = ENCH_INNER_FLAME then some (env.random_range 25 35 * 10)
  else if e = ENCH_BERSERK then some ((16 + env.random2avg 13 2) * 10)
  else if e = ENCH_ROLLING then (div_by 10000 (ms 25)).map fuzzed
  else if e = ENCH_WRETCHED then (div_by ((20 + env.roll_dice 3 10) * 10) (ms 10)).map fuzzed
  else if e = ENCH_TORNADO_COOLDOWN then
    (div_by (env.random_range 25 35 * 10) (ms 10)).map fuzzed
  else if e = ENCH_EPHEMERAL_INFUSION then (div_by 150 (ms 25)).map fuzzed
  else if e = ENCH_FROZEN then some (fuzzed (3 * env.BASELINE_DELAY))
  else some (fuzzed 0)

/-- Modelled from the spec: `monster_die`, which the on-remove hooks call and
the source file does not contain.  The spec has these hooks "end the agent's
existence outright"; an agent that no longer exists has no active enchantment,
so its table and its presence cache are empty afterwards. -/
def monster.died (m : monster) : monster :=
  { m with enchantments := fun _ => none, ench_cache := fun _ => false }

/-- Collaborators that treat the table as the spec has it: `monster_die` leaves
it as `died` does; every other procedure leaves it alone or, when it ends the
monster, as `died` does; `heal` and the search for room to surface leave it
alone. -/
def Env.mortal (env : Env) : Prop :=
  (∀ kt m, (env.call (Call.monster_die kt) m).enchantments = m.died.enchantments ∧
      (env.call (Call.monster_die kt) m).ench_cache = m.died.ench_cache) ∧
  (∀ c m, ((env.call c m).enchantments = m.enchantments ∧
        (env.call c m).ench_cache = m.ench_cache) ∨
      ((env.call c m).enchantments = m.died.enchantments ∧
        (env.call c m).ench_cache = m.died.ench_cache)) ∧
  (∀ m a, (env.heal m a).2.enchantments = m.enchantments ∧
      (env.heal m a).2.ench_cache = m.ench_cache) ∧
  (∀ m, (env.find_room_to_surface m).2.enchantments = m.enchantments ∧
      (env.find_room_to_surface m).2.ench_cache = m.ench_cache)

/-- The kind `i` is not in the table and its cache bit is clear. -/
def gone_at (i : enchant_type) (m : monster) : Prop :=
  m.enchantments i = none ∧ m.ench_cache i = false

/-- A world like `still` in which `monster_die` ends the monster. -/
def fatal : Env :=
  { still with
    call := fun c m =>
      match c with
      | Call.monster_die _ => m.died
      | _ => m }

/-! ## Unfolding of the table operations -/

theorem del_ench_eq (env : Env) (m : monster) (ench : enchant_type) (quiet effect : Bool) :
    m.del_ench env ench quiet effect =
      match m.enchantments ench with
      | none => (false, m)
      | some me =>
        if (_prepare_del_ench env m me).1 = false then (false, (_prepare_del_ench env m me).2)
        else if effect then
          (true, monster.remove_enchantment_effect env
            ((_prepare_del_ench env m me).2.erase ench) me quiet)
        else (true, (_prepare_del_ench env m me).2.erase ench) := by
  rw [monster.del_ench]
  split <;> simp_all

theorem del_ench_none (env : Env) (m : monster) (k : enchant_type) (quiet effect : Bool)
    (h : m.enchantments k = none) : m.del_ench env k quiet effect = (false, m) := by
  rw [del_ench_eq, h]

theorem add_ench_eq (env : Env) (m : monster) (ench : mon_enchant) :
    m.add_ench env ench =
      if ench.ench = ENCH_NONE then (false, m)
      else if ench.ench = ENCH_FEAR
          ∧ (env.test Probe.nonliving m = true ∨ env.test Probe.berserk_or_insane m = true) then
        (false, m)
      else if ench.ench = ENCH_BLIND ∧ env.mons_can_be_blinded m.type = false then (false, m)
      else
        let m1 : monster :=
          if ench.ench = ENCH_FLIGHT ∧ m.has_ench ENCH_LIQUEFYING = true then
            (monster.del_ench env m ENCH_LIQUEFYING false true).2
          else m
        match m1.enchantments ench.ench with
        | some cur =>
          let added := cur.add_assign env ench
          let m2 : monster :=
            { m1 with enchantments := Function.update m1.enchantments ench.ench (some added) }
          let added := if ench.duration = 0 then added.set_duration env m2 (some ench) else added
          (true, { m2 with enchantments := Function.update m2.enchantments ench.ench (some added) })
        | none =>
          let m2 : monster :=
            { m1 with enchantments := Function.update m1.enchantments ench.ench (some ench),
                      ench_cache := Function.update m1.ench_cache ench.ench true }
          let added := if ench.duration = 0 then ench.set_duration env m2 none else ench
          let m3 : monster :=
            { m2 with enchantments := Function.update m2.enchantments ench.ench (some added) }
          (true, monster.add_enchantment_effect env m3 ench false) := by
  rw [monster.add_ench]

/-! ## Merging two records -/

theorem cap_degree_ench (s : mon_enchant) : s.cap_degree.ench = s.ench := by
  simp only [mon_enchant.cap_degree]
  split_ifs <;> rfl

theorem cap_degree_duration (s : mon_enchant) : s.cap_degree.duration = s.duration := by
  simp only [mon_enchant.cap_degree]
  split_ifs <;> rfl

theorem cap_degree_maxduration (s : mon_enchant) : s.cap_degree.maxduration = s.maxduration := by
  simp only [mon_enchant.cap_degree]
  split_ifs <;> rfl

theorem cap_degree_who (s : mon_enchant) : s.cap_degree.who = s.who := by
  simp only [mon_enchant.cap_degree]
  split_ifs <;> rfl

theorem cap_degree_degree (s : mon_enchant) :
    s.cap_degree.degree =
      if s.ench = ENCH_SICK ∨ s.ench = ENCH_DRAINED then s.degree
      else if s.ench = ENCH_ABJ ∨ s.ench = ENCH_FAKE_ABJURATION then min 6 s.degree
      else min 4 s.degree := by
  unfold mon_enchant.cap_degree
  by_cases h1 : s.ench = ENCH_SICK ∨ s.ench = ENCH_DRAINED
  · rw [if_pos h1, if_pos h1]
  · rw [if_neg h1, if_neg h1]
    by_cases h2 : s.ench = ENCH_ABJ ∨ s.ench = ENCH_FAKE_ABJURATION
    · simp only [if_pos h2]
      by_cases h3 : s.degree > 6
      · rw [if_pos h3]
        exact (min_eq_left (le_of_lt h3)).symm
      · rw [if_neg h3]
        exact (min_eq_right (not_lt.mp h3)).symm
    · simp only [if_neg h2]
      by_cases h3 : s.degree > 4
      · rw [if_pos h3]
        exact (min_eq_left (le_of_lt h3)).symm
      · rw [if_neg h3]
        exact (min_eq_right (not_lt.mp h3)).symm

theorem merge_killer_ench (s : mon_enchant) (k : kill_category) (m : Nat) :
    (s.merge_killer k m).ench = s.ench := by
  unfold mon_enchant.merge_killer
  split_ifs <;> rfl

theorem merge_killer_degree (s : mon_enchant) (k : kill_category) (m : Nat) :
    (s.merge_killer k m).degree = s.degree := by
  unfold mon_enchant.merge_killer
  split_ifs <;> rfl

theorem merge_killer_duration (s : mon_enchant) (k : kill_category) (m : Nat) :
    (s.merge_killer k m).duration = s.duration := by
  unfold mon_enchant.merge_killer
  split_ifs <;> rfl

theorem merge_killer_maxduration (s : mon_enchant) (k : kill_category) (m : Nat) :
    (s.merge_killer k m).maxduration = s.maxduration := by
  unfold mon_enchant.merge_killer
  split_ifs <;> rfl

theorem merge_killer_who (s : mon_enchant) (k : kill_category) (m : Nat) :
    (s.merge_killer k m).who = if s.who.rank ≥ k.rank then k else s.who := by
  unfold mon_enchant.merge_killer
  split_ifs <;> rfl

theorem to_int_of_fits (x : Int) (h1 : -2147483648 ≤ x) (h2 : x ≤ 2147483647) :
    to_int x = x := by
  unfold to_int
  omega

theorem to_int_ge (x : Int) (h : x ≤ 2147483647) : x ≤ to_int x := by
  unfold to_int
  omega

/-- The merge of two records of one kind, step by step. -/
theorem add_assign_same (env : Env) (a b : mon_enchant) (h : a.ench = b.ench) :
    a.add_assign env b =
      (let s2 : mon_enchant :=
        { ({ a with degree := to_int (a.degree + b.degree) } : mon_enchant).cap_degree with
          duration := to_int (a.duration + b.duration) }
       (if s2.duration > env.INFINITE_DURATION then
          ({ s2 with duration := env.INFINITE_DURATION } : mon_enchant) else s2).merge_killer
         b.who b.source) := by
  unfold mon_enchant.add_assign
  rw [if_pos h]
  simp only [cap_degree_duration]

theorem add_assign_fields (env : Env) (a b : mon_enchant) (h : a.ench = b.ench) :
    (a.add_assign env b).ench = a.ench
      ∧ (a.add_assign env b).degree
          = ({ a with degree := to_int (a.degree + b.degree) } : mon_enchant).cap_degree.degree
      ∧ (a.add_assign env b).duration
          = min env.INFINITE_DURATION (to_int (a.duration + b.duration))
      ∧ (a.add_assign env b).maxduration = a.maxduration
      ∧ (a.add_assign env b).who = if a.who.rank ≥ b.who.rank then b.who else a.who := by
  rw [add_assign_same env a b h]
  dsimp only
  rw [merge_killer_ench, merge_killer_degree, merge_killer_duration,
    merge_killer_maxduration, merge_killer_who]
  by_cases hc : to_int (a.duration + b.duration) > env.INFINITE_DURATION
  · simp only [if_pos hc]
    refine ⟨cap_degree_ench _, trivial, ?_, cap_degree_maxduration _, ?_⟩
    · exact (min_eq_left (le_of_lt hc)).symm
    · rw [cap_degree_who]
  · simp only [if_neg hc]
    refine ⟨cap_degree_ench _, trivial, ?_, cap_degree_maxduration _, ?_⟩
    · exact (min_eq_right (not_lt.mp hc)).symm
    · rw [cap_degree_who]

theorem add_assign_ench (env : Env) (a b : mon_enchant) : (a.add_assign env b).ench = a.ench := by
  by_cases h : a.ench = b.ench
  · exact (add_assign_fields env a b h).1
  · unfold mon_enchant.add_assign
    rw [if_neg h]

theorem add_assign_who (env : Env) (a b : mon_enchant) (h : a.ench = b.ench) :
    (a.add_assign env b).who = if a.who.rank ≥ b.who.rank then b.who else a.who :=
  (add_assign_fields env a b h).2.2.2.2

/-- Merging two records of the same kind with `operator+=` gives the degree
`min(cap, d1 + d2)` with cap 6 for `ENCH_ABJ` and `ENCH_FAKE_ABJURATION`, no cap
for `ENCH_SICK` and `ENCH_DRAINED` and cap 4 otherwise, and the duration
`min(INFINITE_DURATION, t1 + t2)`, both sums taken as `int` sums, with kind and
`maxduration` unchanged; with different kinds the left record is returned
unchanged. -/
theorem add_assign_merges (env : Env) (a b : mon_enchant) :
    if a.ench = b.ench then
      (a.add_assign env b).degree =
          (if a.ench = ENCH_SICK ∨ a.ench = ENCH_DRAINED then to_int (a.degree + b.degree)
           else if a.ench = ENCH_ABJ ∨ a.ench = ENCH_FAKE_ABJURATION then
             min 6 (to_int (a.degree + b.degree))
           else min 4 (to_int (a.degree + b.degree)))
        ∧ (a.add_assign env b).duration
            = min env.INFINITE_DURATION (to_int (a.duration + b.duration))
        ∧ (a.add_assign env b).ench = a.ench
        ∧ (a.add_assign env b).maxduration = a.maxduration
    else a.add_assign env b = a := by
  by_cases hk : a.ench = b.ench
  · rw [if_pos hk]
    obtain ⟨h1, h2, h3, h4, _⟩ := add_assign_fields env a b hk
    exact ⟨h2.trans (cap_degree_degree _), h3, h1, h4⟩
  · rw [if_neg hk]
    unfold mon_enchant.add_assign
    rw [if_neg hk]

/-- When neither sum leaves the range of `int`, the merge gives the degree
`min(cap, d1 + d2)` and the duration `min(INFINITE_DURATION, t1 + t2)`. -/
theorem add_assign_merges_fitting (env : Env) (a b : mon_enchant) (hk : a.ench = b.ench)
    (hd : -2147483648 ≤ a.degree + b.degree ∧ a.degree + b.degree ≤ 2147483647)
    (ht : -2147483648 ≤ a.duration + b.duration ∧ a.duration + b.duration ≤ 2147483647) :
    (a.add_assign env b).degree =
        (if a.ench = ENCH_SICK ∨ a.ench = ENCH_DRAINED then a.degree + b.degree
         else if a.ench = ENCH_ABJ ∨ a.ench = ENCH_FAKE_ABJURATION then
           min 6 (a.degree + b.degree)
         else min 4 (a.degree + b.degree))
      ∧ (a.add_assign env b).duration = min env.INFINITE_DURATION (a.duration + b.duration)
      ∧ (a.add_assign env b).ench = a.ench
      ∧ (a.add_assign env b).maxduration = a.maxduration := by
  have h := add_assign_merges env a b
  rw [if_pos hk, to_int_of_fits _ hd.1 hd.2, to_int_of_fits _ ht.1 ht.2] at h
  exact h

/-- C4: two `ENCH_SUMMON` records as `mark_summoned` builds them, with duration
`INT_MAX`, are merged with `operator+=`.  The `int` sum of the durations wraps
to -2, which is not above `INFINITE_DURATION` and is stored, where
`min(INFINITE_DURATION, t1 + t2)` is `INFINITE_DURATION`; degree, kind and
`maxduration` come out as the claim says. -/
theorem summon_merge_overflows :
    ((mon_enchant.make ENCH_SUMMON 3 none 2147483647).add_assign still
        (mon_enchant.make ENCH_SUMMON 3 none 2147483647)).duration = -2
      ∧ min still.INFINITE_DURATION (2147483647 + 2147483647) = 30000
      ∧ ((mon_enchant.make ENCH_SUMMON 3 none 2147483647).add_assign still
          (mon_enchant.make ENCH_SUMMON 3 none 2147483647)).degree = min 4 (3 + 3)
      ∧ ((mon_enchant.make ENCH_SUMMON 3 none 2147483647).add_assign still
          (mon_enchant.make ENCH_SUMMON 3 none 2147483647)).ench = ENCH_SUMMON
      ∧ ((mon_enchant.make ENCH_SUMMON 3 none 2147483647).add_assign still
          (mon_enchant.make ENCH_SUMMON 3 none 2147483647)).maxduration = 0 := by
  decide

/-- C7: the kill category of a merged record is the more player-attributable
of the two inputs (player before ally before other), whichever record is the
existing one; merging a player-caused record into an other-caused one and the
reverse both give player attribution. -/
theorem merge_attribution_symmetric (env : Env) (a b : mon_enchant) :
    (a.add_assign env { b with ench := a.ench }).who = more_player_attributable a.who b.who
      ∧ (({ b with ench := a.ench } : mon_enchant).add_assign env a).who
          = more_player_attributable a.who b.who
      ∧ (({ a with who := kill_category.KC_OTHER } : mon_enchant).add_assign env
          { b with ench := a.ench, who := kill_category.KC_YOU }).who = kill_category.KC_YOU
      ∧ (({ b with ench := a.ench, who := kill_category.KC_YOU } : mon_enchant).add_assign env
          { a with who := kill_category.KC_OTHER }).who = kill_category.KC_YOU := by
  refine ⟨?_, ?_, ?_, ?_⟩
  · rw [add_assign_who env a { b with ench := a.ench } rfl]
    cases a.who <;> cases b.who <;> decide
  · rw [add_assign_who env { b with ench := a.ench } a rfl]
    cases a.who <;> cases b.who <;> decide
  · rw [add_assign_who env { a with who := kill_category.KC_OTHER }
      { b with ench := a.ench, who := kill_category.KC_YOU } rfl]
    simp [kill_category.rank]
  · rw [add_assign_who env { b with ench := a.ench, who := kill_category.KC_YOU }
      { a with who := kill_category.KC_OTHER } rfl]
    simp [kill_category.rank]

/-! ## Rejected additions and removals -/

/-- C2: `add_ench` returns false and leaves the monster, table and presence
cache included, unchanged when the kind is `ENCH_NONE`, when it is `ENCH_FEAR`
and the monster is non-living or berserk or insane, or when it is `ENCH_BLIND`
and the monster type cannot be blinded; in every other case it returns true. -/
theorem add_ench_rejects_or_succeeds (env : Env) (m : monster) (e : mon_enchant) :
    if e.ench = ENCH_NONE
        ∨ (e.ench = ENCH_FEAR
            ∧ (env.test Probe.nonliving m = true ∨ env.test Probe.berserk_or_insane m = true))
        ∨ (e.ench = ENCH_BLIND ∧ env.mons_can_be_blinded m.type = false) then
      m.add_ench env e = (false, m)
    else (m.add_ench env e).1 = true := by
  rw [add_ench_eq]
  by_cases h1 : e.ench = ENCH_NONE
  · simp [h1]
  · by_cases h2 : e.ench = ENCH_FEAR
        ∧ (env.test Probe.nonliving m = true ∨ env.test Probe.berserk_or_insane m = true)
    · rw [if_pos (Or.inr (Or.inl h2)), if_neg h1, if_pos h2]
    · by_cases h3 : e.ench = ENCH_BLIND ∧ env.mons_can_be_blinded m.type = false
      · rw [if_pos (Or.inr (Or.inr h3)), if_neg h1, if_neg h2, if_pos h3]
      · rw [if_neg (by tauto), if_neg h1, if_neg h2, if_neg h3]
        dsimp only
        split <;> rfl

/-- C8: for every kind `k` other than `ENCH_SUBMERGED`, the record stored under
`k`, if any, being of kind `k`, `del_ench` returns true exactly when `k` was
present in the table before the call, and when it returns false the monster,
table and presence cache included, is unchanged. -/
theorem del_ench_true_iff_present (env : Env) (m : monster) (k : enchant_type)
    (quiet effect : Bool) (hk : k ≠ ENCH_SUBMERGED)
    (hm : ∀ r, m.enchantments k = some r → r.ench = k) :
    ((m.del_ench env k quiet effect).1 = true ↔ (m.enchantments k).isSome = true)
      ∧ ((m.del_ench env k quiet effect).1 = false → (m.del_ench env k quiet effect).2 = m) := by
  rw [del_ench_eq]
  cases hf : m.enchantments k with
  | none => simp
  | some me =>
    have hme : me.ench = k := hm me hf
    have hp : _prepare_del_ench env m me = (true, m) := by
      simp [_prepare_del_ench, hme, hk]
    simp only [hp]
    cases effect <;> simp

/-! ## Consistency of the table with the presence cache -/

theorem set_duration_ench (env : Env) (a : mon_enchant) (mons : monster)
    (added : Option mon_enchant) : (a.set_duration env mons added).ench = a.ench := by
  simp only [mon_enchant.set_duration]
  split_ifs <;> rfl

theorem consistent_of_eq {m m' : monster} (h : m.consistent)
    (ht : m'.enchantments = m.enchantments) (hc : m'.ench_cache = m.ench_cache) :
    m'.consistent := by
  unfold monster.consistent at *
  rw [ht, hc]
  exact h

theorem erase_consistent {m : monster} (h : m.consistent) (k : enchant_type) :
    (m.erase k).consistent := by
  obtain ⟨h1, h2, h3⟩ := h
  refine ⟨?_, ?_, ?_⟩
  · intro j
    by_cases hj : j = k
    · subst hj
      simp [monster.erase]
    · simp [monster.erase, Function.update_noteq hj, h1 j]
  · intro j r hr
    by_cases hj : j = k
    · subst hj
      simp [monster.erase] at hr
    · simp only [monster.erase, Function.update_noteq hj] at hr
      exact h2 j r hr
  · by_cases hj : ENCH_NONE = k
    · subst hj
      simp [monster.erase]
    · simp only [monster.erase, Function.update_noteq hj]
      exact h3

theorem insert_consistent {m : monster} (h : m.consistent) (k : enchant_type) (r : mon_enchant)
    (hr : r.ench = k) (hk : k ≠ ENCH_NONE) :
    ({ m with enchantments := Function.update m.enchantments k (some r),
              ench_cache := Function.update m.ench_cache k true } : monster).consistent := by
  obtain ⟨h1, h2, h3⟩ := h
  refine ⟨?_, ?_, ?_⟩
  · intro j
    by_cases hj : j = k
    · subst hj
      simp
    · simp [Function.update_noteq hj, h1 j]
  · intro j r' hr'
    by_cases hj : j = k
    · subst hj
      simp at hr'
      rw [← hr']
      exact hr
    · simp only [Function.update_noteq hj] at hr'
      exact h2 j r' hr'
  · have hj : ENCH_NONE ≠ k := fun e => hk e.symm
    simp only [Function.update_noteq hj]
    exact h3

theorem overwrite_consistent {m : monster} (h : m.consistent) (k : enchant_type)
    (r : mon_enchant) (hr : r.ench = k) (hp : (m.enchantments k).isSome = true) :
    ({ m with enchantments := Function.update m.enchantments k (some r) } : monster).consistent := by
  obtain ⟨h1, h2, h3⟩ := h
  refine ⟨?_, ?_, ?_⟩
  · intro j
    by_cases hj : j = k
    · subst hj
      simp [h1 j, hp]
    · simp [Function.update_noteq hj, h1 j]
  · intro j r' hr'
    by_cases hj : j = k
    · subst hj
      simp at hr'
      rw [← hr']
      exact hr
    · simp only [Function.update_noteq hj] at hr'
      exact h2 j r' hr'
  · by_cases hj : ENCH_NONE = k
    · subst hj
      rw [h3] at hp
      simp at hp
    · simp only [Function.update_noteq hj]
      exact h3

theorem update_ench_consistent {m : monster} (h : m.consistent) (e : mon_enchant) :
    (m.update_ench e).consistent := by
  unfold monster.update_ench
  split_ifs with h0
  · split
    · rename_i r hr
      exact overwrite_consistent h e.ench e rfl (by simp [hr])
    · exact h
  · exact h

theorem prepare_consistent {env : Env} (hE : env.keeps monster.consistent) {m : monster}
    (h : m.consistent) (me : mon_enchant) : (_prepare_del_ench env m me).2.consistent := by
  unfold _prepare_del_ench
  split_ifs
  · exact h
  · exact h
  · exact h
  · exact hE.2.2 m h

theorem ite_holds {α : Type} (P : α → Prop) (c : Prop) [Decidable c] (a b : α)
    (ha : P a) (hb : P b) : P (if c then a else b) := by
  by_cases h : c
  · rw [if_pos h]
    exact ha
  · rw [if_neg h]
    exact hb

theorem remove_effect_consistent_plain {env : Env} (hE : env.keeps monster.consistent)
    {m : monster} (h : m.consistent) (me : mon_enchant) (quiet : Bool)
    (h1 : me.ench ≠ ENCH_PETRIFIED) (h2 : me.ench ≠ ENCH_ABJ)
    (h3 : me.ench ≠ ENCH_FAKE_ABJURATION) :
    (monster.remove_enchantment_effect env m me quiet).consistent := by
  have hc := hE.1
  rw [monster.remove_enchantment_effect]
  simp only [h1, h2, h3, false_and, or_self, dite_false, if_false, ↓reduceDIte, ↓reduceIte]
  repeat' first
    | exact h
    | exact hc _ _ h
    | exact hc _ _ (hc _ _ h)
    | exact update_ench_consistent h _
    | exact consistent_of_eq h rfl rfl
    | exact hc _ _ (consistent_of_eq h rfl rfl)
    | apply ite_holds monster.consistent

theorem del_ench_consistent_plain {env : Env} (hE : env.keeps monster.consistent)
    {m : monster} (h : m.consistent) (k : enchant_type) (quiet effect : Bool)
    (h1 : k ≠ ENCH_PETRIFIED) (h2 : k ≠ ENCH_ABJ) (h3 : k ≠ ENCH_FAKE_ABJURATION) :
    (m.del_ench env k quiet effect).2.consistent := by
  rw [del_ench_eq]
  cases hf : m.enchantments k with
  | none => exact h
  | some me =>
    have hme : me.ench = k := h.2.1 k me hf
    have hp := prepare_consistent hE h me
    dsimp only
    apply ite_holds (fun r : Bool × monster => r.2.consistent)
    · exact hp
    · apply ite_holds (fun r : Bool × monster => r.2.consistent)
      · exact remove_effect_consistent_plain hE (erase_consistent hp k) me quiet
          (hme ▸ h1) (hme ▸ h2) (hme ▸ h3)
      · exact erase_consistent hp k

theorem add_effect_consistent {env : Env} (hE : env.keeps monster.consistent)
    {m : monster} (h : m.consistent) (e : mon_enchant) (quiet : Bool) :
    (monster.add_enchantment_effect env m e quiet).consistent := by
  have hc := hE.1
  have hd : ∀ m' : monster, m'.consistent →
      (m'.del_ench env ENCH_SUBMERGED false true).2.consistent := fun m' h' =>
    del_ench_consistent_plain hE h' ENCH_SUBMERGED false true (by decide) (by decide) (by decide)
  rw [monster.add_enchantment_effect]
  repeat' first
    | exact h
    | exact hc _ _ h
    | exact hE.2.1 _ _ h
    | exact consistent_of_eq h rfl rfl
    | exact consistent_of_eq (hE.2.1 _ _ h) rfl rfl
    | apply hc
    | apply hd
    | apply ite_holds monster.consistent

theorem add_ench_consistent {env : Env} (hE : env.keeps monster.consistent)
    {m : monster} (h : m.consistent) (e : mon_enchant) :
    (m.add_ench env e).2.consistent := by
  rw [add_ench_eq]
  by_cases h0 : e.ench = ENCH_NONE
  · rw [if_pos h0]
    exact h
  rw [if_neg h0]
  apply ite_holds (fun r : Bool × monster => r.2.consistent) _ _ _ h
  apply ite_holds (fun r : Bool × monster => r.2.consistent) _ _ _ h
  have hm1 : (if e.ench = ENCH_FLIGHT ∧ m.has_ench ENCH_LIQUEFYING = true then
      (monster.del_ench env m ENCH_LIQUEFYING false true).2 else m).consistent := by
    apply ite_holds monster.consistent _ _ _ _ h
    exact del_ench_consistent_plain hE h ENCH_LIQUEFYING false true
      (by decide) (by decide) (by decide)
  dsimp only
  generalize (if e.ench = ENCH_FLIGHT ∧ m.has_ench ENCH_LIQUEFYING = true then
      (monster.del_ench env m ENCH_LIQUEFYING false true).2 else m) = m1 at hm1 ⊢
  cases hl : m1.enchantments e.ench with
  | some cur =>
    dsimp only
    have hcur : cur.ench = e.ench := hm1.2.1 _ _ hl
    have h2 := overwrite_consistent hm1 e.ench (cur.add_assign env e)
      (by rw [add_assign_ench, hcur]) (by simp [hl])
    refine overwrite_consistent h2 e.ench _ ?_ (by simp)
    split_ifs
    · rw [set_duration_ench, add_assign_ench, hcur]
    · rw [add_assign_ench, hcur]
  | none =>
    dsimp only
    apply add_effect_consistent hE
    have h2 := insert_consistent hm1 e.ench e rfl h0
    refine overwrite_consistent h2 e.ench _ ?_ (by simp)
    split_ifs
    · rw [set_duration_ench]
    · rfl

theorem remove_effect_consistent {env : Env} (hE : env.keeps monster.consistent)
    {m : monster} (h : m.consistent) (me : mon_enchant) (quiet : Bool) :
    (monster.remove_enchantment_effect env m me quiet).consistent := by
  have hc := hE.1
  by_cases h1 : me.ench = ENCH_PETRIFIED
  · rw [monster.remove_enchantment_effect]
    simp only [h1, ↓reduceDIte, ↓reduceIte, ENCH_PETRIFIED, ENCH_TIDE, ENCH_INSANE,
      ENCH_BERSERK, ENCH_HASTE, ENCH_SLOW, ENCH_PARALYSIS, Nat.reduceEqDiff]
    apply hc
    exact del_ench_consistent_plain hE h ENCH_PETRIFYING false true
      (by decide) (by decide) (by decide)
  by_cases h2 : me.ench = ENCH_ABJ ∨ me.ench = ENCH_FAKE_ABJURATION
  · rw [monster.remove_enchantment_effect]
    repeat' first
      | exact h
      | exact hc _ _ h
      | exact hc _ _ (hc _ _ h)
      | exact update_ench_consistent h _
      | exact consistent_of_eq h rfl rfl
      | exact hc _ _ (consistent_of_eq h rfl rfl)
      | exact hc _ _ (del_ench_consistent_plain hE h ENCH_PETRIFYING false true
          (by decide) (by decide) (by decide))
      | exact hc _ _ (add_ench_consistent hE h _)
      | apply ite_holds monster.consistent
  · exact remove_effect_consistent_plain hE h me quiet h1 (fun x => h2 (Or.inl x))
      (fun x => h2 (Or.inr x))

theorem del_ench_consistent {env : Env} (hE : env.keeps monster.consistent)
    {m : monster} (h : m.consistent) (k : enchant_type) (quiet effect : Bool) :
    (m.del_ench env k quiet effect).2.consistent := by
  rw [del_ench_eq]
  cases hf : m.enchantments k with
  | none => exact h
  | some me =>
    have hp := prepare_consistent hE h me
    dsimp only
    apply ite_holds (fun r : Bool × monster => r.2.consistent)
    · exact hp
    · apply ite_holds (fun r : Bool × monster => r.2.consistent)
      · exact remove_effect_consistent hE (erase_consistent hp k) me quiet
      · exact erase_consistent hp k

theorem lose_ench_levels_consistent {env : Env} (hE : env.keeps monster.consistent)
    {m : monster} (h : m.consistent) (e : mon_enchant) (lev : Int) (infinite : Bool) :
    (m.lose_ench_levels env e lev infinite).2.consistent := by
  unfold monster.lose_ench_levels
  repeat' first
    | exact h
    | exact del_ench_consistent hE h _ _ _
    | exact update_ench_consistent h _
    | apply ite_holds (fun r : Bool × monster => r.2.consistent)

theorem lose_ench_duration_consistent {env : Env} (hE : env.keeps monster.consistent)
    {m : monster} (h : m.consistent) (e : mon_enchant) (dur : Int) :
    (m.lose_ench_duration env e dur).2.consistent := by
  unfold monster.lose_ench_duration
  repeat' first
    | exact h
    | exact del_ench_consistent hE h _ _ _
    | exact update_ench_consistent h _
    | apply ite_holds (fun r : Bool × monster => r.2.consistent)

theorem decay_enchantment_consistent {env : Env} (hE : env.keeps monster.consistent)
    {m : monster} (h : m.consistent) (en : enchant_type) (decay_degree : Bool) :
    (m.decay_enchantment env en decay_degree).2.consistent := by
  unfold monster.decay_enchantment
  have hl := fun e d => lose_ench_duration_consistent hE h e d
  dsimp only
  repeat' first
    | exact h
    | exact hl _ _
    | exact del_ench_consistent hE (hl _ _) _ _ _
    | exact update_ench_consistent (hl _ _) _
    | apply ite_holds (fun r : Bool × monster => r.2.consistent)

theorem reachable_consistent {m : monster} (h : Reachable m) : m.consistent := by
  induction h with
  | empty m ht hc =>
    refine ⟨?_, ?_, ht _⟩
    · intro k
      rw [ht k, hc k]
      rfl
    · intro k r hr
      rw [ht k] at hr
      cases hr
  | add_ench env m e hE _ ih => exact add_ench_consistent hE ih e
  | update_ench m e _ ih => exact update_ench_consistent ih e
  | del_ench env m k quiet effect hE _ ih => exact del_ench_consistent hE ih k quiet effect
  | lose_ench_duration env m e dur hE _ ih => exact lose_ench_duration_consistent hE ih e dur
  | lose_ench_levels env m e lev inf hE _ ih => exact lose_ench_levels_consistent hE ih e lev inf
  | decay_enchantment env m en dd hE _ ih => exact decay_enchantment_consistent hE ih en dd

/-! ## What each operation leaves alone -/

theorem passive_keeps_consistent {env : Env} (hP : env.passive) :
    env.keeps monster.consistent :=
  ⟨fun c m h => consistent_of_eq h (hP.1 c m).1 (hP.1 c m).2,
   fun m a h => consistent_of_eq h (hP.2.1 m a).1 (hP.2.1 m a).2,
   fun m h => consistent_of_eq h (hP.2.2 m).1 (hP.2.2 m).2⟩

theorem same_at_refl (i : enchant_type) (m : monster) : same_at i m m := ⟨rfl, rfl⟩

theorem same_at_trans {i : enchant_type} {a b c : monster} (h1 : same_at i a b)
    (h2 : same_at i b c) : same_at i a c :=
  ⟨h2.1.trans h1.1, h2.2.trans h1.2⟩

theorem same_at_call {env : Env} (hP : env.passive) (i : enchant_type) (c : Call)
    {a b : monster} (h : same_at i a b) : same_at i a (env.call c b) :=
  ⟨by rw [(hP.1 c b).1]; exact h.1, by rw [(hP.1 c b).2]; exact h.2⟩

theorem same_at_of_eq {i : enchant_type} {a b b' : monster} (h : same_at i a b)
    (ht : b'.enchantments = b.enchantments) (hc : b'.ench_cache = b.ench_cache) :
    same_at i a b' :=
  ⟨by rw [ht]; exact h.1, by rw [hc]; exact h.2⟩

theorem same_at_erase {i j : enchant_type} (hij : i ≠ j) {a b : monster} (h : same_at i a b) :
    same_at i a (b.erase j) :=
  ⟨by simp only [monster.erase, Function.update_noteq hij]; exact h.1,
   by simp only [monster.erase, Function.update_noteq hij]; exact h.2⟩

theorem same_at_update_ench {i : enchant_type} (e : mon_enchant) (hi : i ≠ e.ench)
    {a b : monster} (h : same_at i a b) : same_at i a (b.update_ench e) := by
  unfold monster.update_ench
  split_ifs
  · split
    · exact ⟨by simp only [Function.update_noteq hi]; exact h.1, h.2⟩
    · exact h
  · exact h

theorem same_at_prepare {env : Env} (hP : env.passive) (i : enchant_type) (m : monster)
    (me : mon_enchant) : same_at i m (_prepare_del_ench env m me).2 := by
  unfold _prepare_del_ench
  split_ifs
  · exact same_at_refl i m
  · exact same_at_refl i m
  · exact same_at_refl i m
  · exact ⟨by rw [(hP.2.2 m).1], by rw [(hP.2.2 m).2]⟩

theorem get_ench_single (m : monster) (k : enchant_type) :
    m.get_ench k ENCH_NONE = (m.enchantments k).getD {} := by
  have h1 : (if ENCH_NONE = ENCH_NONE then k else ENCH_NONE) + 1 - k = 1 := by
    rw [if_pos rfl]
    exact Nat.add_sub_cancel_left k 1
  show monster.get_ench_loop m k ((if ENCH_NONE = ENCH_NONE then k else ENCH_NONE) + 1 - k) = _
  rw [h1]
  show (match m.enchantments k with
    | some r => r
    | none => monster.get_ench_loop m (k + 1) 0) = _
  cases m.enchantments k <;> rfl

theorem same_at_haunting {i : enchant_type} (hi : i ≠ ENCH_ABJ) {m : monster}
    (hm : m.consistent) (d t : Int) :
    same_at i m (m.update_ench
      { ench := (m.get_ench ENCH_ABJ ENCH_NONE).ench, degree := d, duration := t,
        maxduration := (m.get_ench ENCH_ABJ ENCH_NONE).maxduration,
        who := (m.get_ench ENCH_ABJ ENCH_NONE).who,
        source := (m.get_ench ENCH_ABJ ENCH_NONE).source }) := by
  rw [get_ench_single]
  cases hl : m.enchantments ENCH_ABJ with
  | none =>
    simp only [Option.getD_none]
    unfold monster.update_ench
    rw [if_neg (by simp)]
    exact same_at_refl i m
  | some r =>
    simp only [Option.getD_some]
    apply same_at_update_ench _ _ (same_at_refl i m)
    show i ≠ r.ench
    rw [hm.2.1 _ _ hl]
    exact hi

/-- The on-remove hook of a kind other than the petrification, abjuration and
haunting kinds leaves every record alone. -/
theorem same_at_remove_effect_plain {env : Env} (hP : env.passive) (i : enchant_type)
    (m : monster) (me : mon_enchant) (quiet : Bool)
    (h1 : me.ench ≠ ENCH_PETRIFIED) (h2 : me.ench ≠ ENCH_ABJ)
    (h3 : me.ench ≠ ENCH_FAKE_ABJURATION) (h5 : me.ench ≠ ENCH_HAUNTING) :
    same_at i m (monster.remove_enchantment_effect env m me quiet) := by
  have h := same_at_refl i m
  rw [monster.remove_enchantment_effect]
  simp only [h1, h2, h3, h5, false_and, or_self, dite_false, if_false, ↓reduceDIte, ↓reduceIte]
  repeat' first
    | exact h
    | exact same_at_call hP i _ h
    | exact same_at_call hP i _ (same_at_call hP i _ h)
    | exact same_at_of_eq h rfl rfl
    | exact same_at_call hP i _ (same_at_of_eq h rfl rfl)
    | apply ite_holds (same_at i m)

/-- The on-remove hook of `ENCH_HAUNTING` leaves every record alone, except
that of `ENCH_ABJ`. -/
theorem same_at_remove_effect_haunting {env : Env} {i : enchant_type}
    {m : monster} (hm : m.consistent) (me : mon_enchant) (quiet : Bool)
    (h1 : me.ench = ENCH_HAUNTING) (h4 : i ≠ ENCH_ABJ) :
    same_at i m (monster.remove_enchantment_effect env m me quiet) := by
  rw [monster.remove_enchantment_effect]
  simp only [h1, ENCH_HAUNTING, ENCH_TIDE, ENCH_INSANE, ENCH_BERSERK, ENCH_HASTE, ENCH_SLOW,
    ENCH_PARALYSIS, ENCH_PETRIFIED, ENCH_PETRIFYING, ENCH_FEAR, ENCH_CONFUSION, ENCH_INVIS,
    ENCH_CHARM, ENCH_NEUTRAL_BRIBED, ENCH_FRIENDLY_BRIBED, ENCH_HEXED, ENCH_HELD,
    ENCH_FAKE_ABJURATION, ENCH_ABJ, ENCH_SHORT_LIVED, ENCH_SUBMERGED, ENCH_FLIGHT, ENCH_ROLLING,
    ENCH_BLIND, ENCH_DUMB, ENCH_MAD, ENCH_FLAYED, Nat.reduceEqDiff, false_and, or_self,
    ↓reduceDIte, ↓reduceIte]
  exact same_at_haunting h4 hm _ _

/-- Removing a kind other than the petrification and abjuration kinds leaves
every other record alone; removing `ENCH_HAUNTING` may change that of
`ENCH_ABJ`. -/
theorem same_at_del_ench_plain {env : Env} (hP : env.passive) {i k : enchant_type}
    {m : monster} (hm : m.consistent) (quiet effect : Bool) (hik : i ≠ k)
    (h1 : k ≠ ENCH_PETRIFIED) (h2 : k ≠ ENCH_ABJ) (h3 : k ≠ ENCH_FAKE_ABJURATION)
    (h4 : k ≠ ENCH_HAUNTING ∨ i ≠ ENCH_ABJ) :
    same_at i m (m.del_ench env k quiet effect).2 := by
  rw [del_ench_eq]
  cases hf : m.enchantments k with
  | none => exact same_at_refl i m
  | some me =>
    have hme : me.ench = k := hm.2.1 k me hf
    have hp := same_at_prepare hP i m me
    have hpc := prepare_consistent (passive_keeps_consistent hP) hm me
    dsimp only
    apply ite_holds (fun r : Bool × monster => same_at i m r.2)
    · exact hp
    · apply ite_holds (fun r : Bool × monster => same_at i m r.2)
      · apply same_at_trans (same_at_erase hik hp)
        by_cases h5 : k = ENCH_HAUNTING
        · exact same_at_remove_effect_haunting (erase_consistent hpc k) me quiet
            (hme.trans h5) (h4.resolve_left (fun x => x h5))
        · exact same_at_remove_effect_plain hP i _ me quiet
            (hme ▸ h1) (hme ▸ h2) (hme ▸ h3) (hme ▸ h5)
      · exact same_at_erase hik hp

theorem same_at_heal {env : Env} (hP : env.passive) (i : enchant_type) (m : monster)
    (a : Int) : same_at i m (env.heal m a).2 :=
  ⟨by rw [(hP.2.1 m a).1], by rw [(hP.2.1 m a).2]⟩

/-- The on-add hook leaves every record alone, except that of
`ENCH_SUBMERGED`. -/
theorem same_at_add_effect {env : Env} (hP : env.passive) {i : enchant_type}
    {m : monster} (hm : m.consistent) (e : mon_enchant) (quiet : Bool)
    (hi : i ≠ ENCH_SUBMERGED) :
    same_at i m (monster.add_enchantment_effect env m e quiet) := by
  have h := same_at_refl i m
  have hK := passive_keeps_consistent hP
  have hd : ∀ m' : monster, m'.consistent → same_at i m m' →
      same_at i m (m'.del_ench env ENCH_SUBMERGED false true).2 := fun m' hc hs =>
    same_at_trans hs (same_at_del_ench_plain hP hc false true hi
      (by decide) (by decide) (by decide) (Or.inl (by decide)))
  rw [monster.add_enchantment_effect]
  repeat' first
    | exact h
    | exact same_at_call hP i _ h
    | exact same_at_of_eq h rfl rfl
    | exact same_at_of_eq (same_at_heal hP i m _) rfl rfl
    | exact hm
    | exact hK.1 _ _ hm
    | refine hd _ ?_ ?_
    | apply same_at_call hP i
    | apply ite_holds (same_at i m)
    | apply ite_holds monster.consistent

/-- The on-remove hook of `ENCH_PETRIFIED` leaves every record alone, except
that of `ENCH_PETRIFYING`. -/
theorem same_at_remove_effect_petrified {env : Env} (hP : env.passive) {i : enchant_type}
    {m : monster} (hm : m.consistent) (me : mon_enchant) (quiet : Bool)
    (h1 : me.ench = ENCH_PETRIFIED) (hi : i ≠ ENCH_PETRIFYING) :
    same_at i m (monster.remove_enchantment_effect env m me quiet) := by
  rw [monster.remove_enchantment_effect]
  simp only [h1, ↓reduceDIte, ↓reduceIte, ENCH_PETRIFIED, ENCH_TIDE, ENCH_INSANE,
    ENCH_BERSERK, ENCH_HASTE, ENCH_SLOW, ENCH_PARALYSIS, Nat.reduceEqDiff]
  exact same_at_call hP i _ (same_at_del_ench_plain hP hm false true hi
    (by decide) (by decide) (by decide) (Or.inl (by decide)))

/-- The on-add hook does nothing for the abjuration kinds. -/
theorem add_effect_abj (env : Env) (m : monster) (e : mon_enchant) (quiet : Bool)
    (h : e.ench = ENCH_ABJ ∨ e.ench = ENCH_FAKE_ABJURATION) :
    monster.add_enchantment_effect env m e quiet = m := by
  rw [monster.add_enchantment_effect]
  rcases h with h | h <;>
    simp only [h, ENCH_ABJ, ENCH_FAKE_ABJURATION, ENCH_BERSERK, ENCH_INSANE, ENCH_HASTE,
      ENCH_SLOW, ENCH_SUBMERGED, ENCH_CONFUSION, ENCH_MAD, ENCH_CHARM, ENCH_NEUTRAL_BRIBED,
      ENCH_FRIENDLY_BRIBED, ENCH_HEXED, ENCH_LIQUEFYING, ENCH_SILENCE, ENCH_ROLLING,
      ENCH_FROZEN, ENCH_EPHEMERAL_INFUSION, ENCH_INVIS, Nat.reduceEqDiff, or_self,
      ↓reduceDIte, ↓reduceIte]

/-- Adding the marker record of an abjuration kind to a monster that lacks the
kind stores exactly that record. -/
theorem add_ench_abj_marker (env : Env) (m : monster) (k : enchant_type)
    (hk : k = ENCH_ABJ ∨ k = ENCH_FAKE_ABJURATION) (ha : m.enchantments k = none) :
    (m.add_ench env (mon_enchant.make k 0 none (-1))).2
      = m.holding (mon_enchant.make k 0 none (-1)) := by
  have hkind : (mon_enchant.make k 0 none (-1)).ench = k := rfl
  have hdur : (mon_enchant.make k 0 none (-1)).duration ≠ 0 := by
    show (-1 : Int) ≠ 0
    decide
  rw [add_ench_eq]
  rcases hk with hk | hk <;> subst hk <;>
    simp only [hkind, ENCH_ABJ, ENCH_FAKE_ABJURATION, ENCH_NONE, ENCH_FEAR, ENCH_BLIND,
      ENCH_FLIGHT, Nat.reduceEqDiff, false_and, ↓reduceIte] <;>
    simp only [ENCH_ABJ, ENCH_FAKE_ABJURATION] at ha <;>
    simp only [ha, if_neg hdur] <;>
    rw [add_effect_abj _ _ _ _ (by simp [mon_enchant.make])] <;>
    simp [monster.holding, mon_enchant.make]

theorem remove_effect_abj (env : Env) (m : monster) (me : mon_enchant) (quiet : Bool)
    (hk : me.ench = ENCH_ABJ ∨ me.ench = ENCH_FAKE_ABJURATION)
    (h1 : ¬ (me.ench = ENCH_FAKE_ABJURATION ∧ m.type = monster_type.MONS_BATTLESPHERE))
    (h2 : m.type ≠ monster_type.MONS_SPECTRAL_WEAPON) :
    monster.remove_enchantment_effect env m me quiet =
      env.call (Call.monster_die
        (if me.ench = ENCH_FAKE_ABJURATION then killer_type.KILL_MISC
         else if quiet then killer_type.KILL_DISMISSED else killer_type.KILL_RESET))
        (m.add_ench env (mon_enchant.make me.ench 0 none (-1))).2 := by
  rw [monster.remove_enchantment_effect]
  rcases hk with hk | hk
  · simp only [hk, h2, ENCH_ABJ, ENCH_FAKE_ABJURATION, ENCH_TIDE, ENCH_INSANE,
      ENCH_BERSERK, ENCH_HASTE, ENCH_SLOW, ENCH_PARALYSIS, ENCH_PETRIFIED, ENCH_PETRIFYING,
      ENCH_FEAR, ENCH_CONFUSION, ENCH_INVIS, ENCH_CHARM, ENCH_NEUTRAL_BRIBED,
      ENCH_FRIENDLY_BRIBED, ENCH_HEXED, ENCH_HELD, Nat.reduceEqDiff, or_self, and_false,
      false_and, or_true, true_or, ne_eq, not_true_eq_false, not_false_eq_true,
      ↓reduceDIte, ↓reduceIte]
  · have h1' : m.type ≠ monster_type.MONS_BATTLESPHERE := fun h => h1 ⟨hk, h⟩
    simp only [hk, h1', h2, ENCH_ABJ, ENCH_FAKE_ABJURATION, ENCH_TIDE, ENCH_INSANE,
      ENCH_BERSERK, ENCH_HASTE, ENCH_SLOW, ENCH_PARALYSIS, ENCH_PETRIFIED, ENCH_PETRIFYING,
      ENCH_FEAR, ENCH_CONFUSION, ENCH_INVIS, ENCH_CHARM, ENCH_NEUTRAL_BRIBED,
      ENCH_FRIENDLY_BRIBED, ENCH_HEXED, ENCH_HELD, Nat.reduceEqDiff, or_self, and_false,
      false_and, or_true, true_or, ne_eq, not_true_eq_false, not_false_eq_true,
      ↓reduceDIte, ↓reduceIte]

/-- The on-remove hook of an abjuration kind hands a battlesphere or a spectral
weapon to its own ending and leaves every record alone. -/
theorem same_at_remove_effect_ended {env : Env} (hP : env.passive) (i : enchant_type)
    (m : monster) (me : mon_enchant) (quiet : Bool)
    (hk : me.ench = ENCH_ABJ ∨ me.ench = ENCH_FAKE_ABJURATION)
    (ht : m.type = monster_type.MONS_SPECTRAL_WEAPON
      ∨ (me.ench = ENCH_FAKE_ABJURATION ∧ m.type = monster_type.MONS_BATTLESPHERE)) :
    same_at i m (monster.remove_enchantment_effect env m me quiet) := by
  rw [monster.remove_enchantment_effect]
  rcases hk with hk | hk
  · have ht' : m.type = monster_type.MONS_SPECTRAL_WEAPON := by
      rcases ht with ht | ht
      · exact ht
      · rw [hk] at ht
        exact absurd ht.1 (by decide)
    simp only [hk, ht', ENCH_ABJ, ENCH_FAKE_ABJURATION, ENCH_TIDE, ENCH_INSANE,
      ENCH_BERSERK, ENCH_HASTE, ENCH_SLOW, ENCH_PARALYSIS, ENCH_PETRIFIED, ENCH_PETRIFYING,
      ENCH_FEAR, ENCH_CONFUSION, ENCH_INVIS, ENCH_CHARM, ENCH_NEUTRAL_BRIBED,
      ENCH_FRIENDLY_BRIBED, ENCH_HEXED, ENCH_HELD, Nat.reduceEqDiff, or_self, and_false,
      false_and, or_true, true_or, ↓reduceDIte, ↓reduceIte]
    exact same_at_call hP i _ (same_at_refl i m)
  · simp only [hk, ENCH_ABJ, ENCH_FAKE_ABJURATION, ENCH_TIDE, ENCH_INSANE,
      ENCH_BERSERK, ENCH_HASTE, ENCH_SLOW, ENCH_PARALYSIS, ENCH_PETRIFIED, ENCH_PETRIFYING,
      ENCH_FEAR, ENCH_CONFUSION, ENCH_INVIS, ENCH_CHARM, ENCH_NEUTRAL_BRIBED,
      ENCH_FRIENDLY_BRIBED, ENCH_HEXED, ENCH_HELD, Nat.reduceEqDiff, or_self, and_false,
      false_and, true_and, or_true, true_or, ↓reduceDIte, ↓reduceIte]
    by_cases hb : m.type = monster_type.MONS_BATTLESPHERE
    · rw [if_pos hb]
      exact same_at_call hP i _ (same_at_refl i m)
    · rw [if_neg hb]
      have ht' : m.type = monster_type.MONS_SPECTRAL_WEAPON := by
        rcases ht with ht | ht
        · exact ht
        · exact absurd ht.2 hb
      rw [if_pos ht']
      exact same_at_call hP i _ (same_at_refl i m)

/-- What `del_ench` leaves behind when it returns true, on a consistent table
and with collaborators that leave the table alone. -/
theorem del_ench_outcome (env : Env) (m : monster) (k : enchant_type)
    (quiet effect : Bool) (hP : env.passive) (hm : m.consistent)
    (hr : (m.del_ench env k quiet effect).1 = true) :
    ((effect = false ∨ (k ≠ ENCH_ABJ ∧ k ≠ ENCH_FAKE_ABJURATION)
          ∨ m.type = monster_type.MONS_SPECTRAL_WEAPON
          ∨ (k = ENCH_FAKE_ABJURATION ∧ m.type = monster_type.MONS_BATTLESPHERE)) →
        (m.del_ench env k quiet effect).2.enchantments k = none
          ∧ (m.del_ench env k quiet effect).2.has_ench k = false)
      ∧ (effect = true → (k = ENCH_ABJ ∨ k = ENCH_FAKE_ABJURATION) →
          m.type ≠ monster_type.MONS_SPECTRAL_WEAPON →
          ¬ (k = ENCH_FAKE_ABJURATION ∧ m.type = monster_type.MONS_BATTLESPHERE) →
          (m.del_ench env k quiet effect).2.enchantments k
              = some (mon_enchant.make k 0 none (-1))
            ∧ (m.del_ench env k quiet effect).2.has_ench k = true) := by
  rw [del_ench_eq] at hr ⊢
  cases hf : m.enchantments k with
  | none =>
    rw [hf] at hr
    cases hr
  | some me =>
    rw [hf] at hr
    have hme : me.ench = k := hm.2.1 k me hf
    have hpc := prepare_consistent (passive_keeps_consistent hP) hm me
    have hec := erase_consistent hpc k
    have hE1 : ((_prepare_del_ench env m me).2.erase k).enchantments k = none := by
      simp [monster.erase]
    have hE2 : ((_prepare_del_ench env m me).2.erase k).ench_cache k = false := by
      simp [monster.erase]
    dsimp only at hr ⊢
    by_cases hv : (_prepare_del_ench env m me).1 = false
    · rw [if_pos hv] at hr
      cases hr
    rw [if_neg hv]
    refine ⟨?_, ?_⟩
    · intro hk
      cases effect with
      | false => exact ⟨hE1, hE2⟩
      | true =>
        simp only [if_true]
        have hs : same_at k ((_prepare_del_ench env m me).2.erase k)
            (monster.remove_enchantment_effect env ((_prepare_del_ench env m me).2.erase k)
              me quiet) := by
          by_cases hab : k = ENCH_ABJ ∨ k = ENCH_FAKE_ABJURATION
          · have hsub : me.ench ≠ ENCH_SUBMERGED := by
              rw [hme]
              rcases hab with hab | hab <;> rw [hab] <;> decide
            have hp : _prepare_del_ench env m me = (true, m) := by
              simp [_prepare_del_ench, hsub]
            rw [hp]
            apply same_at_remove_effect_ended hP k (m.erase k) me quiet (hme ▸ hab)
            rcases hk with hk | hk | hk | hk
            · cases hk
            · exact absurd hab (fun x => x.elim hk.1 hk.2)
            · exact Or.inl hk
            · exact Or.inr ⟨hme.trans hk.1, hk.2⟩
          have hk' : k ≠ ENCH_ABJ ∧ k ≠ ENCH_FAKE_ABJURATION :=
            ⟨fun x => hab (Or.inl x), fun x => hab (Or.inr x)⟩
          by_cases h1 : k = ENCH_PETRIFIED
          · exact same_at_remove_effect_petrified hP hec me quiet (hme.trans h1)
              (by rw [h1]; decide)
          by_cases h5 : k = ENCH_HAUNTING
          · exact same_at_remove_effect_haunting hec me quiet (hme.trans h5)
              (by rw [h5]; decide)
          exact same_at_remove_effect_plain hP k _ me quiet (hme ▸ h1) (hme ▸ hk'.1)
            (hme ▸ hk'.2) (hme ▸ h5)
        exact ⟨hs.1.trans hE1, hs.2.trans hE2⟩
    · intro he hk h2 h1
      subst he
      have hsub : me.ench ≠ ENCH_SUBMERGED := by
        rw [hme]
        rcases hk with hk | hk <;> rw [hk] <;> decide
      have hp : _prepare_del_ench env m me = (true, m) := by
        simp [_prepare_del_ench, hsub]
      simp only [hp, if_true]
      rw [remove_effect_abj env (m.erase k) me quiet (hme ▸ hk) (hme ▸ h1) h2, hme,
        add_ench_abj_marker env _ k hk (by simp [monster.erase])]
      constructor
      · rw [(hP.1 _ _).1]
        simp [monster.holding, mon_enchant.make]
      · show (env.call _ _).ench_cache k = true
        rw [(hP.1 _ _).2]
        simp [monster.holding, mon_enchant.make]

/-- The on-add hook of `ENCH_SUBMERGED` leaves every record alone. -/
theorem same_at_add_effect_submerged {env : Env} (hP : env.passive) (i : enchant_type)
    (m : monster) (e : mon_enchant) (quiet : Bool) (h : e.ench = ENCH_SUBMERGED) :
    same_at i m (monster.add_enchantment_effect env m e quiet) := by
  rw [monster.add_enchantment_effect]
  simp only [h, ENCH_SUBMERGED, ENCH_BERSERK, ENCH_INSANE, ENCH_HASTE, ENCH_SLOW,
    Nat.reduceEqDiff, or_self, ↓reduceDIte, ↓reduceIte]
  repeat' first
    | exact same_at_call hP i _ (same_at_refl i m)
    | apply same_at_call hP i
    | apply ite_holds (same_at i m)

/-- The on-add hook leaves the record of the kind being added alone. -/
theorem same_at_add_effect_self {env : Env} (hP : env.passive) {m : monster}
    (hm : m.consistent) (e : mon_enchant) (quiet : Bool) :
    same_at e.ench m (monster.add_enchantment_effect env m e quiet) := by
  by_cases h : e.ench = ENCH_SUBMERGED
  · exact same_at_add_effect_submerged hP e.ench m e quiet h
  · exact same_at_add_effect hP hm e quiet h

/-- The record that a successful `add_ench` leaves under the kind of `ench`:
the given record on insertion, the merged record otherwise, with the duration
set by `set_duration` when the given one is zero. -/
theorem add_ench_stored {env : Env} (hP : env.passive) {m : monster} (hm : m.consistent)
    (e : mon_enchant) (hr : (m.add_ench env e).1 = true) :
    ∃ mons : monster, (m.add_ench env e).2.enchantments e.ench = some
      (match m.enchantments e.ench with
       | some cur =>
         if e.duration = 0 then (cur.add_assign env e).set_duration env mons (some e)
         else cur.add_assign env e
       | none => if e.duration = 0 then e.set_duration env mons none else e) := by
  rw [add_ench_eq] at hr ⊢
  by_cases h0 : e.ench = ENCH_NONE
  · rw [if_pos h0] at hr
    cases hr
  rw [if_neg h0] at hr ⊢
  by_cases h1 : e.ench = ENCH_FEAR
      ∧ (env.test Probe.nonliving m = true ∨ env.test Probe.berserk_or_insane m = true)
  · rw [if_pos h1] at hr
    cases hr
  rw [if_neg h1] at hr ⊢
  by_cases h2 : e.ench = ENCH_BLIND ∧ env.mons_can_be_blinded m.type = false
  · rw [if_pos h2] at hr
    cases hr
  rw [if_neg h2]
  have hK := passive_keeps_consistent hP
  have hm1 : (if e.ench = ENCH_FLIGHT ∧ m.has_ench ENCH_LIQUEFYING = true then
      (monster.del_ench env m ENCH_LIQUEFYING false true).2 else m).consistent := by
    apply ite_holds monster.consistent _ _ _ _ hm
    exact del_ench_consistent hK hm ENCH_LIQUEFYING false true
  have hs1 : same_at e.ench m (if e.ench = ENCH_FLIGHT ∧ m.has_ench ENCH_LIQUEFYING = true then
      (monster.del_ench env m ENCH_LIQUEFYING false true).2 else m) := by
    by_cases hc : e.ench = ENCH_FLIGHT ∧ m.has_ench ENCH_LIQUEFYING = true
    · rw [if_pos hc]
      exact same_at_del_ench_plain hP hm false true (by rw [hc.1]; decide)
        (by decide) (by decide) (by decide) (Or.inl (by decide))
    · rw [if_neg hc]
      exact same_at_refl _ m
  dsimp only
  generalize (if e.ench = ENCH_FLIGHT ∧ m.has_ench ENCH_LIQUEFYING = true then
      (monster.del_ench env m ENCH_LIQUEFYING false true).2 else m) = m1 at hm1 hs1 ⊢
  rw [← hs1.1]
  cases hl : m1.enchantments e.ench with
  | some cur =>
    dsimp only
    let mons : monster :=
      { m1 with enchantments := Function.update m1.enchantments e.ench (some (cur.add_assign env e)) }
    refine ⟨mons, ?_⟩
    simp only [Function.update_same, mons]
  | none =>
    dsimp only
    have h2c := insert_consistent hm1 e.ench e rfl h0
    have h3c := overwrite_consistent h2c e.ench
      (if e.duration = 0 then e.set_duration env
        { m1 with enchantments := Function.update m1.enchantments e.ench (some e),
                  ench_cache := Function.update m1.ench_cache e.ench true } none else e)
      (by split_ifs
          · rw [set_duration_ench]
          · rfl) (by simp)
    have hs := same_at_add_effect_self hP h3c e false
    let mons : monster :=
      { m1 with enchantments := Function.update m1.enchantments e.ench (some e),
                ench_cache := Function.update m1.ench_cache e.ench true }
    refine ⟨mons, ?_⟩
    rw [hs.1]
    simp only [Function.update_same, mons]

/-! ## Concrete worlds and monsters -/

theorem still_passive : still.passive :=
  ⟨fun _ _ => ⟨rfl, rfl⟩, fun _ _ => ⟨rfl, rfl⟩, fun _ => ⟨rfl, rfl⟩⟩

theorem wary_passive : wary.passive :=
  ⟨fun _ _ => ⟨rfl, rfl⟩, fun _ _ => ⟨rfl, rfl⟩, fun _ => ⟨rfl, rfl⟩⟩

theorem murky_passive : murky.passive :=
  ⟨fun _ _ => ⟨rfl, rfl⟩, fun _ _ => ⟨rfl, rfl⟩, fun _ => ⟨rfl, rfl⟩⟩

theorem blank_consistent : blank.consistent := by
  refine ⟨fun _ => rfl, ?_, rfl⟩
  intro k r h
  cases h

theorem holding_consistent {m : monster} (h : m.consistent) (r : mon_enchant)
    (hr : r.ench ≠ ENCH_NONE) : (m.holding r).consistent :=
  insert_consistent h r.ench r rfl hr

theorem holding_lookup (m : monster) (r : mon_enchant) :
    (m.holding r).enchantments r.ench = some r := by
  simp [monster.holding]

/-- Removal of a present kind that is not the submersion kind goes through. -/
theorem del_ench_goes_through (env : Env) (m : monster) (k : enchant_type) (quiet effect : Bool)
    (me : mon_enchant) (hf : m.enchantments k = some me) (hs : me.ench ≠ ENCH_SUBMERGED) :
    (m.del_ench env k quiet effect).1 = true := by
  have hp : _prepare_del_ench env m me = (true, m) := by
    simp [_prepare_del_ench, hs]
  rw [del_ench_eq, hf]
  simp only [hp]
  cases effect <;> simp

theorem envenomed_consistent : envenomed.consistent :=
  holding_consistent blank_consistent _ (by decide)

theorem summoned_consistent : summoned.consistent :=
  holding_consistent blank_consistent _ (by decide)

theorem lurker_consistent : lurker.consistent :=
  holding_consistent blank_consistent _ (by decide)

/-! ## The presence cache in reachable states -/

theorem get_ench_kind_eq_iff {m : monster} (hm : m.consistent) (k : enchant_type)
    (hk : k ≠ ENCH_NONE) :
    m.has_ench k = decide ((m.get_ench k ENCH_NONE).ench = k) := by
  rw [get_ench_single]
  unfold monster.has_ench
  rw [hm.1 k]
  cases hl : m.enchantments k with
  | none =>
    have : ¬ (ENCH_NONE = k) := fun h => hk h.symm
    simp [this]
  | some r => simp [hm.2.1 k r hl]

theorem blank_reachable : Reachable blank :=
  Reachable.empty blank (fun _ => rfl) (fun _ => rfl)

/-! ## What a removal leaves behind -/

theorem del_ench_true_iff_present_witness :
    ENCH_POISON ≠ ENCH_SUBMERGED
      ∧ (∀ r, envenomed.enchantments ENCH_POISON = some r → r.ench = ENCH_POISON)
      ∧ (((envenomed.del_ench still ENCH_POISON false true).1 = true
            ↔ (envenomed.enchantments ENCH_POISON).isSome = true)
          ∧ ((envenomed.del_ench still ENCH_POISON false true).1 = false
            → (envenomed.del_ench still ENCH_POISON false true).2 = envenomed)) :=
  ⟨by decide, envenomed_consistent.2.1 ENCH_POISON,
   del_ench_true_iff_present still envenomed ENCH_POISON false true (by decide)
     (envenomed_consistent.2.1 ENCH_POISON)⟩

/-! ## What an addition leaves behind -/

/-- An addition that is not turned away returns true. -/
theorem add_ench_accepts (env : Env) (m : monster) (e : mon_enchant)
    (h1 : e.ench ≠ ENCH_NONE)
    (h2 : ¬ (e.ench = ENCH_FEAR
      ∧ (env.test Probe.nonliving m = true ∨ env.test Probe.berserk_or_insane m = true)))
    (h3 : ¬ (e.ench = ENCH_BLIND ∧ env.mons_can_be_blinded m.type = false)) :
    (m.add_ench env e).1 = true := by
  rw [add_ench_eq, if_neg h1, if_neg h2, if_neg h3]
  dsimp only
  split <;> rfl

/-- An addition that returns false leaves the monster as it was. -/
theorem add_ench_false_unchanged (env : Env) (m : monster) (e : mon_enchant)
    (h : (m.add_ench env e).1 = false) : (m.add_ench env e).2 = m := by
  rw [add_ench_eq] at h ⊢
  by_cases h1 : e.ench = ENCH_NONE
  · rw [if_pos h1]
  rw [if_neg h1] at h ⊢
  by_cases h2 : e.ench = ENCH_FEAR
      ∧ (env.test Probe.nonliving m = true ∨ env.test Probe.berserk_or_insane m = true)
  · rw [if_pos h2]
  rw [if_neg h2] at h ⊢
  by_cases h3 : e.ench = ENCH_BLIND ∧ env.mons_can_be_blinded m.type = false
  · rw [if_pos h3]
  rw [if_neg h3] at h
  dsimp only at h
  split at h <;> cases h

/-- C3, as amended: on a consistent table and with collaborators that leave the
table alone, whenever `add_ench` returns true a record of the added kind is in
the table afterwards; whenever it returns false the monster is unchanged, so
that a record of the kind is there afterwards exactly when one was there
before. -/
theorem add_ench_true_then_present (env : Env) (m : monster) (e : mon_enchant)
    (hP : env.passive) (hm : m.consistent) :
    ((m.add_ench env e).1 = true → ((m.add_ench env e).2.enchantments e.ench).isSome = true)
      ∧ ((m.add_ench env e).1 = false → (m.add_ench env e).2 = m) := by
  refine ⟨?_, add_ench_false_unchanged env m e⟩
  intro hr
  obtain ⟨mons, h⟩ := add_ench_stored hP hm e hr
  rw [h]
  rfl

theorem add_ench_true_then_present_witness :
    still.passive ∧ blank.consistent
      ∧ (blank.add_ench still (mon_enchant.make ENCH_POISON 2 none 100)).1 = true
      ∧ ((blank.add_ench still (mon_enchant.make ENCH_POISON 2 none 100)).2.enchantments
          (mon_enchant.make ENCH_POISON 2 none 100).ench).isSome = true :=
  ⟨still_passive, blank_consistent,
   add_ench_accepts still blank _ (by decide) (by decide) (by decide),
   (add_ench_true_then_present still blank (mon_enchant.make ENCH_POISON 2 none 100)
     still_passive blank_consistent).1
     (add_ench_accepts still blank _ (by decide) (by decide) (by decide))⟩

/-- Insertion of a record with a given duration under a kind the table lacks:
the record is stored as given and the on-add hook runs. -/
theorem add_ench_fresh (env : Env) (m : monster) (e : mon_enchant)
    (h1 : e.ench ≠ ENCH_NONE)
    (h2 : ¬ (e.ench = ENCH_FEAR
      ∧ (env.test Probe.nonliving m = true ∨ env.test Probe.berserk_or_insane m = true)))
    (h3 : ¬ (e.ench = ENCH_BLIND ∧ env.mons_can_be_blinded m.type = false))
    (h4 : e.ench ≠ ENCH_FLIGHT) (ha : m.enchantments e.ench = none) (hd : e.duration ≠ 0) :
    m.add_ench env e = (true, monster.add_enchantment_effect env (m.holding e) e false) := by
  have h4' : ¬ (e.ench = ENCH_FLIGHT ∧ m.has_ench ENCH_LIQUEFYING = true) := fun h => h4 h.1
  rw [add_ench_eq, if_neg h1, if_neg h2, if_neg h3]
  simp only [if_neg h4', ha, if_neg hd, Function.update_idem, monster.holding]

theorem add_effect_fear (env : Env) (m : monster) (e : mon_enchant) (quiet : Bool)
    (h : e.ench = ENCH_FEAR) : monster.add_enchantment_effect env m e quiet = m := by
  rw [monster.add_enchantment_effect]
  simp only [h, ENCH_FEAR, ENCH_BERSERK, ENCH_INSANE, ENCH_HASTE,
    ENCH_SLOW, ENCH_SUBMERGED, ENCH_CONFUSION, ENCH_MAD, ENCH_CHARM, ENCH_NEUTRAL_BRIBED,
    ENCH_FRIENDLY_BRIBED, ENCH_HEXED, ENCH_LIQUEFYING, ENCH_SILENCE, ENCH_ROLLING,
    ENCH_FROZEN, ENCH_EPHEMERAL_INFUSION, ENCH_INVIS, Nat.reduceEqDiff, or_self,
    ↓reduceDIte, ↓reduceIte]

theorem add_effect_berserk_wary (m : monster) (e : mon_enchant) (quiet : Bool)
    (h : e.ench = ENCH_BERSERK) (hs : m.has_ench ENCH_SUBMERGED = false) :
    monster.add_enchantment_effect wary m e quiet = m := by
  have hs' : ¬ (m.has_ench 20 = true) := by
    rw [show (20 : enchant_type) = ENCH_SUBMERGED from rfl, hs]
    decide
  rw [monster.add_enchantment_effect]
  simp only [h, ENCH_BERSERK, true_or, ↓reduceDIte, ↓reduceIte]
  simp only [wary, still, hs', ↓reduceIte]
  rfl

theorem frightened_berserker_eq :
    frightened_berserker = (blank.holding (mon_enchant.make ENCH_FEAR 1 none 100)).holding
      (mon_enchant.make ENCH_BERSERK 1 none 100) := by
  unfold frightened_berserker
  rw [add_ench_fresh wary blank _ (by decide) (by simp [wary, still, blank, monster.has_ench])
    (by decide) (by decide) rfl (by decide)]
  rw [add_effect_fear _ _ _ _ rfl]
  rw [add_ench_fresh wary _ _ (by decide) (by decide) (by decide) (by decide)
    (by simp [monster.holding, blank, mon_enchant.make]) (by decide)]
  rw [add_effect_berserk_wary _ _ _ rfl (by simp [monster.holding, blank, mon_enchant.make,
    monster.has_ench])]

/-- A frightened monster that has gone berserk is refused a further
`ENCH_FEAR`: `add_ench` returns false although a record of the kind is in the
table afterwards. -/
theorem add_ench_false_yet_present :
    (frightened_berserker.add_ench wary (mon_enchant.make ENCH_FEAR 1 none 100)).1 = false
      ∧ ((frightened_berserker.add_ench wary
          (mon_enchant.make ENCH_FEAR 1 none 100)).2.enchantments ENCH_FEAR).isSome = true := by
  have hrej : (frightened_berserker.add_ench wary (mon_enchant.make ENCH_FEAR 1 none 100))
      = (false, frightened_berserker) := by
    rw [add_ench_eq, if_neg (by decide), if_pos]
    refine ⟨rfl, Or.inr ?_⟩
    rw [frightened_berserker_eq]
    simp [wary, monster.holding, monster.has_ench, mon_enchant.make]
  rw [hrej]
  refine ⟨rfl, ?_⟩
  rw [frightened_berserker_eq]
  simp [monster.holding, mon_enchant.make]

/-! ## The degree cap -/

theorem set_duration_degree (env : Env) (a : mon_enchant) (mons : monster)
    (added : Option mon_enchant) : (a.set_duration env mons added).degree = a.degree := by
  simp only [mon_enchant.set_duration]
  split_ifs <;> rfl

theorem add_assign_degree_le (env : Env) (a b : mon_enchant) (h : a.ench = b.ench)
    (h1 : a.ench ≠ ENCH_SICK) (h2 : a.ench ≠ ENCH_DRAINED) (h3 : a.ench ≠ ENCH_ABJ)
    (h4 : a.ench ≠ ENCH_FAKE_ABJURATION) : (a.add_assign env b).degree ≤ 4 := by
  rw [(add_assign_fields env a b h).2.1, cap_degree_degree]
  rw [if_neg (show ¬ (a.ench = ENCH_SICK ∨ a.ench = ENCH_DRAINED) from fun x => x.elim h1 h2),
    if_neg (show ¬ (a.ench = ENCH_ABJ ∨ a.ench = ENCH_FAKE_ABJURATION) from fun x => x.elim h3 h4)]
  exact min_le_left _ _

/-- A successful `add_ench` of a capped kind that the table already holds
leaves a record of degree at most 4. -/
theorem add_ench_merge_degree {env : Env} (hP : env.passive) {m : monster} (hm : m.consistent)
    (e cur : mon_enchant) (hl : m.enchantments e.ench = some cur)
    (hr : (m.add_ench env e).1 = true)
    (h1 : e.ench ≠ ENCH_SICK) (h2 : e.ench ≠ ENCH_DRAINED) (h3 : e.ench ≠ ENCH_ABJ)
    (h4 : e.ench ≠ ENCH_FAKE_ABJURATION) :
    ∃ r, (m.add_ench env e).2.enchantments e.ench = some r ∧ r.degree ≤ 4 := by
  obtain ⟨mons, h⟩ := add_ench_stored hP hm e hr
  have hc : cur.ench = e.ench := hm.2.1 _ _ hl
  have hd := add_assign_degree_le env cur e hc (hc ▸ h1) (hc ▸ h2) (hc ▸ h3) (hc ▸ h4)
  rw [hl] at h
  refine ⟨_, h, ?_⟩
  dsimp only
  split_ifs
  · rw [set_duration_degree]
    exact hd
  · exact hd

/-- After one or more successful `add_ench` calls of a capped kind that the
table already holds, the record has degree at most 4. -/
theorem add_all_merge_degree {env : Env} (hP : env.passive) (k : enchant_type)
    (h1 : k ≠ ENCH_SICK) (h2 : k ≠ ENCH_DRAINED) (h3 : k ≠ ENCH_ABJ)
    (h4 : k ≠ ENCH_FAKE_ABJURATION) (es : List mon_enchant) :
    ∀ (e : mon_enchant) (m : monster), m.consistent → (m.enchantments k).isSome = true →
      (∀ x ∈ e :: es, x.ench = k) → m.all_added env (e :: es) = true →
      ∃ r, (m.add_all env (e :: es)).enchantments k = some r ∧ r.degree ≤ 4 := by
  induction es with
  | nil =>
    intro e m hm hp hk hok
    have hek : e.ench = k := hk e (List.mem_cons_self _ _)
    obtain ⟨cur, hl⟩ := Option.isSome_iff_exists.mp hp
    simp only [monster.all_added, Bool.and_true] at hok
    subst hek
    exact add_ench_merge_degree hP hm e cur hl hok h1 h2 h3 h4
  | cons e' es ih =>
    intro e m hm hp hk hok
    have hek : e.ench = k := hk e (List.mem_cons_self _ _)
    obtain ⟨cur, hl⟩ := Option.isSome_iff_exists.mp hp
    rw [monster.all_added, Bool.and_eq_true] at hok
    subst hek
    obtain ⟨r, hr, _⟩ := add_ench_merge_degree hP hm e cur hl hok.1 h1 h2 h3 h4
    have hm' := add_ench_consistent (passive_keeps_consistent hP) hm e
    exact ih e' (m.add_ench env e).2 hm' (by rw [hr]; rfl)
      (fun x hx => hk x (List.mem_cons_of_mem _ hx)) hok.2

/-- C5, as amended: for every kind whose cap is 4, starting from a consistent
table that lacks the kind and with collaborators that leave the table alone,
after a sequence of successful `add_ench` calls of that kind the table holds a
record of the kind; after the first call its degree is the degree given,
whatever it is, and after every further call it is at most 4. -/
theorem add_all_degree_capped_after_merge (env : Env) (m : monster) (k : enchant_type)
    (e : mon_enchant) (es : List mon_enchant) (hP : env.passive) (hm : m.consistent)
    (h1 : k ≠ ENCH_SICK) (h2 : k ≠ ENCH_DRAINED) (h3 : k ≠ ENCH_ABJ)
    (h4 : k ≠ ENCH_FAKE_ABJURATION) (ha : m.enchantments k = none)
    (hk : ∀ x ∈ e :: es, x.ench = k) (hok : m.all_added env (e :: es) = true) :
    ∃ r, (m.add_all env (e :: es)).enchantments k = some r
      ∧ (es = [] → r.degree = e.degree) ∧ (es ≠ [] → r.degree ≤ 4) := by
  have hek : e.ench = k := hk e (List.mem_cons_self _ _)
  rw [monster.all_added, Bool.and_eq_true] at hok
  obtain ⟨mons, hs⟩ := add_ench_stored hP hm e hok.1
  rw [hek, ha] at hs
  have hm' := add_ench_consistent (passive_keeps_consistent hP) hm e
  cases es with
  | nil =>
    refine ⟨_, hs, ?_, fun h => absurd rfl h⟩
    intro _
    dsimp only
    split_ifs
    · rw [set_duration_degree]
    · rfl
  | cons e' es =>
    obtain ⟨r, hr, hd⟩ := add_all_merge_degree hP k h1 h2 h3 h4 es e' (m.add_ench env e).2 hm'
      (by rw [hs]; rfl) (fun x hx => hk x (List.mem_cons_of_mem _ hx)) hok.2
    exact ⟨r, hr, fun h => absurd h (List.cons_ne_nil _ _), fun _ => hd⟩

/-- A single `add_ench` of `ENCH_SUMMON` with degree 7 and duration `INT_MAX`,
the shape of the record that `mark_summoned` adds, on a monster without the
kind succeeds and stores degree 7. -/
theorem first_add_ench_is_not_capped :
    blank.enchantments ENCH_SUMMON = none
      ∧ (blank.add_ench still (mon_enchant.make ENCH_SUMMON 7 none 2147483647)).1 = true
      ∧ (blank.add_ench still
          (mon_enchant.make ENCH_SUMMON 7 none 2147483647)).2.enchantments ENCH_SUMMON
          = some (mon_enchant.make ENCH_SUMMON 7 none 2147483647)
      ∧ ¬ ((mon_enchant.make ENCH_SUMMON 7 none 2147483647).degree ≤ 4) := by
  have hf := add_ench_fresh still blank (mon_enchant.make ENCH_SUMMON 7 none 2147483647)
    (by decide) (by decide) (by decide) (by decide) rfl (by decide)
  refine ⟨rfl, ?_, ?_, by decide⟩
  · rw [hf]
  · rw [hf]
    have hs := same_at_add_effect_self still_passive
      (holding_consistent blank_consistent (mon_enchant.make ENCH_SUMMON 7 none 2147483647)
        (by decide))
      (mon_enchant.make ENCH_SUMMON 7 none 2147483647) false
    exact hs.1.trans (holding_lookup _ _)

theorem add_all_degree_capped_after_merge_witness :
    still.passive ∧ blank.consistent
      ∧ blank.all_added still
          [mon_enchant.make ENCH_POISON 7 none 100, mon_enchant.make ENCH_POISON 3 none 100] = true
      ∧ ∃ r, (blank.add_all still
          [mon_enchant.make ENCH_POISON 7 none 100,
           mon_enchant.make ENCH_POISON 3 none 100]).enchantments ENCH_POISON = some r
        ∧ r.degree ≤ 4 := by
  have hok : blank.all_added still
      [mon_enchant.make ENCH_POISON 7 none 100, mon_enchant.make ENCH_POISON 3 none 100]
        = true := by
    simp only [monster.all_added, Bool.and_true, Bool.and_eq_true]
    exact ⟨add_ench_accepts still blank _ (by decide) (by decide) (by decide),
      add_ench_accepts still _ _ (by decide) (by decide) (by decide)⟩
  obtain ⟨r, hr, _, hd⟩ := add_all_degree_capped_after_merge still blank ENCH_POISON
    (mon_enchant.make ENCH_POISON 7 none 100) [mon_enchant.make ENCH_POISON 3 none 100]
    still_passive blank_consistent (by decide) (by decide) (by decide) (by decide) rfl
    (by intro x hx; simp at hx; rcases hx with hx | hx <;> rw [hx] <;> rfl) hok
  exact ⟨still_passive, blank_consistent, hok, r, hr, hd (by simp)⟩

/-! ## The duration cap -/

/-- Merging into a record that the table holds, for a kind that is never turned
away and is not `ENCH_FLIGHT`. -/
theorem add_ench_merge (env : Env) (m : monster) (e cur : mon_enchant)
    (h1 : e.ench ≠ ENCH_NONE) (h2 : e.ench ≠ ENCH_FEAR) (h3 : e.ench ≠ ENCH_BLIND)
    (h4 : e.ench ≠ ENCH_FLIGHT) (hl : m.enchantments e.ench = some cur) :
    (m.add_ench env e).2.enchantments e.ench = some
      (if e.duration = 0 then
        (cur.add_assign env e).set_duration env
          { m with enchantments :=
              Function.update m.enchantments e.ench (some (cur.add_assign env e)) } (some e)
       else cur.add_assign env e) := by
  rw [add_ench_eq, if_neg h1, if_neg (fun h => h2 h.1), if_neg (fun h => h3 h.1)]
  simp only [if_neg (fun h : e.ench = ENCH_FLIGHT ∧ m.has_ench ENCH_LIQUEFYING = true => h4 h.1),
    hl, Function.update_same]

theorem calc_duration_poison_ge (env : Env) (self : mon_enchant) (mons : monster)
    (added : Option mon_enchant) (h : self.ench = ENCH_POISON) :
    self.calc_duration env mons added ≥ 15 := by
  unfold mon_enchant.calc_duration
  simp only [h, ENCH_POISON, ENCH_WITHDRAWN, ENCH_SWIFT, ENCH_HASTE, ENCH_MIGHT, ENCH_INVIS,
    ENCH_FEAR_INSPIRING, ENCH_STONESKIN, ENCH_AGILE, ENCH_BLACK_MARK, ENCH_RESISTANCE,
    ENCH_LIQUEFYING, ENCH_SILENCE, ENCH_REGENERATION, ENCH_RAISED_MR, ENCH_MIRROR_DAMAGE,
    ENCH_DEATHS_DOOR, ENCH_SAP_MAGIC, ENCH_SLOW, ENCH_CORROSION, ENCH_FEAR, ENCH_PARALYSIS,
    ENCH_PETRIFIED, ENCH_DAZED, ENCH_PETRIFYING, ENCH_CONFUSION, ENCH_HELD,
    Nat.reduceEqDiff, or_self, ↓reduceIte]
  exact le_max_left _ _

theorem set_duration_unset (env : Env) (self a : mon_enchant) (mons : monster)
    (ha : a.duration = 0) :
    (self.set_duration env mons (some a)).duration
      = self.duration + self.calc_duration env mons (some a) := by
  simp only [mon_enchant.set_duration, ha]
  split_ifs <;> simp_all

/-- C6: a poison record with ten ticks less than `INFINITE_DURATION` left is
merged with a poison record of unset duration; the stored duration exceeds
`INFINITE_DURATION` by at least 5, whatever the fuzz draws, because
`set_duration` adds the computed duration after `operator+=` has capped the
sum. -/
theorem merge_with_unset_duration_exceeds_cap (env : Env) :
    (long_poisoned env).enchantments ENCH_POISON
        = some (mon_enchant.make ENCH_POISON 1 none (env.INFINITE_DURATION - 10))
      ∧ (mon_enchant.make ENCH_POISON 1 none (env.INFINITE_DURATION - 10)).duration
          ≤ env.INFINITE_DURATION
      ∧ ∃ r, ((long_poisoned env).add_ench env
            (mon_enchant.make ENCH_POISON 1 none 0)).2.enchantments ENCH_POISON = some r
          ∧ r.duration ≥ env.INFINITE_DURATION + 5 := by
  have hl : (long_poisoned env).enchantments (mon_enchant.make ENCH_POISON 1 none 0).ench
      = some (mon_enchant.make ENCH_POISON 1 none (env.INFINITE_DURATION - 10)) :=
    holding_lookup blank _
  refine ⟨hl, ?_, ?_⟩
  · show env.INFINITE_DURATION - 10 ≤ env.INFINITE_DURATION
    omega
  · have h := add_ench_merge env (long_poisoned env) (mon_enchant.make ENCH_POISON 1 none 0) _
      (by decide) (by decide) (by decide) (by decide) hl
    refine ⟨_, h, ?_⟩
    rw [if_pos (show (mon_enchant.make ENCH_POISON 1 none 0).duration = 0 from rfl),
      set_duration_unset _ _ _ _ rfl]
    have hk : ((mon_enchant.make ENCH_POISON 1 none (env.INFINITE_DURATION - 10)).add_assign env
        (mon_enchant.make ENCH_POISON 1 none 0)).ench = ENCH_POISON := by
      rw [add_assign_ench]
      rfl
    have hc := fun mons added => calc_duration_poison_ge env
      ((mon_enchant.make ENCH_POISON 1 none (env.INFINITE_DURATION - 10)).add_assign env
        (mon_enchant.make ENCH_POISON 1 none 0)) mons added hk
    have hd : env.INFINITE_DURATION - 10
        ≤ ((mon_enchant.make ENCH_POISON 1 none (env.INFINITE_DURATION - 10)).add_assign env
          (mon_enchant.make ENCH_POISON 1 none 0)).duration := by
      rw [(add_assign_fields env (mon_enchant.make ENCH_POISON 1 none (env.INFINITE_DURATION - 10))
        (mon_enchant.make ENCH_POISON 1 none 0) rfl).2.2.1]
      show env.INFINITE_DURATION - 10
        ≤ min env.INFINITE_DURATION (to_int (env.INFINITE_DURATION - 10 + 0))
      have hfit := env.INFINITE_DURATION_fits.2
      have hw := to_int_ge (env.INFINITE_DURATION - 10 + 0) (by omega)
      omega
    exact le_trans (show env.INFINITE_DURATION + 5 ≤ env.INFINITE_DURATION - 10 + 15 by omega)
      (Int.add_le_add hd (hc _ _))

/-! ## Loss of duration -/

/-- C11: a record whose duration is at least `INFINITE_DURATION` is left alone
by time-based decay.  For every delta `lose_ench_duration` returns false and the
monster is unchanged; `lose_ench_levels` without the allow-on-infinite flag does
the same for every number of levels; and when the record is the one stored under
`en`, `decay_enchantment` returns false and the monster is unchanged for either
value of `decay_degree`. -/
theorem infinite_duration_immune (env : Env) (m : monster) (r : mon_enchant) (en : enchant_type)
    (h : r.duration ≥ env.INFINITE_DURATION) :
    (∀ dur, m.lose_ench_duration env r dur = (false, m))
      ∧ (∀ lev, m.lose_ench_levels env r lev false = (false, m))
      ∧ (m.enchantments en = some r →
          ∀ decay_degree, m.decay_enchantment env en decay_degree = (false, m)) := by
  refine ⟨?_, ?_, ?_⟩
  · intro dur
    simp only [monster.lose_ench_duration, if_pos h, ite_self]
  · intro lev
    simp only [monster.lose_ench_levels, h, and_self, if_true, ite_self]
  · intro hl decay_degree
    unfold monster.decay_enchantment
    rw [get_ench_single, hl]
    simp only [Option.getD_some, if_pos h, ite_self]

theorem infinite_duration_immune_witness :
    (mon_enchant.make ENCH_POISON 1 none 30000).duration ≥ still.INFINITE_DURATION
      ∧ (∀ dur, (blank.holding (mon_enchant.make ENCH_POISON 1 none 30000)).lose_ench_duration
            still (mon_enchant.make ENCH_POISON 1 none 30000) dur
          = (false, blank.holding (mon_enchant.make ENCH_POISON 1 none 30000)))
      ∧ (∀ decay_degree,
          (blank.holding (mon_enchant.make ENCH_POISON 1 none 30000)).decay_enchantment
            still ENCH_POISON decay_degree
          = (false, blank.holding (mon_enchant.make ENCH_POISON 1 none 30000))) :=
  ⟨by decide,
   (infinite_duration_immune still _ (mon_enchant.make ENCH_POISON 1 none 30000) ENCH_POISON
      (by decide)).1,
   (infinite_duration_immune still (blank.holding (mon_enchant.make ENCH_POISON 1 none 30000))
      (mon_enchant.make ENCH_POISON 1 none 30000) ENCH_POISON (by decide)).2.2
      (holding_lookup blank _)⟩

/-! ## Range queries -/

theorem get_ench_loop_found (m : monster) (n e k : Nat) (r : mon_enchant)
    (h1 : e ≤ k) (h2 : k < e + n) (hk : m.enchantments k = some r)
    (hlow : ∀ j : Nat, e ≤ j → j < k → m.enchantments j = none) :
    monster.get_ench_loop m e n = r := by
  induction n generalizing e with
  | zero => omega
  | succ n ih =>
    rw [monster.get_ench_loop]
    by_cases hek : e = k
    · subst hek
      rw [hk]
    · have hlt : e < k := by omega
      rw [hlow e (le_refl e) hlt]
      exact ih (e + 1) (by omega) (by omega) (fun j hj1 hj2 => hlow j (by omega) hj2)

theorem get_ench_loop_none (m : monster) (n e : Nat)
    (hnone : ∀ j : Nat, e ≤ j → j < e + n → m.enchantments j = none) :
    monster.get_ench_loop m e n = {} := by
  induction n generalizing e with
  | zero => rfl
  | succ n ih =>
    rw [monster.get_ench_loop, hnone e (le_refl e) (by omega)]
    exact ih (e + 1) (fun j hj1 hj2 => hnone j (by omega) (by omega))

theorem has_ench_loop_iff (m : monster) (n e : Nat) :
    monster.has_ench_loop m e n = true ↔ ∃ k : Nat, e ≤ k ∧ k < e + n ∧ m.has_ench k = true := by
  induction n generalizing e with
  | zero =>
    simp only [monster.has_ench_loop, Bool.false_eq_true, false_iff]
    rintro ⟨k, h1, h2, _⟩
    omega
  | succ n ih =>
    rw [monster.has_ench_loop]
    by_cases he : m.has_ench e = true
    · rw [if_pos he]
      exact ⟨fun _ => ⟨e, le_refl e, by omega, he⟩, fun _ => rfl⟩
    · rw [if_neg he, ih (e + 1)]
      constructor
      · rintro ⟨k, h1, h2, h3⟩
        exact ⟨k, by omega, by omega, h3⟩
      · rintro ⟨k, h1, h2, h3⟩
        have hne : k ≠ e := fun hke => he (hke ▸ h3)
        exact ⟨k, by omega, by omega, h3⟩

/-- C19: with `hi` the end of the range (`a` itself when `b` is `ENCH_NONE`, else
`b`), `get_ench(a, b)` returns the stored record of the lowest kind of `[a, hi]`
that the table holds and the default record, whose kind is `ENCH_NONE`, when the
table holds none (so also when `hi < a`); `has_ench(a, b)` is true exactly when
the cache bit of some kind of `[a, hi]` is set, which on a consistent monster
means that the table holds a record of some kind of `[a, hi]`. -/
theorem range_queries (m : monster) (a b : Nat) :
    (∀ (k : Nat) (r : mon_enchant), a ≤ k → k ≤ (if b = ENCH_NONE then a else b) →
        m.enchantments k = some r → (∀ j : Nat, a ≤ j → j < k → m.enchantments j = none) →
        m.get_ench a b = r)
      ∧ ((∀ k : Nat, a ≤ k → k ≤ (if b = ENCH_NONE then a else b) → m.enchantments k = none) →
          m.get_ench a b = {} ∧ (m.get_ench a b).ench = ENCH_NONE)
      ∧ (m.has_ench_range a b = true ↔
          ∃ k : Nat, a ≤ k ∧ k ≤ (if b = ENCH_NONE then a else b) ∧ m.has_ench k = true)
      ∧ (m.consistent → (m.has_ench_range a b = true ↔
          ∃ k : Nat, a ≤ k ∧ k ≤ (if b = ENCH_NONE then a else b)
            ∧ (m.enchantments k).isSome = true)) := by
  have hiff : m.has_ench_range a b = true ↔
      ∃ k : Nat, a ≤ k ∧ k ≤ (if b = ENCH_NONE then a else b) ∧ m.has_ench k = true := by
    show monster.has_ench_loop m a ((if b = ENCH_NONE then a else b) + 1 - a) = true ↔ _
    rw [has_ench_loop_iff]
    constructor
    · rintro ⟨k, h1, h2, h3⟩
      exact ⟨k, h1, by omega, h3⟩
    · rintro ⟨k, h1, h2, h3⟩
      exact ⟨k, h1, by omega, h3⟩
  refine ⟨?_, ?_, hiff, ?_⟩
  · intro k r h1 h2 hk hlow
    show monster.get_ench_loop m a ((if b = ENCH_NONE then a else b) + 1 - a) = r
    exact get_ench_loop_found m _ a k r h1 (by omega) hk hlow
  · intro hnone
    have h : m.get_ench a b = {} := by
      show monster.get_ench_loop m a ((if b = ENCH_NONE then a else b) + 1 - a) = {}
      exact get_ench_loop_none m _ a (fun j hj1 hj2 => hnone j hj1 (by omega))
    exact ⟨h, by rw [h]⟩
  · intro hm
    rw [hiff]
    constructor
    · rintro ⟨k, h1, h2, h3⟩
      refine ⟨k, h1, h2, ?_⟩
      rw [← hm.1 k]
      exact h3
    · rintro ⟨k, h1, h2, h3⟩
      refine ⟨k, h1, h2, ?_⟩
      show m.ench_cache k = true
      rw [hm.1 k]
      exact h3

theorem range_queries_witness :
    envenomed.consistent
      ∧ envenomed.get_ench ENCH_HASTE ENCH_ROT = mon_enchant.make ENCH_POISON 2 none 100
      ∧ (envenomed.has_ench_range ENCH_HASTE ENCH_ROT = true ↔
          ∃ k : Nat, ENCH_HASTE ≤ k ∧ k ≤ (if ENCH_ROT = ENCH_NONE then ENCH_HASTE else ENCH_ROT)
            ∧ (envenomed.enchantments k).isSome = true) :=
  ⟨envenomed_consistent,
   (range_queries envenomed ENCH_HASTE ENCH_ROT).1 ENCH_POISON _ (by decide) (by decide)
     (holding_lookup blank _)
     (fun j _ hj => by
        have hne : j ≠ ENCH_POISON := Nat.ne_of_lt hj
        simp [envenomed, monster.holding, mon_enchant.make, blank, hne]),
   (range_queries envenomed ENCH_HASTE ENCH_ROT).2.2.2 envenomed_consistent⟩

/-! ## The duration calculator -/

theorem calc_duration_fuzzed_ge (env : Env) (self : mon_enchant) (mons : monster)
    (added : Option mon_enchant) (h : returns_directly self.ench = false) :
    15 ≤ self.calc_duration env mons added := by
  simp only [returns_directly, Bool.or_eq_false_iff, decide_eq_false_iff_not] at h
  obtain ⟨⟨⟨⟨⟨⟨h1, h2⟩, h3⟩, h4⟩, h5⟩, h6⟩, h7⟩ := h
  unfold mon_enchant.calc_duration
  simp only [h1, h2, h3, h4, h5, h6, h7, if_false]
  repeat' first
    | exact le_max_left _ _
    | apply ite_holds (fun x : Int => 15 ≤ x)

theorem calc_duration_left_to_caller (env : Env) (self : mon_enchant) (mons : monster)
    (added : Option mon_enchant)
    (h : self.ench = ENCH_PORTAL_PACIFIED ∨ self.ench = ENCH_BREATH_WEAPON) :
    self.calc_duration env mons added = 0 := by
  unfold mon_enchant.calc_duration
  rcases h with h | h <;>
  simp only [h, ENCH_PORTAL_PACIFIED, ENCH_BREATH_WEAPON, ENCH_WITHDRAWN, ENCH_SWIFT, ENCH_HASTE,
    ENCH_MIGHT, ENCH_INVIS,
    ENCH_FEAR_INSPIRING, ENCH_STONESKIN, ENCH_AGILE, ENCH_BLACK_MARK, ENCH_RESISTANCE,
    ENCH_LIQUEFYING, ENCH_SILENCE, ENCH_REGENERATION, ENCH_RAISED_MR, ENCH_MIRROR_DAMAGE,
    ENCH_DEATHS_DOOR, ENCH_SAP_MAGIC, ENCH_SLOW, ENCH_CORROSION, ENCH_FEAR, ENCH_PARALYSIS,
    ENCH_PETRIFIED, ENCH_DAZED, ENCH_PETRIFYING, ENCH_CONFUSION, ENCH_HELD, ENCH_POISON,
    ENCH_STICKY_FLAME, ENCH_ROT, ENCH_CORONA, ENCH_SILVER_CORONA, ENCH_SHORT_LIVED,
    ENCH_SLOWLY_DYING, ENCH_SPORE_PRODUCTION, ENCH_EXPLODING,
    Nat.reduceEqDiff, or_self, ↓reduceIte]

/-- C20: `calc_duration` returns exactly 0 for `ENCH_PORTAL_PACIFIED` and
`ENCH_BREATH_WEAPON`, and at least 15 for every kind whose case goes through the
final floor and fuzz (every kind but the seven whose case returns directly), for
every monster, degree, merged record and outcome of the random draws. -/
theorem calc_duration_zero_or_floor (env : Env) (self : mon_enchant) (mons : monster)
    (added : Option mon_enchant) :
    ((self.ench = ENCH_PORTAL_PACIFIED ∨ self.ench = ENCH_BREATH_WEAPON) →
        self.calc_duration env mons added = 0)
      ∧ (returns_directly self.ench = false → 15 ≤ self.calc_duration env mons added) :=
  ⟨calc_duration_left_to_caller env self mons added, calc_duration_fuzzed_ge env self mons added⟩

theorem calc_duration_zero_or_floor_witness :
    (mon_enchant.make ENCH_BREATH_WEAPON 1 none 0).calc_duration still blank none = 0
      ∧ returns_directly (mon_enchant.make ENCH_POISON 2 none 0).ench = false
      ∧ 15 ≤ (mon_enchant.make ENCH_POISON 2 none 0).calc_duration still blank none :=
  ⟨(calc_duration_zero_or_floor still (mon_enchant.make ENCH_BREATH_WEAPON 1 none 0) blank
      none).1 (Or.inr rfl),
   by decide,
   (calc_duration_zero_or_floor still (mon_enchant.make ENCH_POISON 2 none 0) blank none).2
     (by decide)⟩

/-! ## Names of kinds -/

set_option maxRecDepth 100000 in
theorem names_round_trip_all :
    (List.range (NUM_ENCHANTMENTS + 1)).all
      (fun k => decide (name_to_ench (_mons_enchantment_name k) = k)) = true := by
  decide

theorem names_round_trip_le (k : Nat) (h : k ≤ NUM_ENCHANTMENTS) :
    name_to_ench (_mons_enchantment_name k) = k := by
  have hall := names_round_trip_all
  rw [List.all_eq_true] at hall
  have hk := hall k (List.mem_range.mpr (Nat.lt_succ_of_le h))
  exact of_decide_eq_true hk

theorem name_to_ench_loop_spec (s : String) (n i : Nat) :
    (name_to_ench_loop s i n = ENCH_NONE ∨
        (i ≤ name_to_ench_loop s i n ∧ name_to_ench_loop s i n < i + n
          ∧ enchant_names.getD (name_to_ench_loop s i n) "" = s)) := by
  induction n generalizing i with
  | zero => exact Or.inl rfl
  | succ n ih =>
    rw [name_to_ench_loop]
    by_cases h : s = enchant_names.getD i ""
    · rw [if_pos h]
      exact Or.inr ⟨le_refl i, Nat.lt_add_of_pos_right (Nat.succ_pos n), h.symm⟩
    · rw [if_neg h]
      rcases ih (i + 1) with h0 | ⟨h1, h2, h3⟩
      · exact Or.inl h0
      · refine Or.inr ⟨Nat.le_of_succ_le h1, ?_, h3⟩
        rw [Nat.add_assoc, Nat.add_comm 1 n] at h2
        exact h2

set_option maxRecDepth 100000 in
theorem name_to_ench_unknown (s : String) (h : s ∉ enchant_names) :
    name_to_ench s = ENCH_NONE := by
  rcases name_to_ench_loop_spec s (enchant_names.length - ENCH_NONE) ENCH_NONE with h0 | ⟨_, h2, h3⟩
  · exact h0
  · exfalso
    apply h
    have hlt : name_to_ench_loop s ENCH_NONE (enchant_names.length - ENCH_NONE)
        < enchant_names.length := by
      have h4 : ENCH_NONE + (enchant_names.length - ENCH_NONE) = enchant_names.length := by
        show 0 + (enchant_names.length - 0) = enchant_names.length
        rw [Nat.zero_add, Nat.sub_zero]
      rw [h4] at h2
      exact h2
    rw [← h3, List.getD_eq_getElem _ _ hlt]
    exact List.getElem_mem _

set_option maxRecDepth 100000 in
theorem name_to_ench_le (s : String) : name_to_ench s ≤ NUM_ENCHANTMENTS := by
  rcases name_to_ench_loop_spec s (enchant_names.length - ENCH_NONE) ENCH_NONE with h0 | ⟨_, h2, _⟩
  · show name_to_ench_loop s ENCH_NONE (enchant_names.length - ENCH_NONE) ≤ NUM_ENCHANTMENTS
    rw [h0]
    decide
  · have h4 : ENCH_NONE + (enchant_names.length - ENCH_NONE) = NUM_ENCHANTMENTS + 1 := by
      show 0 + (enchant_names.length - 0) = NUM_ENCHANTMENTS + 1
      rw [Nat.zero_add, Nat.sub_zero]
      rfl
    rw [h4] at h2
    exact Nat.le_of_lt_succ h2

/-- C18: for every kind `k` below `NUM_ENCHANTMENTS`, looking up the name of
`k` gives `k` back, and no other kind below `NUM_ENCHANTMENTS` has the same
name. -/
theorem names_round_trip (k : enchant_type) (h : k < NUM_ENCHANTMENTS) :
    name_to_ench (_mons_enchantment_name k) = k
      ∧ ∀ j : enchant_type, j < NUM_ENCHANTMENTS →
          _mons_enchantment_name j = _mons_enchantment_name k → j = k := by
  refine ⟨names_round_trip_le k (Nat.le_of_lt h), ?_⟩
  intro j hj hjk
  rw [← names_round_trip_le j (Nat.le_of_lt hj), hjk, names_round_trip_le k (Nat.le_of_lt h)]

theorem names_round_trip_witness :
    ENCH_POISON < NUM_ENCHANTMENTS
      ∧ name_to_ench (_mons_enchantment_name ENCH_POISON) = ENCH_POISON :=
  ⟨by decide, (names_round_trip ENCH_POISON (by decide)).1⟩

/-- C17: the name `"buggy"` is the name of no kind below `NUM_ENCHANTMENTS`, yet
`name_to_ench` answers it with `NUM_ENCHANTMENTS`, which is not a kind: the loop
also compares with the last entry of `enchant_names`, the entry that
`_mons_enchantment_name` gives for a value that is not a kind.  Every string
that is not in the table does resolve to `ENCH_NONE`, and no result exceeds
`NUM_ENCHANTMENTS`. -/
theorem name_to_ench_buggy :
    name_to_ench "buggy" = NUM_ENCHANTMENTS
      ∧ (∀ k : enchant_type, k < NUM_ENCHANTMENTS → _mons_enchantment_name k ≠ "buggy")
      ∧ (∀ s : String, s ∉ enchant_names → name_to_ench s = ENCH_NONE)
      ∧ (∀ s : String, name_to_ench s ≤ NUM_ENCHANTMENTS) := by
  have hb : name_to_ench "buggy" = NUM_ENCHANTMENTS :=
    names_round_trip_le NUM_ENCHANTMENTS (le_refl _)
  refine ⟨hb, ?_, name_to_ench_unknown, name_to_ench_le⟩
  intro k hk hname
  have h1 := names_round_trip_le k (Nat.le_of_lt hk)
  rw [hname, hb] at h1
  exact absurd h1.symm (Nat.ne_of_lt hk)

/-! ## The tick pass -/

theorem clear_far_engulf_consistent {env : Env} (hE : env.keeps monster.consistent)
    {m : monster} (h : m.consistent) : (m.clear_far_engulf env).2.consistent := by
  unfold monster.clear_far_engulf
  dsimp only
  repeat' first
    | exact h
    | exact del_ench_consistent hE h _ _ _
    | apply ite_holds (fun r : Bool × monster => r.2.consistent)

theorem apply_enchantment_consistent {env : Env} (hE : env.keeps monster.consistent)
    {m : monster} (h : m.consistent) (me : mon_enchant) :
    (m.apply_enchantment env me).consistent := by
  unfold monster.apply_enchantment
  dsimp only
  repeat' first
    | exact h
    | exact consistent_of_eq (hE.1 _ _ h) rfl rfl
    | apply decay_enchantment_consistent hE
    | apply add_ench_consistent hE
    | apply del_ench_consistent hE
    | apply lose_ench_duration_consistent hE
    | apply clear_far_engulf_consistent hE
    | apply hE.1
    | apply ite_holds monster.consistent

theorem upto_succ (tick : monster → mon_enchant → monster) (ec : enchant_type → Bool)
    (m : monster) (i : Nat) (mi : monster) (ran : List enchant_type)
    (h : monster.apply_enchantments_upto tick ec m i = some (mi, ran)) :
    monster.apply_enchantments_upto tick ec m (i + 1)
      = if ec i && mi.has_ench i then
          match mi.enchantments i with
          | some me => some (tick mi me, ran ++ [i])
          | none => none
        else some (mi, ran) := by
  rw [monster.apply_enchantments_upto, h]

/-- State of the loop when it reaches kind `i`, for a hook that keeps the table
consistent: the loop got there, the hooks ran in increasing order of kind, and
the hook of a kind `k` below `i` ran exactly when `k` was in the snapshot and in
the table when the loop reached `k`. -/
theorem upto_spec (tick : monster → mon_enchant → monster) (ec : enchant_type → Bool)
    (hT : ∀ (m : monster) (me : mon_enchant), m.consistent → (tick m me).consistent)
    (m : monster) (hm : m.consistent) (i : Nat) :
    ∃ (mi : monster) (ran : List enchant_type),
      monster.apply_enchantments_upto tick ec m i = some (mi, ran)
        ∧ mi.consistent
        ∧ ran.Pairwise (fun a b : Nat => a < b)
        ∧ (∀ k : Nat, k ∈ ran → k < i)
        ∧ (∀ k : Nat, k < i → (k ∈ ran ↔ (ec k = true ∧ ∃ (mk : monster) (rk : List enchant_type),
            monster.apply_enchantments_upto tick ec m k = some (mk, rk)
              ∧ (mk.enchantments k).isSome = true))) := by
  induction i with
  | zero =>
    refine ⟨m, [], rfl, hm, List.Pairwise.nil, ?_, ?_⟩
    · intro k hk
      cases hk
    · intro k hk
      exact absurd hk (Nat.not_lt_zero k)
  | succ i ih =>
    obtain ⟨mi, ran, hup, hmi, hsorted, hlt, hiff⟩ := ih
    have hnot : i ∉ ran := fun hi => Nat.lt_irrefl i (hlt i hi)
    rw [upto_succ tick ec m i mi ran hup]
    by_cases hc : (ec i && mi.has_ench i) = true
    · rw [if_pos hc]
      rw [Bool.and_eq_true] at hc
      have hsome : (mi.enchantments i).isSome = true := by
        rw [← hmi.1 i]
        exact hc.2
      obtain ⟨me, hme⟩ := Option.isSome_iff_exists.mp hsome
      rw [hme]
      refine ⟨tick mi me, ran ++ [i], rfl, hT mi me hmi, ?_, ?_, ?_⟩
      · rw [List.pairwise_append]
        refine ⟨hsorted, List.pairwise_singleton _ _, ?_⟩
        intro a ha b hb
        rw [List.mem_singleton] at hb
        rw [hb]
        exact hlt a ha
      · intro k hk
        rw [List.mem_append, List.mem_singleton] at hk
        rcases hk with hk | hk
        · exact Nat.lt_succ_of_lt (hlt k hk)
        · rw [hk]
          exact Nat.lt_succ_self i
      · intro k hk
        rw [List.mem_append, List.mem_singleton]
        by_cases hki : k = i
        · rw [hki]
          exact ⟨fun _ => ⟨hc.1, mi, ran, hup, hsome⟩, fun _ => Or.inr rfl⟩
        · have hk2 : k < i := by omega
          rw [← hiff k hk2]
          exact ⟨fun h => h.resolve_right hki, Or.inl⟩
    · rw [if_neg hc]
      refine ⟨mi, ran, rfl, hmi, hsorted, fun k hk => Nat.lt_succ_of_lt (hlt k hk), ?_⟩
      intro k hk
      by_cases hki : k = i
      · rw [hki]
        constructor
        · intro hi
          exact absurd hi hnot
        · rintro ⟨hec, mk, rk, hupk, hsome⟩
          exfalso
          apply hc
          rw [hup] at hupk
          cases hupk
          rw [Bool.and_eq_true]
          refine ⟨hec, ?_⟩
          show mi.ench_cache i = true
          rw [hmi.1 i]
          exact hsome
      · exact hiff k (by omega)

theorem enchantments_empty_iff (m : monster) :
    m.enchantments_empty = true ↔ ∀ k : Nat, k < NUM_ENCHANTMENTS → m.enchantments k = none := by
  unfold monster.enchantments_empty
  rw [List.all_eq_true]
  constructor
  · intro h k hk
    have := h k (List.mem_range.mpr hk)
    exact Option.isNone_iff_eq_none.mp this
  · intro h k hk
    rw [h k (List.mem_range.mp hk)]
    rfl

/-- What one pass dispatches, for collaborators that keep the table
consistent. -/
theorem apply_enchantments_spec (env : Env) (m : monster)
    (hE : env.keeps monster.consistent) (hm : m.consistent) :
    ∃ (m' : monster) (ran : List enchant_type),
      m.apply_enchantments env = some (m', ran)
        ∧ m'.consistent
        ∧ ran.Pairwise (fun a b : Nat => a < b)
        ∧ (∀ k : Nat, k ∈ ran ↔ (k < NUM_ENCHANTMENTS ∧ m.has_ench k = true
            ∧ ∃ (mk : monster) (rk : List enchant_type),
              monster.apply_enchantments_upto (monster.apply_enchantment env) m.ench_cache m k
                = some (mk, rk)
              ∧ (mk.enchantments k).isSome = true)) := by
  unfold monster.apply_enchantments
  by_cases he : m.enchantments_empty = true
  · rw [if_pos he]
    refine ⟨m, [], rfl, hm, List.Pairwise.nil, ?_⟩
    intro k
    constructor
    · intro hk
      cases hk
    · rintro ⟨hk, hc, _⟩
      exfalso
      have hnone := (enchantments_empty_iff m).mp he k hk
      have hc2 : m.ench_cache k = true := hc
      rw [hm.1 k, hnone] at hc2
      cases hc2
  · rw [if_neg he]
    obtain ⟨m', ran, hup, hm', hsorted, hlt, hiff⟩ :=
      upto_spec (monster.apply_enchantment env) m.ench_cache
        (fun a me ha => apply_enchantment_consistent hE ha me) m hm NUM_ENCHANTMENTS
    refine ⟨m', ran, hup, hm', hsorted, ?_⟩
    intro k
    constructor
    · intro hk
      have hk2 := hlt k hk
      exact ⟨hk2, (hiff k hk2).mp hk⟩
    · rintro ⟨hk, hrest⟩
      exact (hiff k hk).mpr hrest

/-! ## Decay, call by call -/

theorem consistent_key_ne_none {m : monster} (hm : m.consistent) {k : enchant_type}
    {r : mon_enchant} (hl : m.enchantments k = some r) : k ≠ ENCH_NONE := by
  intro hk
  rw [hk, hm.2.2] at hl
  cases hl

theorem update_ench_stored (m : monster) (e : mon_enchant) (he : e.ench ≠ ENCH_NONE)
    (r : mon_enchant) (hl : m.enchantments e.ench = some r) :
    m.update_ench e = m.storing e := by
  unfold monster.update_ench
  rw [if_pos he, hl]
  rfl

theorem storing_lookup (m : monster) (r : mon_enchant) :
    (m.storing r).enchantments r.ench = some r := by
  simp [monster.storing]

theorem storing_storing (m : monster) (a b : mon_enchant) (h : a.ench = b.ench) :
    (m.storing a).storing b = m.storing b := by
  simp [monster.storing, h]

theorem decay_enchantment_absent (env : Env) (m : monster) (k : enchant_type)
    (decay_degree : Bool) (h : m.has_ench k = false) :
    m.decay_enchantment env k decay_degree = (false, m) := by
  unfold monster.decay_enchantment
  rw [if_pos h]

theorem decay_ticks_absent (env : Env) (k : enchant_type) (decay_degree : Bool) (n : Nat)
    (m : monster) (h : m.has_ench k = false) :
    monster.decay_ticks env k decay_degree n m = m := by
  induction n with
  | zero => rfl
  | succ n ih =>
    rw [monster.decay_ticks, decay_enchantment_absent env m k decay_degree h]
    exact ih

/-- A call of `decay_enchantment` that does not run the record out of duration
returns false and leaves the record of `after_tick` under the kind; nothing else
of the monster changes. -/
theorem decay_enchantment_after_tick (env : Env) (m : monster) (k : enchant_type)
    (decay_degree : Bool) (r r' : mon_enchant) (hm : m.consistent)
    (hl : m.enchantments k = some r) (hfin : r.duration < env.INFINITE_DURATION)
    (h0 : env.speed_to_duration (if k = ENCH_HELD then m.speed else 10) ≠ 0)
    (h : r.after_tick (env.speed_to_duration (if k = ENCH_HELD then m.speed else 10))
      decay_degree = some r') :
    m.decay_enchantment env k decay_degree = (false, m.storing r') := by
  have hk : r.ench = k := hm.2.1 k r hl
  subst hk
  have hne : r.ench ≠ ENCH_NONE := consistent_key_ne_none hm hl
  have hc : m.has_ench r.ench = true := by
    show m.ench_cache r.ench = true
    rw [hm.1 r.ench, hl]
    rfl
  unfold mon_enchant.after_tick at h
  unfold monster.decay_enchantment
  rw [get_ench_single, hl]
  simp only [Option.getD_some, hc, Bool.true_eq_false, if_false, not_le.mpr hfin, ge_iff_le]
  by_cases hd : r.duration ≤ env.speed_to_duration (if r.ench = ENCH_HELD then m.speed else 10)
  · rw [if_pos hd] at h
    cases h
  · rw [if_neg hd] at h
    have hlose : m.lose_ench_duration env r
        (env.speed_to_duration (if r.ench = ENCH_HELD then m.speed else 10))
        = (false, m.storing { r with duration :=
            r.duration - env.speed_to_duration (if r.ench = ENCH_HELD then m.speed else 10) }) := by
      unfold monster.lose_ench_duration
      rw [if_neg h0, if_neg (not_le.mpr hfin), if_neg hd]
      exact congrArg (Prod.mk false) (update_ench_stored m
        { r with duration :=
            r.duration - env.speed_to_duration (if r.ench = ENCH_HELD then m.speed else 10) }
        hne r hl)
    rw [hlose]
    simp only [Bool.false_eq_true, if_false]
    by_cases hs : r.degree_decays decay_degree = true
    · rw [if_pos hs] at h
      cases h
      unfold mon_enchant.degree_decays at hs
      simp only [Bool.and_eq_true, decide_eq_true_eq] at hs
      obtain ⟨⟨hdd, hdeg⟩, hcond⟩ := hs
      have hdeg2 : ¬ r.degree ≤ 1 := not_le.mpr hdeg
      have hdeg3 : ¬ r.degree - 1 ≤ 0 := by omega
      rw [if_neg (by rw [hdd]; decide), if_neg hdeg2, if_pos hcond, if_neg hdeg3]
      refine congrArg (Prod.mk false) ?_
      exact (update_ench_stored
        (m.storing { r with duration :=
            r.duration - env.speed_to_duration (if r.ench = ENCH_HELD then m.speed else 10) })
        { r with degree := r.degree - 1, maxduration := r.duration } hne
        { r with duration :=
            r.duration - env.speed_to_duration (if r.ench = ENCH_HELD then m.speed else 10) }
        (storing_lookup m { r with duration :=
            r.duration - env.speed_to_duration (if r.ench = ENCH_HELD then m.speed else 10) })).trans
        (storing_storing m _ _ rfl)
    · rw [if_neg hs] at h
      cases h
      unfold mon_enchant.degree_decays at hs
      simp only [Bool.and_eq_true, decide_eq_true_eq, not_and] at hs
      by_cases hdd : decay_degree = false
      · rw [if_pos hdd]
      · rw [if_neg hdd]
        by_cases hdeg : r.degree ≤ 1
        · rw [if_pos hdeg]
        · rw [if_neg hdeg, if_neg (hs ⟨by simpa using hdd, by omega⟩)]

theorem decay_enchantment_expires (env : Env) (m : monster) (k : enchant_type)
    (decay_degree : Bool) (r : mon_enchant) (hm : m.consistent)
    (hl : m.enchantments k = some r) (hfin : r.duration < env.INFINITE_DURATION)
    (h0 : env.speed_to_duration (if k = ENCH_HELD then m.speed else 10) ≠ 0)
    (hd : r.duration ≤ env.speed_to_duration (if k = ENCH_HELD then m.speed else 10))
    (hs : k ≠ ENCH_SUBMERGED) :
    m.decay_enchantment env k decay_degree = (true, (m.del_ench env k false true).2)
      ∧ (m.del_ench env k false true).1 = true := by
  have hk : r.ench = k := hm.2.1 k r hl
  subst hk
  have hc : m.has_ench r.ench = true := by
    show m.ench_cache r.ench = true
    rw [hm.1 r.ench, hl]
    rfl
  have hdel := del_ench_goes_through env m r.ench false true r hl hs
  refine ⟨?_, hdel⟩
  unfold monster.decay_enchantment
  rw [get_ench_single, hl]
  simp only [Option.getD_some, hc, Bool.true_eq_false, if_false, not_le.mpr hfin, ge_iff_le]
  have hlose : m.lose_ench_duration env r
      (env.speed_to_duration (if r.ench = ENCH_HELD then m.speed else 10))
      = (true, (m.del_ench env r.ench false true).2) := by
    unfold monster.lose_ench_duration
    rw [if_neg h0, if_neg (not_le.mpr hfin), if_pos hd]
  rw [hlose]
  simp only [if_true]

theorem storing_consistent {m : monster} (hm : m.consistent) {k : enchant_type}
    {r r' : mon_enchant} (hl : m.enchantments k = some r) (hk : r'.ench = k) :
    (m.storing r').consistent := by
  have h2 := overwrite_consistent hm r'.ench r' rfl (by rw [hk, hl]; rfl)
  exact h2

theorem storing_self (m : monster) (r : mon_enchant) (hl : m.enchantments r.ench = some r) :
    m.storing r = m := by
  unfold monster.storing
  rw [← hl, Function.update_eq_self]

theorem after_tick_ench {r r' : mon_enchant} {delta : Int} {decay_degree : Bool}
    (h : r.after_tick delta decay_degree = some r') : r'.ench = r.ench := by
  unfold mon_enchant.after_tick at h
  split_ifs at h <;> cases h <;> rfl

theorem after_tick_duration_le {r r' : mon_enchant} {delta : Int} {decay_degree : Bool}
    (hpos : 0 ≤ delta) (h : r.after_tick delta decay_degree = some r') :
    r'.duration ≤ r.duration := by
  unfold mon_enchant.after_tick at h
  split_ifs at h <;> cases h
  · exact le_refl _
  · show r.duration - delta ≤ r.duration
    omega

theorem after_tick_some_lt {r r' : mon_enchant} {delta : Int} {decay_degree : Bool}
    (h : r.after_tick delta decay_degree = some r') : delta < r.duration := by
  unfold mon_enchant.after_tick at h
  split_ifs at h with h1
  all_goals omega

theorem after_tick_none {r : mon_enchant} {delta : Int} {decay_degree : Bool}
    (h : r.after_tick delta decay_degree = none) : r.duration ≤ delta := by
  unfold mon_enchant.after_tick at h
  split_ifs at h with h1
  exact h1

/-- As long as `after_ticks` has a record, `n` calls of `decay_enchantment`
change nothing but the record under the kind, which is that record. -/
theorem decay_ticks_after_ticks (env : Env) (k : enchant_type) (decay_degree : Bool) (n : Nat) :
    ∀ (m : monster) (r r' : mon_enchant), m.consistent → m.enchantments k = some r →
      r.duration < env.INFINITE_DURATION →
      0 < env.speed_to_duration (if k = ENCH_HELD then m.speed else 10) →
      mon_enchant.after_ticks (env.speed_to_duration (if k = ENCH_HELD then m.speed else 10))
        decay_degree n r = some r' →
      monster.decay_ticks env k decay_degree n m = m.storing r' ∧ r'.ench = k := by
  induction n with
  | zero =>
    intro m r r' hm hl _ _ h
    have hk : r.ench = k := hm.2.1 k r hl
    cases h
    refine ⟨?_, hk⟩
    rw [monster.decay_ticks, storing_self m r (by rw [hk]; exact hl)]
  | succ n ih =>
    intro m r r' hm hl hfin hpos h
    have hk : r.ench = k := hm.2.1 k r hl
    rw [mon_enchant.after_ticks] at h
    cases h1 : r.after_tick (env.speed_to_duration (if k = ENCH_HELD then m.speed else 10))
        decay_degree with
    | none =>
      rw [h1] at h
      cases h
    | some r1 =>
      rw [h1] at h
      have hr1 : r1.ench = k := (after_tick_ench h1).trans hk
      have hstep := decay_enchantment_after_tick env m k decay_degree r r1 hm hl hfin
        (ne_of_gt hpos) h1
      have hm1 : (m.storing r1).consistent := storing_consistent hm hl hr1
      have hl1 : (m.storing r1).enchantments k = some r1 := by
        rw [← hr1]
        exact storing_lookup m r1
      have hfin1 : r1.duration < env.INFINITE_DURATION :=
        lt_of_le_of_lt (after_tick_duration_le (le_of_lt hpos) h1) hfin
      obtain ⟨h2, h3⟩ := ih (m.storing r1) r1 r' hm1 hl1 hfin1 hpos h
      refine ⟨?_, h3⟩
      rw [monster.decay_ticks, hstep]
      show monster.decay_ticks env k decay_degree n (m.storing r1) = m.storing r'
      rw [h2]
      exact storing_storing m r1 r' (hr1.trans h3.symm)

/-- Removal within `n` calls, from a bound `pot` on the number of calls that each
call which keeps the record lowers by one. -/
theorem decay_ticks_removes (env : Env) (hP : env.passive) (k : enchant_type)
    (hk1 : k ≠ ENCH_SUBMERGED) (hk2 : k ≠ ENCH_ABJ) (hk3 : k ≠ ENCH_FAKE_ABJURATION)
    (decay_degree : Bool) (dmin : Int) (hmin : ∀ s, dmin ≤ env.speed_to_duration s)
    (hpos : 1 ≤ dmin) (pot : mon_enchant → Nat) (hpot1 : ∀ r, 1 ≤ pot r)
    (hpot2 : ∀ (r r' : mon_enchant) (delta : Int), dmin ≤ delta →
      r.after_tick delta decay_degree = some r' → pot r' + 1 ≤ pot r) (n : Nat) :
    ∀ (m : monster) (r : mon_enchant), m.consistent → m.enchantments k = some r →
      r.duration < env.INFINITE_DURATION → pot r ≤ n →
      (monster.decay_ticks env k decay_degree n m).has_ench k = false := by
  induction n with
  | zero =>
    intro m r _ _ _ hn
    have := hpot1 r
    omega
  | succ n ih =>
    intro m r hm hl hfin hn
    have hd := hmin (if k = ENCH_HELD then m.speed else 10)
    have h0 : env.speed_to_duration (if k = ENCH_HELD then m.speed else 10) ≠ 0 := by omega
    rw [monster.decay_ticks]
    cases h1 : r.after_tick (env.speed_to_duration (if k = ENCH_HELD then m.speed else 10))
        decay_degree with
    | none =>
      obtain ⟨he, hdel⟩ := decay_enchantment_expires env m k decay_degree r hm hl hfin h0
        (after_tick_none h1) hk1
      rw [he]
      have hout := (del_ench_outcome env m k false true hP hm hdel).1
        (Or.inr (Or.inl ⟨hk2, hk3⟩))
      rw [decay_ticks_absent env k decay_degree n _ hout.2]
      exact hout.2
    | some r1 =>
      have hk : r.ench = k := hm.2.1 k r hl
      have hr1 : r1.ench = k := (after_tick_ench h1).trans hk
      rw [decay_enchantment_after_tick env m k decay_degree r r1 hm hl hfin h0 h1]
      have hm1 : (m.storing r1).consistent := storing_consistent hm hl hr1
      have hl1 : (m.storing r1).enchantments k = some r1 := by
        rw [← hr1]
        exact storing_lookup m r1
      have hfin1 : r1.duration < env.INFINITE_DURATION :=
        lt_of_le_of_lt (after_tick_duration_le (by omega) h1) hfin
      have hp := hpot2 r r1 _ hd h1
      exact ih (m.storing r1) r1 hm1 hl1 hfin1 (by omega)

theorem decay_factor_pos (g : Int) (hg : 1 < g) : 0 < Int.tdiv (g * (g + 1)) 2 := by
  have h1 : 0 ≤ g * (g + 1) := by nlinarith
  rw [Int.tdiv_eq_ediv h1 (by decide)]
  have h2 : 1 * 2 ≤ g * (g + 1) := by nlinarith
  have := Int.le_ediv_of_mul_le (by decide : (0 : Int) < 2) h2
  omega

theorem fraction_le_self (d f : Int) (hd : 0 ≤ d) (hf : 0 < f) :
    Int.tdiv (d * (f - 1)) f ≤ d := by
  have h1 : 0 ≤ d * (f - 1) := by nlinarith
  rw [Int.tdiv_eq_ediv h1 (le_of_lt hf)]
  exact Int.ediv_le_of_le_mul hf (by nlinarith)

/-- After a call that lowered the degree, the next call does not: `maxduration`
was set to the duration. -/
theorem degree_decays_rebased (r : mon_enchant) (decay_degree : Bool)
    (hd : 0 ≤ r.duration) (hx : r.maxduration = r.duration) :
    r.degree_decays decay_degree = false := by
  unfold mon_enchant.degree_decays
  by_cases hg : 1 < r.degree
  · have hf := decay_factor_pos r.degree hg
    have hle := fraction_le_self r.duration _ hd hf
    rw [hx]
    simp only [Bool.and_eq_false_imp, Bool.and_eq_true, decide_eq_true_eq, decide_eq_false_iff_not,
      not_lt]
    intro _
    exact hle
  · simp [hg]

theorem pot_off_step (r r' : mon_enchant) (delta : Int) (hdelta : 1 ≤ delta)
    (h : r.after_tick delta false = some r') :
    max 1 r'.duration.toNat + 1 ≤ max 1 r.duration.toNat := by
  have hlt := after_tick_some_lt h
  unfold mon_enchant.after_tick at h
  have hnd : r.degree_decays false = false := by simp [mon_enchant.degree_decays]
  rw [if_neg (not_le.mpr hlt), hnd] at h
  simp only [Bool.false_eq_true, if_false, Option.some.injEq] at h
  subst h
  show max 1 (r.duration - delta).toNat + 1 ≤ max 1 r.duration.toNat
  omega

theorem pot_two_step (decay_degree : Bool) (r r' : mon_enchant) (delta : Int) (hdelta : 2 ≤ delta)
    (h : r.after_tick delta decay_degree = some r') :
    (if r'.degree_decays decay_degree = true then max 1 r'.duration.toNat
      else max 1 (r'.duration.toNat - 1)) + 1
      ≤ (if r.degree_decays decay_degree = true then max 1 r.duration.toNat
          else max 1 (r.duration.toNat - 1)) := by
  have hlt := after_tick_some_lt h
  unfold mon_enchant.after_tick at h
  rw [if_neg (not_le.mpr hlt)] at h
  by_cases hs : r.degree_decays decay_degree = true
  · rw [if_pos hs] at h
    simp only [Option.some.injEq] at h
    subst h
    rw [if_pos hs, degree_decays_rebased _ decay_degree (by show 0 ≤ r.duration; omega) rfl]
    simp only [Bool.false_eq_true, if_false]
    show max 1 (r.duration.toNat - 1) + 1 ≤ max 1 r.duration.toNat
    omega
  · rw [if_neg hs] at h
    simp only [Option.some.injEq] at h
    subst h
    rw [if_neg hs]
    have hb : (if mon_enchant.degree_decays { r with duration := r.duration - delta } decay_degree
          = true then max 1 (r.duration - delta).toNat
        else max 1 ((r.duration - delta).toNat - 1)) ≤ max 1 (r.duration - delta).toNat := by
      split_ifs <;> omega
    have hc : max 1 (r.duration - delta).toNat + 1 ≤ max 1 (r.duration.toNat - 1) := by omega
    exact le_trans (Nat.add_le_add_right hb 1) hc

theorem pot_gen_step (decay_degree : Bool) (r r' : mon_enchant) (delta : Int) (hdelta : 1 ≤ delta)
    (h : r.after_tick delta decay_degree = some r') :
    (if r'.degree_decays decay_degree = true then max 1 (2 * r'.duration.toNat - 1)
      else max 1 (2 * r'.duration.toNat - 2)) + 1
      ≤ (if r.degree_decays decay_degree = true then max 1 (2 * r.duration.toNat - 1)
          else max 1 (2 * r.duration.toNat - 2)) := by
  have hlt := after_tick_some_lt h
  unfold mon_enchant.after_tick at h
  rw [if_neg (not_le.mpr hlt)] at h
  by_cases hs : r.degree_decays decay_degree = true
  · rw [if_pos hs] at h
    simp only [Option.some.injEq] at h
    subst h
    rw [if_pos hs, degree_decays_rebased _ decay_degree (by show 0 ≤ r.duration; omega) rfl]
    simp only [Bool.false_eq_true, if_false]
    show max 1 (2 * r.duration.toNat - 2) + 1 ≤ max 1 (2 * r.duration.toNat - 1)
    omega
  · rw [if_neg hs] at h
    simp only [Option.some.injEq] at h
    subst h
    rw [if_neg hs]
    have hb : (if mon_enchant.degree_decays { r with duration := r.duration - delta } decay_degree
          = true then max 1 (2 * (r.duration - delta).toNat - 1)
        else max 1 (2 * (r.duration - delta).toNat - 2))
        ≤ max 1 (2 * (r.duration - delta).toNat - 1) := by
      split_ifs <;> omega
    have hc : max 1 (2 * (r.duration - delta).toNat - 1) + 1
        ≤ max 1 (2 * r.duration.toNat - 2) := by omega
    exact le_trans (Nat.add_le_add_right hb 1) hc

/-- How many calls remove a record.  A kind other than `ENCH_SUBMERGED`,
`ENCH_ABJ` and `ENCH_FAKE_ABJURATION` is present with a finite duration `D ≥ 1`,
any degree and any `maxduration`; collaborators leave the table alone and every
call takes at least one time unit off.  Then `D` calls of `decay_enchantment`
remove the kind when degree decay is off or every call takes at least two time
units off, and `2 * D - 1` calls do in the model as it stands, in which a call
that lowers the degree writes the old duration back. -/
theorem decay_removes_within (env : Env) (m : monster) (k : enchant_type) (r : mon_enchant)
    (decay_degree : Bool) (hP : env.passive) (hm : m.consistent)
    (hk1 : k ≠ ENCH_SUBMERGED) (hk2 : k ≠ ENCH_ABJ) (hk3 : k ≠ ENCH_FAKE_ABJURATION)
    (hl : m.enchantments k = some r) (hD : 1 ≤ r.duration)
    (hfin : r.duration < env.INFINITE_DURATION) (hdelta : ∀ s, 1 ≤ env.speed_to_duration s) :
    (monster.decay_ticks env k decay_degree (2 * r.duration.toNat - 1) m).has_ench k = false
      ∧ ((decay_degree = false ∨ ∀ s, 2 ≤ env.speed_to_duration s) →
          (monster.decay_ticks env k decay_degree r.duration.toNat m).has_ench k = false) := by
  constructor
  · refine decay_ticks_removes env hP k hk1 hk2 hk3 decay_degree 1 hdelta (le_refl 1)
      (fun r => if r.degree_decays decay_degree = true then max 1 (2 * r.duration.toNat - 1)
        else max 1 (2 * r.duration.toNat - 2)) ?_ ?_ _ m r hm hl hfin ?_
    · intro r0
      dsimp only
      split_ifs <;> omega
    · intro r0 r1 delta hd h
      exact pot_gen_step decay_degree r0 r1 delta hd h
    · dsimp only
      split_ifs <;> omega
  · rintro (hoff | htwo)
    · subst hoff
      refine decay_ticks_removes env hP k hk1 hk2 hk3 false 1 hdelta (le_refl 1)
        (fun r => max 1 r.duration.toNat) ?_ ?_ _ m r hm hl hfin ?_
      · intro r0
        dsimp only
        omega
      · intro r0 r1 delta hd h
        exact pot_off_step r0 r1 delta hd h
      · dsimp only
        omega
    · refine decay_ticks_removes env hP k hk1 hk2 hk3 decay_degree 2 htwo (by decide)
        (fun r => if r.degree_decays decay_degree = true then max 1 r.duration.toNat
          else max 1 (r.duration.toNat - 1)) ?_ ?_ _ m r hm hl hfin ?_
      · intro r0
        dsimp only
        split_ifs <;> omega
      · intro r0 r1 delta hd h
        exact pot_two_step decay_degree r0 r1 delta hd h
      · dsimp only
        split_ifs <;> omega

theorem decay_removes_within_witness :
    still.passive ∧ envenomed.consistent
      ∧ envenomed.enchantments ENCH_POISON = some (mon_enchant.make ENCH_POISON 2 none 100)
      ∧ (monster.decay_ticks still ENCH_POISON true 100 envenomed).has_ench ENCH_POISON = false :=
  ⟨still_passive, envenomed_consistent, holding_lookup blank _,
   (decay_removes_within still envenomed ENCH_POISON (mon_enchant.make ENCH_POISON 2 none 100)
      true still_passive envenomed_consistent (by decide) (by decide) (by decide)
      (holding_lookup blank _) (by decide) (by decide)
      (fun _ => show (1 : Int) ≤ 10 by decide)).2
      (Or.inr (fun _ => show (2 : Int) ≤ 10 by decide))⟩

theorem netted_consistent : netted.consistent :=
  holding_consistent (consistent_of_eq blank_consistent rfl rfl) _ (by decide)

/-- C12: a speed-100 monster is held in a net of degree 2 and finite duration
`D = 2`, and `decay_enchantment(ENCH_HELD, true)` is called once per tick under
`paced`, where a call takes one time unit off.  The first call lowers the degree
and writes the duration 2 back, the copy of the record it works on having been
taken before the duration step, so after `D = 2` calls the net is still in the
table, with duration 1. -/
theorem decay_outlasts_duration :
    netted.enchantments ENCH_HELD
        = some { ench := ENCH_HELD, degree := 2, duration := 2, maxduration := 100 }
      ∧ ENCH_HELD ≠ ENCH_SUBMERGED
      ∧ (2 : Int) < paced.INFINITE_DURATION
      ∧ (monster.decay_ticks paced ENCH_HELD true 2 netted).enchantments ENCH_HELD
          = some { ench := ENCH_HELD, degree := 1, duration := 1, maxduration := 2 }
      ∧ (monster.decay_ticks paced ENCH_HELD true 2 netted).has_ench ENCH_HELD = true := by
  have hl : netted.enchantments ENCH_HELD
      = some { ench := ENCH_HELD, degree := 2, duration := 2, maxduration := 100 } :=
    holding_lookup _ { ench := ENCH_HELD, degree := 2, duration := 2, maxduration := 100 }
  have h := (decay_ticks_after_ticks paced ENCH_HELD true 2 netted
    { ench := ENCH_HELD, degree := 2, duration := 2, maxduration := 100 }
    { ench := ENCH_HELD, degree := 1, duration := 1, maxduration := 2 }
    netted_consistent hl (by decide) (by decide) (by decide)).1
  refine ⟨hl, by decide, by decide, ?_, ?_⟩
  · rw [h]
    exact storing_lookup netted { ench := ENCH_HELD, degree := 1, duration := 1, maxduration := 2 }
  · rw [h]
    rfl

/-! ## Degree decay -/

theorem after_ticks_add (delta : Int) (decay_degree : Bool) (a b : Nat) :
    ∀ (r r1 : mon_enchant), mon_enchant.after_ticks delta decay_degree a r = some r1 →
      mon_enchant.after_ticks delta decay_degree (a + b) r
        = mon_enchant.after_ticks delta decay_degree b r1 := by
  induction a with
  | zero =>
    intro r r1 h
    cases h
    rw [Nat.zero_add]
  | succ a ih =>
    intro r r1 h
    rw [mon_enchant.after_ticks] at h
    rw [Nat.succ_add, mon_enchant.after_ticks]
    cases h1 : r.after_tick delta decay_degree with
    | none =>
      rw [h1] at h
      cases h
    | some r2 =>
      rw [h1] at h
      exact ih r2 r1 h

theorem decay_ticks_add (env : Env) (k : enchant_type) (decay_degree : Bool) (a b : Nat) :
    ∀ m : monster, monster.decay_ticks env k decay_degree (a + b) m
      = monster.decay_ticks env k decay_degree b (monster.decay_ticks env k decay_degree a m) := by
  induction a with
  | zero =>
    intro m
    rw [Nat.zero_add]
    rfl
  | succ a ih =>
    intro m
    rw [Nat.succ_add, monster.decay_ticks, monster.decay_ticks]
    exact ih _

/-- One stage of degree decay: from a record of degree above 1 whose duration is
within one delta of the threshold `thr` of its degree or above it, the calls
take the duration down to the first value below `thr` and then lower the
degree, setting `maxduration` to that value. -/
theorem degree_stage (delta : Int) (hdelta : 1 ≤ delta) (thr : Int) (h2 : 2 * delta < thr)
    (t : Nat) :
    ∀ r : mon_enchant, 1 < r.degree →
      thr = Int.tdiv (r.maxduration * (Int.tdiv (r.degree * (r.degree + 1)) 2 - 1))
        (Int.tdiv (r.degree * (r.degree + 1)) 2) →
      thr - delta ≤ r.duration → (r.duration - thr + delta).toNat ≤ t →
      ∃ (n : Nat) (r' : mon_enchant), mon_enchant.after_ticks delta true n r = some r'
        ∧ r'.degree = r.degree - 1 ∧ r'.maxduration = r'.duration
        ∧ thr - delta ≤ r'.duration ∧ r'.duration ≤ r.duration := by
  induction t with
  | zero =>
    intro r hg hthr hlow ht
    have hlt : r.duration < thr := by omega
    have hs : r.degree_decays true = true := by
      unfold mon_enchant.degree_decays
      rw [← hthr]
      simp only [Bool.true_and, Bool.and_eq_true, decide_eq_true_eq]
      exact ⟨hg, hlt⟩
    refine ⟨1, { r with degree := r.degree - 1, maxduration := r.duration }, ?_, rfl, rfl,
      hlow, le_refl _⟩
    rw [mon_enchant.after_ticks, mon_enchant.after_tick, if_neg (by omega), if_pos hs]
    rfl
  | succ t ih =>
    intro r hg hthr hlow ht
    by_cases hlt : r.duration < thr
    · have hs : r.degree_decays true = true := by
        unfold mon_enchant.degree_decays
        rw [← hthr]
        simp only [Bool.true_and, Bool.and_eq_true, decide_eq_true_eq]
        exact ⟨hg, hlt⟩
      refine ⟨1, { r with degree := r.degree - 1, maxduration := r.duration }, ?_, rfl, rfl,
        hlow, le_refl _⟩
      rw [mon_enchant.after_ticks, mon_enchant.after_tick, if_neg (by omega), if_pos hs]
      rfl
    · have hs : ¬ r.degree_decays true = true := by
        unfold mon_enchant.degree_decays
        rw [← hthr]
        simp only [Bool.true_and, Bool.and_eq_true, decide_eq_true_eq, not_and]
        intro _
        exact hlt
      obtain ⟨n, r', hn, h3, h4, h5, h6⟩ := ih { r with duration := r.duration - delta } hg hthr
        (by show thr - delta ≤ r.duration - delta; omega)
        (by show (r.duration - delta - thr + delta).toNat ≤ t; omega)
      refine ⟨n + 1, r', ?_, h3, h4, h5, le_trans h6 (by show r.duration - delta ≤ r.duration; omega)⟩
      rw [mon_enchant.after_ticks, mon_enchant.after_tick, if_neg (by omega), if_neg hs]
      exact hn

/-- A degree-4 record whose `maxduration` equals its duration `D`, with
`7 * delta + 4 ≤ D`: some number of calls leaves a record of degree 1. -/
theorem after_ticks_reach_one (delta : Int) (hdelta : 1 ≤ delta) (r : mon_enchant)
    (hdeg : r.degree = 4) (hmax : r.maxduration = r.duration)
    (hD : 7 * delta + 4 ≤ r.duration) :
    ∃ (n : Nat) (r' : mon_enchant), mon_enchant.after_ticks delta true n r = some r'
      ∧ r'.degree = 1 := by
  have e4 : Int.tdiv (r.maxduration * (Int.tdiv (r.degree * (r.degree + 1)) 2 - 1))
      (Int.tdiv (r.degree * (r.degree + 1)) 2) = r.duration * 9 / 10 := by
    rw [hdeg, hmax]
    have : Int.tdiv ((4 : Int) * (4 + 1)) 2 = 10 := by decide
    rw [this]
    exact Int.tdiv_eq_ediv (by omega) (by decide)
  obtain ⟨n1, r1, hn1, hg1, hx1, hlo1, _⟩ := degree_stage delta hdelta (r.duration * 9 / 10)
    (by omega) _ r (by omega) e4.symm (by omega) (le_refl _)
  have e3 : Int.tdiv (r1.maxduration * (Int.tdiv (r1.degree * (r1.degree + 1)) 2 - 1))
      (Int.tdiv (r1.degree * (r1.degree + 1)) 2) = r1.duration * 5 / 6 := by
    rw [hg1, hdeg, hx1]
    have : Int.tdiv (((4 : Int) - 1) * (4 - 1 + 1)) 2 = 6 := by decide
    rw [this]
    exact Int.tdiv_eq_ediv (by omega) (by decide)
  obtain ⟨n2, r2, hn2, hg2, hx2, hlo2, _⟩ := degree_stage delta hdelta (r1.duration * 5 / 6)
    (by omega) _ r1 (by omega) e3.symm (by omega) (le_refl _)
  have e2 : Int.tdiv (r2.maxduration * (Int.tdiv (r2.degree * (r2.degree + 1)) 2 - 1))
      (Int.tdiv (r2.degree * (r2.degree + 1)) 2) = r2.duration * 2 / 3 := by
    rw [hg2, hg1, hdeg, hx2]
    have : Int.tdiv (((4 : Int) - 1 - 1) * (4 - 1 - 1 + 1)) 2 = 3 := by decide
    rw [this]
    exact Int.tdiv_eq_ediv (by omega) (by decide)
  obtain ⟨n3, r3, hn3, hg3, _, _, _⟩ := degree_stage delta hdelta (r2.duration * 2 / 3)
    (by omega) _ r2 (by omega) e2.symm (by omega) (le_refl _)
  refine ⟨n1 + n2 + n3, r3, ?_, by omega⟩
  rw [after_ticks_add delta true (n1 + n2) n3 r r2
    (by rw [after_ticks_add delta true n1 n2 r r1 hn1]; exact hn2)]
  exact hn3

theorem present_before (env : Env) (k : enchant_type) (decay_degree : Bool) (m : monster)
    (n j : Nat) (hj : j ≤ n)
    (hn : (monster.decay_ticks env k decay_degree n m).has_ench k = true) :
    (monster.decay_ticks env k decay_degree j m).has_ench k = true := by
  by_contra hc
  have hf : (monster.decay_ticks env k decay_degree j m).has_ench k = false := by
    simpa using hc
  have hsplit : n = j + (n - j) := by omega
  rw [hsplit, decay_ticks_add, decay_ticks_absent env k decay_degree (n - j) _ hf, hf] at hn
  cases hn

theorem reaches_degree_one (env : Env) (m : monster) (k : enchant_type) (r : mon_enchant)
    (hm : m.consistent) (hl : m.enchantments k = some r) (hdeg : r.degree = 4)
    (hmax : r.maxduration = r.duration) (hfin : r.duration < env.INFINITE_DURATION)
    (hdelta : 1 ≤ env.speed_to_duration (if k = ENCH_HELD then m.speed else 10))
    (hD : 7 * env.speed_to_duration (if k = ENCH_HELD then m.speed else 10) + 4 ≤ r.duration) :
    ∃ (n : Nat) (r' : mon_enchant),
      (monster.decay_ticks env k true n m).enchantments k = some r' ∧ r'.degree = 1
        ∧ ∀ j : Nat, j ≤ n → (monster.decay_ticks env k true j m).has_ench k = true := by
  obtain ⟨n, r', hn, hone⟩ := after_ticks_reach_one _ hdelta r hdeg hmax hD
  obtain ⟨hst, hk⟩ := decay_ticks_after_ticks env k true n m r r' hm hl hfin (by omega) hn
  have hlook : (monster.decay_ticks env k true n m).enchantments k = some r' := by
    rw [hst, ← hk]
    exact storing_lookup m r'
  have hcache : (monster.decay_ticks env k true n m).has_ench k = true := by
    rw [hst]
    show m.ench_cache k = true
    rw [hm.1 k, hl]
    rfl
  exact ⟨n, r', hlook, hone, fun j hj => present_before env k true m n j hj hcache⟩

/-- C13, amended: a degree-4 record of any kind is stored with a finite duration
`D` and `maxduration = D`, the per-call delta is at least 1, and `D` is at least
seven deltas and four.  Then under repeated `decay_enchantment(kind, true)` there
is a tick after which the stored record has degree 1, the kind being present at
that tick and at every tick before: the degree reaches 1 strictly before the
record is removed. -/
theorem degree_reaches_one (env : Env) (m : monster) (k : enchant_type) (r : mon_enchant)
    (hm : m.consistent) (hl : m.enchantments k = some r) (hdeg : r.degree = 4)
    (hmax : r.maxduration = r.duration) (hfin : r.duration < env.INFINITE_DURATION)
    (hdelta : 1 ≤ env.speed_to_duration (if k = ENCH_HELD then m.speed else 10))
    (hD : 7 * env.speed_to_duration (if k = ENCH_HELD then m.speed else 10) + 4 ≤ r.duration) :
    ∃ (n : Nat) (r' : mon_enchant),
      (monster.decay_ticks env k true n m).enchantments k = some r' ∧ r'.degree = 1
        ∧ ∀ j : Nat, j ≤ n → (monster.decay_ticks env k true j m).has_ench k = true :=
  reaches_degree_one env m k r hm hl hdeg hmax hfin hdelta hD

theorem degree_reaches_one_witness :
    (blank.holding { ench := ENCH_POISON, degree := 4, duration := 320, maxduration := 320 }).consistent
      ∧ ∃ (n : Nat) (r' : mon_enchant),
          (monster.decay_ticks still ENCH_POISON true n
            (blank.holding { ench := ENCH_POISON, degree := 4, duration := 320, maxduration := 320 })
            ).enchantments ENCH_POISON = some r' ∧ r'.degree = 1
          ∧ ∀ j : Nat, j ≤ n → (monster.decay_ticks still ENCH_POISON true j
            (blank.holding { ench := ENCH_POISON, degree := 4, duration := 320, maxduration := 320 })
            ).has_ench ENCH_POISON = true :=
  ⟨holding_consistent blank_consistent _ (by decide),
   degree_reaches_one still _ ENCH_POISON
     { ench := ENCH_POISON, degree := 4, duration := 320, maxduration := 320 }
     (holding_consistent blank_consistent _ (by decide))
     (holding_lookup blank { ench := ENCH_POISON, degree := 4, duration := 320, maxduration := 320 })
     rfl rfl (by decide) (by decide) (by decide)⟩

/-- A degree-4 poison of duration 15 and `maxduration` 15, ticked under `still`
(10 time units a call): after the first call the degree is still 4, and the
second call removes the record, so the degree is never 1. -/
theorem short_poison_keeps_degree :
    (blank.holding { ench := ENCH_POISON, degree := 4, duration := 15, maxduration := 15 }
          ).enchantments ENCH_POISON
        = some { ench := ENCH_POISON, degree := 4, duration := 15, maxduration := 15 }
      ∧ (15 : Int) < still.INFINITE_DURATION
      ∧ (monster.decay_ticks still ENCH_POISON true 1
          (blank.holding { ench := ENCH_POISON, degree := 4, duration := 15, maxduration := 15 })
          ).enchantments ENCH_POISON
        = some { ench := ENCH_POISON, degree := 4, duration := 5, maxduration := 15 }
      ∧ (monster.decay_ticks still ENCH_POISON true 2
          (blank.holding { ench := ENCH_POISON, degree := 4, duration := 15, maxduration := 15 })
          ).has_ench ENCH_POISON = false := by
  have hc : (blank.holding
      { ench := ENCH_POISON, degree := 4, duration := 15, maxduration := 15 }).consistent :=
    holding_consistent blank_consistent _ (by decide)
  have hl := holding_lookup blank
    { ench := ENCH_POISON, degree := 4, duration := 15, maxduration := 15 }
  have h1 := (decay_ticks_after_ticks still ENCH_POISON true 1 _
    { ench := ENCH_POISON, degree := 4, duration := 15, maxduration := 15 }
    { ench := ENCH_POISON, degree := 4, duration := 5, maxduration := 15 }
    hc hl (by decide) (by decide) (by decide)).1
  have hl1 : (monster.decay_ticks still ENCH_POISON true 1
      (blank.holding { ench := ENCH_POISON, degree := 4, duration := 15, maxduration := 15 })
      ).enchantments ENCH_POISON
      = some { ench := ENCH_POISON, degree := 4, duration := 5, maxduration := 15 } := by
    rw [h1]
    exact storing_lookup _ { ench := ENCH_POISON, degree := 4, duration := 5, maxduration := 15 }
  have hc1 : (monster.decay_ticks still ENCH_POISON true 1
      (blank.holding { ench := ENCH_POISON, degree := 4, duration := 15, maxduration := 15 })
      ).consistent := by
    rw [h1]
    exact storing_consistent hc hl rfl
  refine ⟨hl, by decide, hl1, ?_⟩
  rw [decay_ticks_add still ENCH_POISON true 1 1]
  obtain ⟨he, hdel⟩ := decay_enchantment_expires still _ ENCH_POISON true _ hc1 hl1
    (by decide) (by decide) (by decide) (by decide)
  have hout := (del_ench_outcome still _ ENCH_POISON false true still_passive hc1 hdel).1
    (Or.inr (Or.inl ⟨by decide, by decide⟩))
  show (monster.decay_ticks still ENCH_POISON true 0 (monster.decay_enchantment still
    (monster.decay_ticks still ENCH_POISON true 1 _) ENCH_POISON true).2).has_ench ENCH_POISON
      = false
  rw [he]
  exact hout.2

theorem pass_of_nonempty (env : Env) (m : monster) (k : Nat) (hk : k < NUM_ENCHANTMENTS)
    (r : mon_enchant) (hl : m.enchantments k = some r) :
    m.apply_enchantments env
      = monster.apply_enchantments_upto (monster.apply_enchantment env) m.ench_cache m
          NUM_ENCHANTMENTS := by
  unfold monster.apply_enchantments
  have he : ¬ m.enchantments_empty = true := by
    intro he
    have := (enchantments_empty_iff m).mp he k hk
    rw [hl] at this
    cases this
  rw [if_neg he]

theorem pass_of_empty (env : Env) (m : monster) (h : ∀ k, m.enchantments k = none) :
    m.apply_enchantments env = some (m, []) := by
  unfold monster.apply_enchantments
  rw [if_pos ((enchantments_empty_iff m).mpr (fun k _ => h k))]

theorem pairwise_lt_nodup (l : List Nat) (h : l.Pairwise (fun a b : Nat => a < b)) : l.Nodup :=
  List.Pairwise.imp (fun hab => Nat.ne_of_lt hab) h

theorem pairwise_lt_sublist (l : List Nat) (h : l.Pairwise (fun a b : Nat => a < b))
    (a b : Nat) (ha : a ∈ l) (hb : b ∈ l) (hab : a < b) : [a, b].Sublist l := by
  induction l with
  | nil => cases ha
  | cons c t ih =>
    rw [List.pairwise_cons] at h
    rcases List.mem_cons.mp ha with hac | hat
    · rcases List.mem_cons.mp hb with hbc | hbt
      · omega
      · rw [hac]
        exact List.Sublist.cons₂ c (List.singleton_sublist.mpr hbt)
    · rcases List.mem_cons.mp hb with hbc | hbt
      · have := h.1 a hat
        omega
      · exact List.Sublist.cons c (ih h.2 hat hbt)

/-- C14: one pass of `apply_enchantments` over a consistent table, with
collaborators that keep it consistent, ends, and the tick hook is invoked for
kind `k` exactly when the bit of `k` was set in the presence cache at the start
and the table holds `k` when the loop reaches `k`.  So a kind that was absent at
the start is not dispatched whatever the hooks add, a kind that is gone when the
loop reaches it is skipped, no kind is dispatched twice, and an empty table
dispatches nothing. -/
theorem apply_enchantments_dispatch (env : Env) (m : monster)
    (hE : env.keeps monster.consistent) (hm : m.consistent) :
    ∃ (m' : monster) (ran : List enchant_type),
      m.apply_enchantments env = some (m', ran)
        ∧ (∀ k : Nat, k ∈ ran ↔ (k < NUM_ENCHANTMENTS ∧ m.has_ench k = true
            ∧ ∃ (mk : monster) (rk : List enchant_type),
              monster.apply_enchantments_upto (monster.apply_enchantment env) m.ench_cache m k
                = some (mk, rk)
              ∧ (mk.enchantments k).isSome = true))
        ∧ (∀ k : Nat, m.has_ench k = false → k ∉ ran)
        ∧ (∀ (k : Nat) (mk : monster) (rk : List enchant_type),
            monster.apply_enchantments_upto (monster.apply_enchantment env) m.ench_cache m k
              = some (mk, rk) → mk.enchantments k = none → k ∉ ran)
        ∧ ran.Nodup
        ∧ ((∀ k, m.enchantments k = none) → ran = []) := by
  obtain ⟨m', ran, hp, _, hsorted, hiff⟩ := apply_enchantments_spec env m hE hm
  refine ⟨m', ran, hp, hiff, ?_, ?_, pairwise_lt_nodup ran hsorted, ?_⟩
  · intro k hk hmem
    have := ((hiff k).mp hmem).2.1
    rw [hk] at this
    cases this
  · intro k mk rk hup hnone hmem
    obtain ⟨_, _, mk2, rk2, hup2, hsome⟩ := (hiff k).mp hmem
    rw [hup] at hup2
    cases hup2
    rw [hnone] at hsome
    cases hsome
  · intro hempty
    rw [pass_of_empty env m hempty] at hp
    cases hp
    rfl

theorem raging_consistent : raging.consistent :=
  holding_consistent (holding_consistent blank_consistent _ (by decide)) _ (by decide)

theorem apply_enchantments_dispatch_witness :
    still.keeps monster.consistent ∧ raging.consistent
      ∧ ∃ (m' : monster) (ran : List enchant_type),
          raging.apply_enchantments still = some (m', ran)
            ∧ (∀ k : Nat, raging.has_ench k = false → k ∉ ran) ∧ ran.Nodup := by
  obtain ⟨m', ran, hp, _, h3, _, h5, _⟩ :=
    apply_enchantments_dispatch still raging (passive_keeps_consistent still_passive)
      raging_consistent
  exact ⟨passive_keeps_consistent still_passive, raging_consistent, m', ran, hp, h3, h5⟩

/-- C15: in one pass of `apply_enchantments` (consistent table, collaborators
that keep it consistent) the kinds whose tick hook is invoked are invoked in
strictly increasing order of their ordinal; so when the hook of `ENCH_BERSERK`
and that of `ENCH_HASTE`, `ENCH_MIGHT`, `ENCH_FATIGUE` or `ENCH_SLOW` are both
invoked, the berserk hook comes first. -/
theorem apply_enchantments_order (env : Env) (m : monster)
    (hE : env.keeps monster.consistent) (hm : m.consistent) :
    ∃ (m' : monster) (ran : List enchant_type),
      m.apply_enchantments env = some (m', ran)
        ∧ ran.Pairwise (fun a b : Nat => a < b)
        ∧ ∀ x : enchant_type,
            x = ENCH_HASTE ∨ x = ENCH_MIGHT ∨ x = ENCH_FATIGUE ∨ x = ENCH_SLOW →
            ENCH_BERSERK ∈ ran → x ∈ ran → [ENCH_BERSERK, x].Sublist ran := by
  obtain ⟨m', ran, hp, _, hsorted, _⟩ := apply_enchantments_spec env m hE hm
  refine ⟨m', ran, hp, hsorted, ?_⟩
  intro x hx hb hxm
  have hlt : ENCH_BERSERK < x := by
    rcases hx with h | h | h | h <;> rw [h] <;> decide
  exact pairwise_lt_sublist ran hsorted ENCH_BERSERK x hb hxm hlt

theorem apply_enchantments_order_witness :
    still.keeps monster.consistent ∧ raging.consistent
      ∧ ∃ (m' : monster) (ran : List enchant_type),
          raging.apply_enchantments still = some (m', ran)
            ∧ ran.Pairwise (fun a b : Nat => a < b)
            ∧ (ENCH_BERSERK ∈ ran → ENCH_HASTE ∈ ran → [ENCH_BERSERK, ENCH_HASTE].Sublist ran) := by
  obtain ⟨m', ran, hp, h2, h3⟩ :=
    apply_enchantments_order still raging (passive_keeps_consistent still_passive)
      raging_consistent
  exact ⟨passive_keeps_consistent still_passive, raging_consistent, m', ran, hp, h2,
    h3 ENCH_HASTE (Or.inl rfl)⟩

/-! ## A hook that removes another kind -/

/-- Once kind `b` is out of the table at index `a` of the loop, it stays out up
to index `b` when no hook invoked on the way stores it again. -/
theorem upto_stays_absent (tick : monster → mon_enchant → monster) (ec : enchant_type → Bool)
    (hT : ∀ (m : monster) (me : mon_enchant), m.consistent → (tick m me).consistent)
    (m : monster) (hm : m.consistent) (a b : Nat)
    (hbetween : ∀ (c : Nat) (mc : monster) (rc : List enchant_type) (me : mon_enchant),
      a ≤ c → c < b → monster.apply_enchantments_upto tick ec m c = some (mc, rc) →
      mc.enchantments b = none → mc.enchantments c = some me →
      (tick mc me).enchantments b = none)
    (ma : monster) (ra : List enchant_type)
    (hup : monster.apply_enchantments_upto tick ec m a = some (ma, ra))
    (hab : ma.enchantments b = none) (d : Nat) (hd : a + d ≤ b) :
    ∃ (mj : monster) (rj : List enchant_type),
      monster.apply_enchantments_upto tick ec m (a + d) = some (mj, rj)
        ∧ mj.enchantments b = none := by
  induction d with
  | zero => exact ⟨ma, ra, hup, hab⟩
  | succ d ih =>
    obtain ⟨mj, rj, hj, hnone⟩ := ih (by omega)
    obtain ⟨mj2, rj2, hj2, hcons, _⟩ := upto_spec tick ec hT m hm (a + d)
    rw [hj] at hj2
    cases hj2
    have hstep := upto_succ tick ec m (a + d) mj rj hj
    rw [← Nat.add_assoc]
    by_cases hc : (ec (a + d) && mj.has_ench (a + d)) = true
    · rw [if_pos hc] at hstep
      rw [Bool.and_eq_true] at hc
      have hsome : (mj.enchantments (a + d)).isSome = true := by
        rw [← hcons.1 (a + d)]
        exact hc.2
      obtain ⟨me, hme⟩ := Option.isSome_iff_exists.mp hsome
      rw [hme] at hstep
      exact ⟨tick mj me, rj ++ [a + d], hstep,
        hbetween (a + d) mj rj me (by omega) (by omega) hj hnone hme⟩
    · rw [if_neg hc] at hstep
      exact ⟨mj, rj, hstep, hnone⟩

theorem removed_later_kind_skipped (env : Env) (m : monster)
    (hE : env.keeps monster.consistent) (hm : m.consistent) (a b : Nat) (hab : a < b)
    (hb : b < NUM_ENCHANTMENTS) (ha0 : m.has_ench a = true)
    (ma : monster) (ra : List enchant_type) (reca : mon_enchant)
    (hup : monster.apply_enchantments_upto (monster.apply_enchantment env) m.ench_cache m a
      = some (ma, ra))
    (hrec : ma.enchantments a = some reca)
    (hrem : (ma.apply_enchantment env reca).enchantments b = none)
    (hbetween : ∀ (c : Nat) (mc : monster) (rc : List enchant_type) (me : mon_enchant),
      a < c → c < b →
      monster.apply_enchantments_upto (monster.apply_enchantment env) m.ench_cache m c
        = some (mc, rc) →
      mc.enchantments b = none → mc.enchantments c = some me →
      (mc.apply_enchantment env me).enchantments b = none) :
    ∃ (m' : monster) (ran : List enchant_type),
      m.apply_enchantments env = some (m', ran) ∧ b ∉ ran ∧ ran.count a = 1 := by
  have hT : ∀ (x : monster) (me : mon_enchant), x.consistent →
      (x.apply_enchantment env me).consistent :=
    fun x me hx => apply_enchantment_consistent hE hx me
  obtain ⟨m', ran, hp, _, hsorted, hiff⟩ := apply_enchantments_spec env m hE hm
  have hnext : monster.apply_enchantments_upto (monster.apply_enchantment env) m.ench_cache m
      (a + 1) = some (ma.apply_enchantment env reca, ra ++ [a]) := by
    have hstep := upto_succ (monster.apply_enchantment env) m.ench_cache m a ma ra hup
    obtain ⟨ma2, ra2, hup2, hcons, _⟩ :=
      upto_spec (monster.apply_enchantment env) m.ench_cache hT m hm a
    rw [hup] at hup2
    cases hup2
    have hc : (m.ench_cache a && ma.has_ench a) = true := by
      rw [Bool.and_eq_true]
      refine ⟨ha0, ?_⟩
      show ma.ench_cache a = true
      rw [hcons.1 a, hrec]
      rfl
    rw [if_pos hc, hrec] at hstep
    exact hstep
  obtain ⟨mb, rb, hupb, hnone⟩ := upto_stays_absent (monster.apply_enchantment env) m.ench_cache
    hT m hm (a + 1) b
    (fun c mc rc me h1 h2 h3 h4 h5 => hbetween c mc rc me (by omega) h2 h3 h4 h5)
    _ _ hnext hrem (b - (a + 1)) (by omega)
  have hidx : a + 1 + (b - (a + 1)) = b := by omega
  rw [hidx] at hupb
  refine ⟨m', ran, hp, ?_, ?_⟩
  · intro hmem
    obtain ⟨_, _, mk, rk, hk, hsome⟩ := (hiff b).mp hmem
    rw [hupb] at hk
    cases hk
    rw [hnone] at hsome
    cases hsome
  · have hmem : a ∈ ran :=
      (hiff a).mpr ⟨by omega, ha0, ma, ra, hup, by rw [hrec]; rfl⟩
    exact List.count_eq_one_of_mem (pairwise_lt_nodup ran hsorted) hmem

theorem hook_fatigue (env : Env) (m : monster) (me : mon_enchant) (h : me.ench = ENCH_FATIGUE) :
    m.apply_enchantment env me
      = if (m.decay_enchantment env ENCH_FATIGUE env.decay_degree_default).1 = true then
          ((m.decay_enchantment env ENCH_FATIGUE env.decay_degree_default).2.del_ench env
            ENCH_SLOW true true).2
        else (m.decay_enchantment env ENCH_FATIGUE env.decay_degree_default).2 := by
  unfold monster.apply_enchantment
  simp only [h, ENCH_FATIGUE, ENCH_INSANE, ENCH_BERSERK, ENCH_SLOW, Nat.reduceEqDiff, or_self,
    ↓reduceIte]

theorem hook_petrifying (env : Env) (m : monster) (me : mon_enchant)
    (h : me.ench = ENCH_PETRIFYING ∨ me.ench = ENCH_PETRIFIED) :
    m.apply_enchantment env me
      = (m.decay_enchantment env me.ench env.decay_degree_default).2 := by
  unfold monster.apply_enchantment
  rcases h with h | h <;>
  simp only [h, ENCH_FATIGUE, ENCH_INSANE, ENCH_BERSERK, ENCH_SLOW, ENCH_WITHDRAWN, ENCH_HASTE,
    ENCH_SWIFT, ENCH_MIGHT, ENCH_FEAR, ENCH_PARALYSIS, ENCH_PETRIFYING, ENCH_PETRIFIED,
    Nat.reduceEqDiff, or_self, or_true, true_or, or_false, false_or, ↓reduceIte]

theorem tired_consistent : tired.consistent :=
  holding_consistent (holding_consistent blank_consistent _ (by decide)) _ (by decide)

theorem statue_consistent : statue.consistent :=
  holding_consistent (holding_consistent blank_consistent _ (by decide)) _ (by decide)

theorem holding_lookup_below (m : monster) (r s : mon_enchant) (h : r.ench ≠ s.ench) :
    ((m.holding r).holding s).enchantments r.ench = some r := by
  simp [monster.holding, h]

/-- Under `still`, the fatigue hook of `tired` removes the slowness. -/
theorem tired_hook_removes_slow :
    (tired.apply_enchantment still (mon_enchant.make ENCH_FATIGUE 1 none 5)).enchantments
      ENCH_SLOW = none := by
  have hl : tired.enchantments ENCH_FATIGUE = some (mon_enchant.make ENCH_FATIGUE 1 none 5) :=
    holding_lookup_below blank (mon_enchant.make ENCH_FATIGUE 1 none 5)
      (mon_enchant.make ENCH_SLOW 1 none 100) (by decide)
  have hs : tired.enchantments ENCH_SLOW = some (mon_enchant.make ENCH_SLOW 1 none 100) :=
    holding_lookup _ (mon_enchant.make ENCH_SLOW 1 none 100)
  obtain ⟨he, hdel⟩ := decay_enchantment_expires still tired ENCH_FATIGUE
    still.decay_degree_default _ tired_consistent hl (by decide) (by decide) (by decide)
    (by decide)
  rw [hook_fatigue still tired _ rfl, he]
  simp only [↓reduceIte]
  have hc1 : (tired.del_ench still ENCH_FATIGUE false true).2.consistent :=
    del_ench_consistent (passive_keeps_consistent still_passive) tired_consistent _ _ _
  have hframe : same_at ENCH_SLOW tired (tired.del_ench still ENCH_FATIGUE false true).2 :=
    same_at_del_ench_plain still_passive tired_consistent false true (by decide) (by decide)
      (by decide) (by decide) (Or.inl (by decide))
  have hs1 : (tired.del_ench still ENCH_FATIGUE false true).2.enchantments ENCH_SLOW
      = some (mon_enchant.make ENCH_SLOW 1 none 100) := hframe.1.trans hs
  have hgo := del_ench_goes_through still _ ENCH_SLOW true true _ hs1 (by decide)
  exact ((del_ench_outcome still _ ENCH_SLOW true true still_passive hc1 hgo).1
    (Or.inr (Or.inl ⟨by decide, by decide⟩))).1

/-- C16, amended: kinds `a` and `b` are active at the start of a pass (consistent
table, collaborators that keep it consistent) and `a` comes before `b` in the
enumeration.  If `a` is in the table when the loop reaches it, its tick hook
leaves `b` out of the table, and no hook invoked between the two stores `b`
again, then the pass ends, does not invoke the hook of `b`, and invokes the hook
of `a` exactly once. -/
theorem later_kind_removed_is_skipped (env : Env) (m : monster)
    (hE : env.keeps monster.consistent) (hm : m.consistent) (a b : enchant_type) (hab : a < b)
    (hb : b < NUM_ENCHANTMENTS) (ha0 : m.has_ench a = true) (hb0 : m.has_ench b = true)
    (ma : monster) (ra : List enchant_type) (reca : mon_enchant)
    (hup : monster.apply_enchantments_upto (monster.apply_enchantment env) m.ench_cache m a
      = some (ma, ra))
    (hrec : ma.enchantments a = some reca)
    (hrem : (ma.apply_enchantment env reca).enchantments b = none)
    (hbetween : ∀ (c : Nat) (mc : monster) (rc : List enchant_type) (me : mon_enchant),
      a < c → c < b →
      monster.apply_enchantments_upto (monster.apply_enchantment env) m.ench_cache m c
        = some (mc, rc) →
      mc.enchantments b = none → mc.enchantments c = some me →
      (mc.apply_enchantment env me).enchantments b = none) :
    m.has_ench b = true
      ∧ ∃ (m' : monster) (ran : List enchant_type),
          m.apply_enchantments env = some (m', ran) ∧ b ∉ ran ∧ ran.count a = 1 :=
  ⟨hb0, removed_later_kind_skipped env m hE hm a b hab hb ha0 ma ra reca hup hrec hrem hbetween⟩

theorem later_kind_removed_is_skipped_witness :
    tired.has_ench ENCH_FATIGUE = true ∧ tired.has_ench ENCH_SLOW = true
      ∧ (tired.apply_enchantment still (mon_enchant.make ENCH_FATIGUE 1 none 5)).enchantments
          ENCH_SLOW = none
      ∧ ∃ (m' : monster) (ran : List enchant_type),
          tired.apply_enchantments still = some (m', ran) ∧ ENCH_SLOW ∉ ran
            ∧ ran.count ENCH_FATIGUE = 1 :=
  ⟨rfl, rfl, tired_hook_removes_slow,
   (later_kind_removed_is_skipped still tired (passive_keeps_consistent still_passive)
      tired_consistent ENCH_FATIGUE ENCH_SLOW (by decide) (by decide) rfl rfl tired []
      (mon_enchant.make ENCH_FATIGUE 1 none 5) rfl
      (holding_lookup_below blank (mon_enchant.make ENCH_FATIGUE 1 none 5)
        (mon_enchant.make ENCH_SLOW 1 none 100) (by decide))
      tired_hook_removes_slow
      (fun c _ _ _ h1 h2 => absurd h2 (by
        have : ¬ c < 5 := by
          have h3 : 4 < c := h1
          omega
        exact this))).2⟩

theorem remove_effect_petrified_removes {env : Env} (hP : env.passive) {m : monster}
    (hm : m.consistent) (me rb : mon_enchant) (quiet : Bool) (h1 : me.ench = ENCH_PETRIFIED)
    (hl : m.enchantments ENCH_PETRIFYING = some rb) :
    (monster.remove_enchantment_effect env m me quiet).enchantments ENCH_PETRIFYING = none := by
  have hkb : rb.ench = ENCH_PETRIFYING := hm.2.1 _ rb hl
  have hgo := del_ench_goes_through env m ENCH_PETRIFYING false true rb hl
    (by rw [hkb]; decide)
  have hout := ((del_ench_outcome env m ENCH_PETRIFYING false true hP hm hgo).1
    (Or.inr (Or.inl ⟨by decide, by decide⟩))).1
  rw [monster.remove_enchantment_effect]
  simp only [h1, ↓reduceDIte, ↓reduceIte, ENCH_PETRIFIED, ENCH_TIDE, ENCH_INSANE,
    ENCH_BERSERK, ENCH_HASTE, ENCH_SLOW, ENCH_PARALYSIS, Nat.reduceEqDiff]
  rw [(hP.1 _ _).1]
  exact hout

theorem del_ench_petrified_removes {env : Env} (hP : env.passive) {m : monster}
    (hm : m.consistent) (ra rb : mon_enchant) (quiet : Bool)
    (hla : m.enchantments ENCH_PETRIFIED = some ra)
    (hlb : m.enchantments ENCH_PETRIFYING = some rb) :
    (m.del_ench env ENCH_PETRIFIED quiet true).2.enchantments ENCH_PETRIFYING = none := by
  have hka : ra.ench = ENCH_PETRIFIED := hm.2.1 _ ra hla
  have hp : _prepare_del_ench env m ra = (true, m) := by
    simp [_prepare_del_ench, hka]
  rw [del_ench_eq, hla]
  simp only [hp, Bool.true_eq_false, if_false, if_true]
  refine remove_effect_petrified_removes hP (erase_consistent hm _) ra rb quiet hka ?_
  simp only [monster.erase]
  rw [Function.update_noteq (by decide)]
  exact hlb

/-- A monster holds `ENCH_PETRIFYING` (ordinal 28, duration 100) and
`ENCH_PETRIFIED` (ordinal 29, duration 5), both active at the start of the pass.
Under `still` the loop reaches the petrified kind with both in the table, and
its hook, timing out, removes the petrifying kind; yet the pass has invoked the
hook of the petrifying kind, which came first. -/
theorem earlier_kind_hook_already_ran :
    statue.has_ench ENCH_PETRIFYING = true ∧ statue.has_ench ENCH_PETRIFIED = true
      ∧ (∃ (ma : monster) (ra : List enchant_type),
          monster.apply_enchantments_upto (monster.apply_enchantment still) statue.ench_cache
              statue ENCH_PETRIFIED = some (ma, ra)
            ∧ ma.enchantments ENCH_PETRIFIED = some (mon_enchant.make ENCH_PETRIFIED 1 none 5)
            ∧ (ma.enchantments ENCH_PETRIFYING).isSome = true
            ∧ (ma.apply_enchantment still
                (mon_enchant.make ENCH_PETRIFIED 1 none 5)).enchantments ENCH_PETRIFYING = none)
      ∧ ∃ (m' : monster) (ran : List enchant_type),
          statue.apply_enchantments still = some (m', ran) ∧ ENCH_PETRIFYING ∈ ran := by
  have hlb : statue.enchantments ENCH_PETRIFYING
      = some (mon_enchant.make ENCH_PETRIFYING 1 none 100) :=
    holding_lookup_below blank (mon_enchant.make ENCH_PETRIFYING 1 none 100)
      (mon_enchant.make ENCH_PETRIFIED 1 none 5) (by decide)
  have hla : statue.enchantments ENCH_PETRIFIED = some (mon_enchant.make ENCH_PETRIFIED 1 none 5) :=
    holding_lookup _ (mon_enchant.make ENCH_PETRIFIED 1 none 5)
  have hup : monster.apply_enchantments_upto (monster.apply_enchantment still) statue.ench_cache
      statue ENCH_PETRIFYING = some (statue, []) := rfl
  have htick : statue.apply_enchantment still (mon_enchant.make ENCH_PETRIFYING 1 none 100)
      = statue.storing (mon_enchant.make ENCH_PETRIFYING 1 none 90) := by
    rw [hook_petrifying still statue _ (Or.inl rfl)]
    show (monster.decay_enchantment still statue ENCH_PETRIFYING still.decay_degree_default).2 = _
    rw [decay_enchantment_after_tick still statue ENCH_PETRIFYING still.decay_degree_default
      (mon_enchant.make ENCH_PETRIFYING 1 none 100) (mon_enchant.make ENCH_PETRIFYING 1 none 90)
      statue_consistent hlb (by decide) (by decide) (by decide)]
  have hnext : monster.apply_enchantments_upto (monster.apply_enchantment still)
      statue.ench_cache statue ENCH_PETRIFIED
      = some (statue.storing (mon_enchant.make ENCH_PETRIFYING 1 none 90), [ENCH_PETRIFYING]) := by
    have hstep := upto_succ (monster.apply_enchantment still) statue.ench_cache statue
      ENCH_PETRIFYING statue [] hup
    rw [if_pos (by rfl), hlb] at hstep
    rw [← htick]
    exact hstep
  have hmc : (statue.storing (mon_enchant.make ENCH_PETRIFYING 1 none 90)).consistent :=
    storing_consistent statue_consistent hlb rfl
  have hla2 : (statue.storing (mon_enchant.make ENCH_PETRIFYING 1 none 90)).enchantments
      ENCH_PETRIFIED = some (mon_enchant.make ENCH_PETRIFIED 1 none 5) := by
    simp only [monster.storing]
    rw [Function.update_noteq (by decide)]
    exact hla
  have hlb2 : (statue.storing (mon_enchant.make ENCH_PETRIFYING 1 none 90)).enchantments
      ENCH_PETRIFYING = some (mon_enchant.make ENCH_PETRIFYING 1 none 90) :=
    storing_lookup statue (mon_enchant.make ENCH_PETRIFYING 1 none 90)
  refine ⟨rfl, rfl, ⟨_, _, hnext, hla2, by rw [hlb2]; rfl, ?_⟩, ?_⟩
  · rw [hook_petrifying still _ _ (Or.inr rfl)]
    obtain ⟨he, _⟩ := decay_enchantment_expires still _ ENCH_PETRIFIED
      still.decay_degree_default _ hmc hla2 (by decide) (by decide) (by decide) (by decide)
    show (monster.decay_enchantment still _ ENCH_PETRIFIED still.decay_degree_default).2.enchantments
      ENCH_PETRIFYING = none
    rw [he]
    exact del_ench_petrified_removes still_passive hmc _ _ false hla2 hlb2
  · obtain ⟨m', ran, hp, _, _, hiff⟩ := apply_enchantments_spec still statue
      (passive_keeps_consistent still_passive) statue_consistent
    exact ⟨m', ran, hp, (hiff ENCH_PETRIFYING).mpr
      ⟨by decide, rfl, statue, [], hup, by rw [hlb]; rfl⟩⟩

/-! ## Adding a record of unset duration -/

theorem add_ench_fresh_unset (env : Env) (m : monster) (e : mon_enchant)
    (h1 : e.ench ≠ ENCH_NONE)
    (h2 : ¬ (e.ench = ENCH_FEAR
      ∧ (env.test Probe.nonliving m = true ∨ env.test Probe.berserk_or_insane m = true)))
    (h3 : ¬ (e.ench = ENCH_BLIND ∧ env.mons_can_be_blinded m.type = false))
    (h4 : e.ench ≠ ENCH_FLIGHT) (ha : m.enchantments e.ench = none) (hd : e.duration = 0) :
    m.add_ench env e = (true, monster.add_enchantment_effect env
      ((m.holding e).storing (e.set_duration env (m.holding e) none)) e false) := by
  have h4' : ¬ (e.ench = ENCH_FLIGHT ∧ m.has_ench ENCH_LIQUEFYING = true) := fun h => h4 h.1
  rw [add_ench_eq, if_neg h1, if_neg h2, if_neg h3]
  simp only [if_neg h4', ha, if_pos hd, monster.holding, monster.storing, set_duration_ench]

theorem add_effect_poison (env : Env) (m : monster) (e : mon_enchant) (quiet : Bool)
    (h : e.ench = ENCH_POISON) : monster.add_enchantment_effect env m e quiet = m := by
  rw [monster.add_enchantment_effect]
  simp only [h, ENCH_POISON, ENCH_BERSERK, ENCH_INSANE, ENCH_HASTE,
      ENCH_SLOW, ENCH_SUBMERGED, ENCH_CONFUSION, ENCH_MAD, ENCH_CHARM, ENCH_NEUTRAL_BRIBED,
      ENCH_FRIENDLY_BRIBED, ENCH_HEXED, ENCH_LIQUEFYING, ENCH_SILENCE, ENCH_ROLLING,
      ENCH_FROZEN, ENCH_EPHEMERAL_INFUSION, ENCH_INVIS, Nat.reduceEqDiff, or_self,
      ↓reduceDIte, ↓reduceIte]

theorem calc_duration_poison (env : Env) (self : mon_enchant) (mons : monster)
    (h : self.ench = ENCH_POISON) :
    self.calc_duration env mons none
      = max 15 (env.fuzz_value
          (max 2 (Int.tdiv (1000 * (if self.degree ≠ 0 then self.degree else 1))
            (_mod_speed 125 mons.speed)) * env.speed_to_duration mons.speed) 60 40) := by
  unfold mon_enchant.calc_duration
  simp only [h, ENCH_POISON, ENCH_WITHDRAWN, ENCH_SWIFT, ENCH_HASTE, ENCH_MIGHT, ENCH_INVIS,
    ENCH_FEAR_INSPIRING, ENCH_STONESKIN, ENCH_AGILE, ENCH_BLACK_MARK, ENCH_RESISTANCE,
    ENCH_LIQUEFYING, ENCH_SILENCE, ENCH_REGENERATION, ENCH_RAISED_MR, ENCH_MIRROR_DAMAGE,
    ENCH_DEATHS_DOOR, ENCH_SAP_MAGIC, ENCH_SLOW, ENCH_CORROSION, ENCH_FEAR, ENCH_PARALYSIS,
    ENCH_PETRIFIED, ENCH_DAZED, ENCH_PETRIFYING, ENCH_CONFUSION, ENCH_HELD,
    Nat.reduceEqDiff, or_self, ↓reduceIte]

theorem poison_stored (env : Env) (m : monster) (a : Option (kill_category × Nat))
    (hs : m.speed = 10) (ha : m.enchantments ENCH_POISON = none)
    (hsd : env.speed_to_duration 10 = 10) :
    (m.add_ench env (mon_enchant.make ENCH_POISON 2 a 0)).1 = true
      ∧ ∃ r : mon_enchant,
          (m.add_ench env (mon_enchant.make ENCH_POISON 2 a 0)).2.enchantments ENCH_POISON
            = some r
          ∧ r.degree = 2
          ∧ r.duration = max 15 (env.fuzz_value 160 60 40)
          ∧ r.maxduration = r.duration := by
  have hk : (mon_enchant.make ENCH_POISON 2 a 0).ench = ENCH_POISON := by
    cases a <;> rfl
  have hdeg : (mon_enchant.make ENCH_POISON 2 a 0).degree = 2 := by
    cases a <;> rfl
  have hdur : (mon_enchant.make ENCH_POISON 2 a 0).duration = 0 := by
    cases a <;> rfl
  have hmax : (mon_enchant.make ENCH_POISON 2 a 0).maxduration = 0 := by
    cases a <;> rfl
  have hadd := add_ench_fresh_unset env m (mon_enchant.make ENCH_POISON 2 a 0)
    (by rw [hk]; decide) (by rw [hk]; exact fun h => absurd h.1 (by decide))
    (by rw [hk]; exact fun h => absurd h.1 (by decide)) (by rw [hk]; decide)
    (by rw [hk]; exact ha) hdur
  rw [add_effect_poison env _ _ false hk] at hadd
  have hcalc : (mon_enchant.make ENCH_POISON 2 a 0).calc_duration env
      (m.holding (mon_enchant.make ENCH_POISON 2 a 0)) none
      = max 15 (env.fuzz_value 160 60 40) := by
    rw [calc_duration_poison env _ _ hk, hdeg]
    have hsp : (m.holding (mon_enchant.make ENCH_POISON 2 a 0)).speed = 10 := hs
    rw [hsp, hsd]
    rfl
  have h15 : (15 : Int) ≤ max 15 (env.fuzz_value 160 60 40) := le_max_left _ _
  rw [hadd]
  refine ⟨rfl, (mon_enchant.make ENCH_POISON 2 a 0).set_duration env
    (m.holding (mon_enchant.make ENCH_POISON 2 a 0)) none, ?_, ?_, ?_, ?_⟩
  · have := storing_lookup (m.holding (mon_enchant.make ENCH_POISON 2 a 0))
      ((mon_enchant.make ENCH_POISON 2 a 0).set_duration env
        (m.holding (mon_enchant.make ENCH_POISON 2 a 0)) none)
    rw [set_duration_ench, hk] at this
    exact this
  · rw [set_duration_degree, hdeg]
  · unfold mon_enchant.set_duration
    simp only [hdur, ne_eq, not_true_eq_false, false_and, if_false, zero_add, hcalc, hmax]
    split_ifs <;> rfl
  · unfold mon_enchant.set_duration
    simp only [hdur, ne_eq, not_true_eq_false, false_and, if_false, zero_add, hcalc, hmax]
    rw [if_pos (by omega)]

/-- C21: a degree-2 `ENCH_POISON` record of unset duration is added to a
speed-10 monster that has no poison, one tick at speed 10 lasting 10 time units.
The addition succeeds and stores a degree-2 record whose duration is
`max(15, fuzz_value(160, 60, 40))` and whose `maxduration` equals its duration;
when the fuzz stays within 60% below and 40% above 160, the duration lies in
`[64, 224]`. -/
theorem poison_end_to_end (env : Env) (m : monster) (a : Option (kill_category × Nat))
    (hs : m.speed = 10) (ha : m.enchantments ENCH_POISON = none)
    (hsd : env.speed_to_duration 10 = 10) :
    (m.add_ench env (mon_enchant.make ENCH_POISON 2 a 0)).1 = true
      ∧ ∃ r : mon_enchant,
          (m.add_ench env (mon_enchant.make ENCH_POISON 2 a 0)).2.enchantments ENCH_POISON
            = some r
          ∧ r.degree = 2
          ∧ r.duration = max 15 (env.fuzz_value 160 60 40)
          ∧ r.maxduration = r.duration
          ∧ (160 - 160 * 60 / 100 ≤ env.fuzz_value 160 60 40 →
              env.fuzz_value 160 60 40 ≤ 160 + 160 * 40 / 100 →
              64 ≤ r.duration ∧ r.duration ≤ 224) := by
  obtain ⟨h1, r, h2, h3, h4, h5⟩ := poison_stored env m a hs ha hsd
  refine ⟨h1, r, h2, h3, h4, h5, ?_⟩
  intro hlo hhi
  rw [h4]
  have hlo2 : (64 : Int) ≤ env.fuzz_value 160 60 40 := hlo
  have hhi2 : env.fuzz_value 160 60 40 ≤ (224 : Int) := hhi
  omega

theorem poison_end_to_end_witness :
    blank.speed = 10 ∧ blank.enchantments ENCH_POISON = none ∧ still.speed_to_duration 10 = 10
      ∧ ∃ r : mon_enchant,
          (blank.add_ench still (mon_enchant.make ENCH_POISON 2 none 0)).2.enchantments
            ENCH_POISON = some r
          ∧ r.duration = 160 ∧ r.maxduration = 160 := by
  obtain ⟨_, r, h2, _, h4, h5, _⟩ := poison_end_to_end still blank none rfl rfl rfl
  refine ⟨rfl, rfl, rfl, r, h2, ?_, ?_⟩
  · rw [h4]
    decide
  · rw [h5, h4]
    decide

/-! ## What one call of `decay_enchantment` takes off -/

theorem lose_ench_duration_stores (env : Env) (m : monster) (r : mon_enchant) (dur : Int)
    (hm : m.consistent) (hl : m.enchantments r.ench = some r)
    (hfin : r.duration < env.INFINITE_DURATION) (h0 : dur ≠ 0) (hd : dur < r.duration) :
    m.lose_ench_duration env r dur
      = (false, m.storing { r with duration := r.duration - dur }) := by
  have hne : r.ench ≠ ENCH_NONE := consistent_key_ne_none hm hl
  unfold monster.lose_ench_duration
  rw [if_neg h0, if_neg (not_le.mpr hfin), if_neg (not_le.mpr hd)]
  exact congrArg (Prod.mk false) (update_ench_stored m { r with duration := r.duration - dur }
    hne r hl)

theorem decay_takes_delta (env : Env) (m : monster) (k : enchant_type) (r : mon_enchant)
    (decay_degree : Bool) (hm : m.consistent) (hl : m.enchantments k = some r)
    (hfin : r.duration < env.INFINITE_DURATION)
    (h0 : env.speed_to_duration (if k = ENCH_HELD then m.speed else 10) ≠ 0)
    (hd : env.speed_to_duration (if k = ENCH_HELD then m.speed else 10) < r.duration)
    (hn : r.degree_decays decay_degree = false) :
    m.decay_enchantment env k decay_degree
      = (false, m.storing { r with duration :=
          r.duration - env.speed_to_duration (if k = ENCH_HELD then m.speed else 10) }) := by
  refine decay_enchantment_after_tick env m k decay_degree r _ hm hl hfin h0 ?_
  unfold mon_enchant.after_tick
  rw [if_neg (not_le.mpr hd), hn]
  rfl

/-- C22, amended: a call of `decay_enchantment` that keeps the record and does
not lower its degree takes `speed_to_duration(10)` off the duration for every
kind other than `ENCH_HELD`, whatever the speed of the monster, and
`speed_to_duration(speed)` of the monster's speed for `ENCH_HELD`. -/
theorem decay_delta_speed (env : Env) (m : monster) (k : enchant_type) (r : mon_enchant)
    (decay_degree : Bool) (hm : m.consistent) (hl : m.enchantments k = some r)
    (hfin : r.duration < env.INFINITE_DURATION)
    (h0 : env.speed_to_duration (if k = ENCH_HELD then m.speed else 10) ≠ 0)
    (hd : env.speed_to_duration (if k = ENCH_HELD then m.speed else 10) < r.duration)
    (hn : r.degree_decays decay_degree = false) :
    (k ≠ ENCH_HELD →
        m.decay_enchantment env k decay_degree
          = (false, m.storing { r with duration := r.duration - env.speed_to_duration 10 }))
      ∧ (k = ENCH_HELD →
        m.decay_enchantment env k decay_degree
          = (false, m.storing { r with duration := r.duration - env.speed_to_duration m.speed })) := by
  have h := decay_takes_delta env m k r decay_degree hm hl hfin h0 hd hn
  constructor
  · intro hk
    rw [if_neg hk] at h
    exact h
  · intro hk
    rw [if_pos hk] at h
    exact h

theorem fleet_consistent : fleet.consistent :=
  consistent_of_eq blank_consistent rfl rfl

theorem decay_delta_speed_witness :
    (fleet.holding (mon_enchant.make ENCH_POISON 1 none 100)).consistent
      ∧ (fleet.holding (mon_enchant.make ENCH_POISON 1 none 100)).decay_enchantment paced
          ENCH_POISON false
        = (false, (fleet.holding (mon_enchant.make ENCH_POISON 1 none 100)).storing
            (mon_enchant.make ENCH_POISON 1 none 90)) :=
  ⟨holding_consistent fleet_consistent _ (by decide),
   (decay_delta_speed paced (fleet.holding (mon_enchant.make ENCH_POISON 1 none 100)) ENCH_POISON
      (mon_enchant.make ENCH_POISON 1 none 100) false
      (holding_consistent fleet_consistent _ (by decide)) (holding_lookup fleet _)
      (by decide) (by decide) (by decide) (by decide)).1 (by decide)⟩

/-- Under `paced` a tick lasts 10 time units at speed 10 and 3 at speed 30.  A
poison of duration 100 on a monster of speed 30 loses 10 in one call, as on a
monster of speed 10, and so does a slowness: for neither kind does the monster's
speed enter. -/
theorem decay_ignores_speed :
    paced.speed_to_duration 10 = 10 ∧ paced.speed_to_duration 30 = 3 ∧ fleet.speed = 30
      ∧ ((fleet.holding (mon_enchant.make ENCH_POISON 1 none 100)).decay_enchantment paced
          ENCH_POISON false).2.enchantments ENCH_POISON
        = some (mon_enchant.make ENCH_POISON 1 none 90)
      ∧ ((blank.holding (mon_enchant.make ENCH_POISON 1 none 100)).decay_enchantment paced
          ENCH_POISON false).2.enchantments ENCH_POISON
        = some (mon_enchant.make ENCH_POISON 1 none 90)
      ∧ ((fleet.holding (mon_enchant.make ENCH_SLOW 1 none 100)).decay_enchantment paced
          ENCH_SLOW false).2.enchantments ENCH_SLOW
        = some (mon_enchant.make ENCH_SLOW 1 none 90) := by
  refine ⟨by decide, by decide, rfl, ?_, ?_, ?_⟩
  · rw [decay_takes_delta paced (fleet.holding (mon_enchant.make ENCH_POISON 1 none 100))
      ENCH_POISON (mon_enchant.make ENCH_POISON 1 none 100) false
      (holding_consistent fleet_consistent _ (by decide)) (holding_lookup fleet _)
      (by decide) (by decide) (by decide) (by decide)]
    exact storing_lookup _ (mon_enchant.make ENCH_POISON 1 none 90)
  · rw [decay_takes_delta paced (blank.holding (mon_enchant.make ENCH_POISON 1 none 100))
      ENCH_POISON (mon_enchant.make ENCH_POISON 1 none 100) false
      (holding_consistent blank_consistent _ (by decide)) (holding_lookup blank _)
      (by decide) (by decide) (by decide) (by decide)]
    exact storing_lookup _ (mon_enchant.make ENCH_POISON 1 none 90)
  · rw [decay_takes_delta paced (fleet.holding (mon_enchant.make ENCH_SLOW 1 none 100))
      ENCH_SLOW (mon_enchant.make ENCH_SLOW 1 none 100) false
      (holding_consistent fleet_consistent _ (by decide)) (holding_lookup fleet _)
      (by decide) (by decide) (by decide) (by decide)]
    exact storing_lookup _ (mon_enchant.make ENCH_SLOW 1 none 90)

/-! ## The degree step -/

theorem degree_step_outcome (env : Env) (m : monster) (k : enchant_type) (r : mon_enchant)
    (hm : m.consistent) (hl : m.enchantments k = some r)
    (hfin : r.duration < env.INFINITE_DURATION)
    (h0 : env.speed_to_duration (if k = ENCH_HELD then m.speed else 10) ≠ 0)
    (hd : env.speed_to_duration (if k = ENCH_HELD then m.speed else 10) < r.duration) :
    ∃ r' : mon_enchant,
      m.decay_enchantment env k true = (false, m.storing r')
        ∧ (m.decay_enchantment env k true).2.enchantments k = some r'
        ∧ (if r.degree > 1 ∧ r.duration
              < Int.tdiv (r.maxduration * (Int.tdiv (r.degree * (r.degree + 1)) 2 - 1))
                  (Int.tdiv (r.degree * (r.degree + 1)) 2) then
            r'.degree = r.degree - 1 ∧ r'.maxduration = r'.duration ∧ r'.duration = r.duration
              ∧ 1 ≤ r'.degree
          else r'.degree = r.degree ∧ r'.maxduration = r.maxduration
              ∧ r'.duration = r.duration
                  - env.speed_to_duration (if k = ENCH_HELD then m.speed else 10)) := by
  have hk : r.ench = k := hm.2.1 k r hl
  by_cases hs : r.degree_decays true = true
  · have hat : r.after_tick (env.speed_to_duration (if k = ENCH_HELD then m.speed else 10)) true
        = some { r with degree := r.degree - 1, maxduration := r.duration } := by
      unfold mon_enchant.after_tick
      rw [if_neg (not_le.mpr hd), if_pos hs]
    have hdec := decay_enchantment_after_tick env m k true r _ hm hl hfin h0 hat
    refine ⟨_, hdec, ?_, ?_⟩
    · rw [hdec, ← hk]
      exact storing_lookup m { r with degree := r.degree - 1, maxduration := r.duration }
    · unfold mon_enchant.degree_decays at hs
      simp only [Bool.true_and, Bool.and_eq_true, decide_eq_true_eq] at hs
      rw [if_pos hs]
      refine ⟨rfl, rfl, rfl, ?_⟩
      show 1 ≤ r.degree - 1
      omega
  · have hat : r.after_tick (env.speed_to_duration (if k = ENCH_HELD then m.speed else 10)) true
        = some { r with duration :=
            r.duration - env.speed_to_duration (if k = ENCH_HELD then m.speed else 10) } := by
      unfold mon_enchant.after_tick
      rw [if_neg (not_le.mpr hd), if_neg hs]
    have hdec := decay_enchantment_after_tick env m k true r _ hm hl hfin h0 hat
    refine ⟨_, hdec, ?_, ?_⟩
    · rw [hdec, ← hk]
      exact storing_lookup m { r with duration :=
        r.duration - env.speed_to_duration (if r.ench = ENCH_HELD then m.speed else 10) }
    · unfold mon_enchant.degree_decays at hs
      simp only [Bool.true_and, Bool.and_eq_true, decide_eq_true_eq] at hs
      rw [if_neg hs]
      exact ⟨rfl, rfl, rfl⟩

/-- C24: a call `decay_enchantment(k, true)` finds a record of finite duration
that the duration step does not remove.  The call returns false and the kind
stays in the table.  The degree changes exactly when the degree is above 1 and
the duration found is below `maxduration * (f - 1) / f` in integer arithmetic,
with `f = degree * (degree + 1) / 2`; then the degree is one less and still at
least 1, and the stored `maxduration` equals the stored duration.  Otherwise,
so for every record of degree at most 1, degree and `maxduration` are
unchanged. -/
theorem degree_step_rule (env : Env) (m : monster) (k : enchant_type) (r : mon_enchant)
    (hm : m.consistent) (hl : m.enchantments k = some r)
    (hfin : r.duration < env.INFINITE_DURATION)
    (h0 : env.speed_to_duration (if k = ENCH_HELD then m.speed else 10) ≠ 0)
    (hd : env.speed_to_duration (if k = ENCH_HELD then m.speed else 10) < r.duration) :
    (m.decay_enchantment env k true).1 = false
      ∧ ∃ r' : mon_enchant,
          (m.decay_enchantment env k true).2.enchantments k = some r'
            ∧ (if r.degree > 1 ∧ r.duration
                  < Int.tdiv (r.maxduration * (Int.tdiv (r.degree * (r.degree + 1)) 2 - 1))
                      (Int.tdiv (r.degree * (r.degree + 1)) 2) then
                r'.degree = r.degree - 1 ∧ r'.maxduration = r'.duration ∧ 1 ≤ r'.degree
              else r'.degree = r.degree ∧ r'.maxduration = r.maxduration)
            ∧ (r.degree ≤ 1 → r'.degree = r.degree) := by
  obtain ⟨r', h1, h2, h3⟩ := degree_step_outcome env m k r hm hl hfin h0 hd
  refine ⟨by rw [h1], r', h2, ?_, ?_⟩
  · by_cases hc : r.degree > 1 ∧ r.duration
        < Int.tdiv (r.maxduration * (Int.tdiv (r.degree * (r.degree + 1)) 2 - 1))
            (Int.tdiv (r.degree * (r.degree + 1)) 2)
    · rw [if_pos hc] at h3 ⊢
      exact ⟨h3.1, h3.2.1, h3.2.2.2⟩
    · rw [if_neg hc] at h3 ⊢
      exact ⟨h3.1, h3.2.1⟩
  · intro hle
    rw [if_neg (fun hc => absurd hc.1 (not_lt.mpr hle))] at h3
    exact h3.1

theorem degree_step_rule_witness :
    (blank.holding { ench := ENCH_POISON, degree := 4, duration := 50, maxduration := 100 }
        ).consistent
      ∧ ((blank.holding { ench := ENCH_POISON, degree := 4, duration := 50, maxduration := 100 }
            ).decay_enchantment still ENCH_POISON true).1 = false
      ∧ ∃ r' : mon_enchant,
          ((blank.holding { ench := ENCH_POISON, degree := 4, duration := 50, maxduration := 100 }
            ).decay_enchantment still ENCH_POISON true).2.enchantments ENCH_POISON = some r'
          ∧ r'.degree = 3 ∧ r'.maxduration = r'.duration := by
  have hc : (blank.holding
      { ench := ENCH_POISON, degree := 4, duration := 50, maxduration := 100 }).consistent :=
    holding_consistent blank_consistent _ (by decide)
  obtain ⟨h1, r', h2, h3, _⟩ := degree_step_rule still _ ENCH_POISON
    { ench := ENCH_POISON, degree := 4, duration := 50, maxduration := 100 } hc
    (holding_lookup blank { ench := ENCH_POISON, degree := 4, duration := 50, maxduration := 100 })
    (by decide) (by decide) (by decide)
  rw [if_pos (by decide)] at h3
  exact ⟨hc, h1, r', h2, h3.1, h3.2.1⟩

/-- C23: a degree-4 poison of duration 50 and `maxduration` 100 is ticked by
`decay_enchantment(ENCH_POISON, true)` at 10 time units a call.  The duration
step, `lose_ench_duration`, stores the duration 40; the degree step then writes
back the copy of the record taken before it, with the degree lowered: the call
leaves degree 3 with duration 50, not 40. -/
theorem degree_step_undoes_duration_step :
    ((blank.holding { ench := ENCH_POISON, degree := 4, duration := 50, maxduration := 100 }
        ).lose_ench_duration still
          { ench := ENCH_POISON, degree := 4, duration := 50, maxduration := 100 }
          (still.speed_to_duration 10)).2.enchantments ENCH_POISON
        = some { ench := ENCH_POISON, degree := 4, duration := 40, maxduration := 100 }
      ∧ (blank.holding { ench := ENCH_POISON, degree := 4, duration := 50, maxduration := 100 }
          ).decay_enchantment still ENCH_POISON true
        = (false,
            (blank.holding { ench := ENCH_POISON, degree := 4, duration := 50, maxduration := 100 }
              ).storing { ench := ENCH_POISON, degree := 3, duration := 50, maxduration := 50 })
      ∧ ((blank.holding { ench := ENCH_POISON, degree := 4, duration := 50, maxduration := 100 }
          ).decay_enchantment still ENCH_POISON true).2.enchantments ENCH_POISON
        = some { ench := ENCH_POISON, degree := 3, duration := 50, maxduration := 50 } := by
  have hc : (blank.holding
      { ench := ENCH_POISON, degree := 4, duration := 50, maxduration := 100 }).consistent :=
    holding_consistent blank_consistent _ (by decide)
  have hl := holding_lookup blank
    { ench := ENCH_POISON, degree := 4, duration := 50, maxduration := 100 }
  have hdec := decay_enchantment_after_tick still _ ENCH_POISON true
    { ench := ENCH_POISON, degree := 4, duration := 50, maxduration := 100 }
    { ench := ENCH_POISON, degree := 3, duration := 50, maxduration := 50 }
    hc hl (by decide) (by decide) (by decide)
  refine ⟨?_, hdec, ?_⟩
  · rw [lose_ench_duration_stores still _
      { ench := ENCH_POISON, degree := 4, duration := 50, maxduration := 100 }
      (still.speed_to_duration 10) hc hl (by decide) (by decide) (by decide)]
    exact storing_lookup _ { ench := ENCH_POISON, degree := 4, duration := 40, maxduration := 100 }
  · rw [hdec]
    exact storing_lookup _ { ench := ENCH_POISON, degree := 3, duration := 50, maxduration := 50 }

/-! ## Merging and the duration calculator -/

theorem merge_stored (env : Env) (m : monster) (e cur : mon_enchant) (hP : env.passive)
    (hm : m.consistent) (hl : m.enchantments e.ench = some cur)
    (hr : (m.add_ench env e).1 = true) :
    ∃ mons : monster, (m.add_ench env e).2.enchantments e.ench = some
      (if e.duration = 0 then (cur.add_assign env e).set_duration env mons (some e)
       else cur.add_assign env e) := by
  obtain ⟨mons, h⟩ := add_ench_stored hP hm e hr
  rw [hl] at h
  exact ⟨mons, h⟩

/-- C25, amended: `add_ench` merges the incoming record `e` into the record
`cur` stored under its kind (collaborators leaving the table alone).  The
duration that decides is that of the incoming record: when the duration of `e` is zero,
the stored duration is the merged duration plus the result of `calc_duration`,
run on the merged record with `e` as the added record; when it is not zero, the
stored record is the merged record itself, nothing being added. -/
theorem merge_reruns_duration (env : Env) (m : monster) (e cur : mon_enchant)
    (hP : env.passive) (hm : m.consistent) (hl : m.enchantments e.ench = some cur)
    (hr : (m.add_ench env e).1 = true) :
    ∃ (mons : monster) (r : mon_enchant),
      (m.add_ench env e).2.enchantments e.ench = some r
        ∧ (e.duration = 0 →
            r.duration = (cur.add_assign env e).duration
              + (cur.add_assign env e).calc_duration env mons (some e))
        ∧ (e.duration ≠ 0 → r = cur.add_assign env e) := by
  obtain ⟨mons, h⟩ := merge_stored env m e cur hP hm hl hr
  refine ⟨mons, _, h, ?_, ?_⟩
  · intro h0
    rw [if_pos h0]
    exact set_duration_unset env _ e mons h0
  · intro h0
    rw [if_neg h0]

theorem merge_reruns_duration_witness :
    still.passive ∧ envenomed.consistent
      ∧ envenomed.enchantments (mon_enchant.make ENCH_POISON 1 none 0).ench
          = some (mon_enchant.make ENCH_POISON 2 none 100)
      ∧ ∃ (mons : monster) (r : mon_enchant),
          (envenomed.add_ench still (mon_enchant.make ENCH_POISON 1 none 0)).2.enchantments
              (mon_enchant.make ENCH_POISON 1 none 0).ench = some r
            ∧ r.duration = ((mon_enchant.make ENCH_POISON 2 none 100).add_assign still
                  (mon_enchant.make ENCH_POISON 1 none 0)).duration
                + ((mon_enchant.make ENCH_POISON 2 none 100).add_assign still
                    (mon_enchant.make ENCH_POISON 1 none 0)).calc_duration still mons
                    (some (mon_enchant.make ENCH_POISON 1 none 0)) := by
  obtain ⟨mons, r, h1, h2, _⟩ := merge_reruns_duration still envenomed
    (mon_enchant.make ENCH_POISON 1 none 0) (mon_enchant.make ENCH_POISON 2 none 100)
    still_passive envenomed_consistent (holding_lookup blank _)
    (add_ench_accepts still envenomed _ (by decide) (by decide) (by decide))
  exact ⟨still_passive, envenomed_consistent, holding_lookup blank _, mons, r, h1, h2 rfl⟩

/-! ## The high-water mark -/

theorem set_duration_max (env : Env) (self : mon_enchant) (mons : monster)
    (added : Option mon_enchant) (h : ¬ (self.duration ≠ 0 ∧ added = none)) :
    (self.set_duration env mons added).duration
      ≤ (self.set_duration env mons added).maxduration := by
  unfold mon_enchant.set_duration
  rw [if_neg h]
  dsimp only
  split_ifs with h1
  · exact le_refl _
  · exact not_lt.mp h1

theorem add_ench_max_stored (env : Env) (m : monster) (e : mon_enchant) (hP : env.passive)
    (hm : m.consistent) (hr : (m.add_ench env e).1 = true) :
    ∃ r : mon_enchant, (m.add_ench env e).2.enchantments e.ench = some r
      ∧ (e.duration = 0 → r.duration ≤ r.maxduration)
      ∧ (e.duration ≠ 0 → m.enchantments e.ench = none → r = e)
      ∧ (e.duration ≠ 0 → ∀ cur : mon_enchant, m.enchantments e.ench = some cur →
          r = cur.add_assign env e ∧ r.maxduration = cur.maxduration) := by
  obtain ⟨mons, h⟩ := add_ench_stored hP hm e hr
  refine ⟨_, h, ?_, ?_, ?_⟩
  · intro h0
    cases hl : m.enchantments e.ench with
    | none =>
      simp only [if_pos h0]
      exact set_duration_max env e mons none (fun hc => hc.1 h0)
    | some cur =>
      simp only [if_pos h0]
      exact set_duration_max env _ mons (some e) (fun hc => by cases hc.2)
  · intro h0 hl
    rw [hl]
    simp only [if_neg h0]
  · intro h0 cur hl
    rw [hl]
    dsimp only
    rw [if_neg h0]
    refine ⟨rfl, ?_⟩
    by_cases hk : cur.ench = e.ench
    · exact (add_assign_fields env cur e hk).2.2.2.1
    · unfold mon_enchant.add_assign
      rw [if_neg hk]

/-- C26, amended: after a successful `add_ench` of a record of unset (zero)
duration, as a new insertion or as a merge, the stored record has
`maxduration ≥ duration` (collaborators leaving the table alone).  With an
explicit duration `maxduration` is not raised: an insertion stores the record as
it was built, and a merge keeps the `maxduration` of the record it merges
into. -/
theorem max_duration_after_add (env : Env) (m : monster) (e : mon_enchant) (hP : env.passive)
    (hm : m.consistent) (hr : (m.add_ench env e).1 = true) :
    ∃ r : mon_enchant, (m.add_ench env e).2.enchantments e.ench = some r
      ∧ (e.duration = 0 → r.duration ≤ r.maxduration)
      ∧ (e.duration ≠ 0 → m.enchantments e.ench = none → r = e)
      ∧ (e.duration ≠ 0 → ∀ cur : mon_enchant, m.enchantments e.ench = some cur →
          r = cur.add_assign env e ∧ r.maxduration = cur.maxduration) :=
  add_ench_max_stored env m e hP hm hr

theorem max_duration_after_add_witness :
    still.passive ∧ blank.consistent
      ∧ (blank.add_ench still (mon_enchant.make ENCH_POISON 2 none 0)).1 = true
      ∧ ∃ r : mon_enchant,
          (blank.add_ench still (mon_enchant.make ENCH_POISON 2 none 0)).2.enchantments
              (mon_enchant.make ENCH_POISON 2 none 0).ench = some r
            ∧ r.duration ≤ r.maxduration := by
  have hr := add_ench_accepts still blank (mon_enchant.make ENCH_POISON 2 none 0)
    (by decide) (by decide) (by decide)
  obtain ⟨r, h1, h2, _⟩ := max_duration_after_add still blank
    (mon_enchant.make ENCH_POISON 2 none 0) still_passive blank_consistent hr
  exact ⟨still_passive, blank_consistent, hr, r, h1, h2 rfl⟩

/-- A degree-2 poison built with duration 100 (and so `maxduration` 0) is added
to a monster without poison: the addition succeeds and the stored record has
duration 100 and `maxduration` 0. -/
theorem explicit_duration_leaves_max_unset :
    (mon_enchant.make ENCH_POISON 2 none 100).maxduration = 0
      ∧ (blank.add_ench still (mon_enchant.make ENCH_POISON 2 none 100)).1 = true
      ∧ (blank.add_ench still (mon_enchant.make ENCH_POISON 2 none 100)).2.enchantments
            ENCH_POISON
          = some { ench := ENCH_POISON, degree := 2, duration := 100, maxduration := 0 } := by
  have h := add_ench_fresh still blank (mon_enchant.make ENCH_POISON 2 none 100)
    (by decide) (by decide) (by decide) (by decide) rfl (by decide)
  rw [add_effect_poison still _ _ false rfl] at h
  refine ⟨rfl, by rw [h], ?_⟩
  rw [h]
  exact holding_lookup blank (mon_enchant.make ENCH_POISON 2 none 100)

/-! ## Durations of the abjuration kinds -/

theorem mod_speed_ten : _mod_speed 10 10 = 10 ∧ _mod_speed 20 10 = 20 ∧ _mod_speed 100 10 = 100 := by
  decide

theorem calc_duration_abj_ticks (env : Env) (self : mon_enchant) (mons : monster)
    (added : Option mon_enchant) (d : Int)
    (h : self.ench = ENCH_ABJ ∨ self.ench = ENCH_FAKE_ABJURATION)
    (hd : (match added with
      | some a => a.degree
      | none => self.degree) = d)
    (hs : mons.speed = 10) (hsd : env.speed_to_duration 10 = 10) (h0 : 0 ≤ d) :
    self.calc_duration env mons added
      = max 15 (env.fuzz_value (abj_documented_ticks d) 60 40) := by
  unfold mon_enchant.calc_duration
  cases added <;> dsimp only at hd <;> rcases h with h | h <;>
  simp only [h, ENCH_ABJ, ENCH_FAKE_ABJURATION, ENCH_PORTAL_PACIFIED, ENCH_BREATH_WEAPON,
    ENCH_PORTAL_TIMER, ENCH_WITHDRAWN, ENCH_SWIFT, ENCH_HASTE,
    ENCH_MIGHT, ENCH_INVIS,
    ENCH_FEAR_INSPIRING, ENCH_STONESKIN, ENCH_AGILE, ENCH_BLACK_MARK, ENCH_RESISTANCE,
    ENCH_LIQUEFYING, ENCH_SILENCE, ENCH_REGENERATION, ENCH_RAISED_MR, ENCH_MIRROR_DAMAGE,
    ENCH_DEATHS_DOOR, ENCH_SAP_MAGIC, ENCH_SLOW, ENCH_CORROSION, ENCH_FEAR, ENCH_PARALYSIS,
    ENCH_PETRIFIED, ENCH_DAZED, ENCH_PETRIFYING, ENCH_CONFUSION, ENCH_HELD, ENCH_POISON,
    ENCH_STICKY_FLAME, ENCH_ROT, ENCH_CORONA, ENCH_SILVER_CORONA, ENCH_SHORT_LIVED,
    ENCH_SLOWLY_DYING, ENCH_SPORE_PRODUCTION, ENCH_EXPLODING,
    Nat.reduceEqDiff, or_self, or_true, true_or, ↓reduceIte]
  all_goals
    rw [hd, hs, hsd, mod_speed_ten.1, mod_speed_ten.2.1, mod_speed_ten.2.2]
    clear hd
    obtain h1 | h1 | h1 | h1 | h1 | h1 | h1 :
        d = 0 ∨ d = 1 ∨ d = 2 ∨ d = 3 ∨ d = 4 ∨ d = 5 ∨ 6 ≤ d := by omega
    all_goals first
      | (subst h1; rfl)
      | (have e1 : (if d ≠ 0 then d else 1) = d := if_pos (by omega)
         have e2 : d ≥ 6 := h1
         have e3 : d ≥ 5 := by omega
         have e4 : min 4 d = 4 := by omega
         have e5 : abj_documented_ticks d = 1900 := by
           unfold abj_documented_ticks
           rw [if_neg (by omega), if_neg (by omega), if_neg (by omega), if_neg (by omega),
             if_neg (by omega)]
         simp only [e1, e2, e3, e4, e5, ↓reduceIte]
         rfl)

theorem abj_documented_ticks_mono (d1 d2 : Int) (h : d1 ≤ d2) :
    abj_documented_ticks d1 ≤ abj_documented_ticks d2 := by
  unfold abj_documented_ticks
  split_ifs <;> omega

/-- C27: for ENCH_ABJ and ENCH_FAKE_ABJURATION on a speed-10 monster whose
`speed_to_duration(10)` is 10, `calc_duration` of a record (or, in a merge, of
the added record) of degree `d ≥ 0` is `max(15, fuzz_value(raw, 60, 40))` with
the pre-fuzz value `raw` equal to 100, 200, 300, 400, 900 and 1900 for degrees
1 to 6; nine tenths of these are 90, 180, 270, 360, 810 and 1710; degree 0
gives the value of degree 1, every degree above 6 the value of degree 6, and
the value is non-decreasing in the degree. -/
theorem abj_duration_table (env : Env) (self : mon_enchant) (mons : monster)
    (added : Option mon_enchant) (d : Int)
    (h : self.ench = ENCH_ABJ ∨ self.ench = ENCH_FAKE_ABJURATION)
    (hd : (match added with
      | some a => a.degree
      | none => self.degree) = d)
    (hs : mons.speed = 10) (hsd : env.speed_to_duration 10 = 10) (h0 : 0 ≤ d) :
    self.calc_duration env mons added
        = max 15 (env.fuzz_value (abj_documented_ticks d) 60 40)
      ∧ List.map abj_documented_ticks [1, 2, 3, 4, 5, 6] = [100, 200, 300, 400, 900, 1900]
      ∧ List.map (fun n => Int.tdiv (abj_documented_ticks n * 9) 10) [1, 2, 3, 4, 5, 6]
          = [90, 180, 270, 360, 810, 1710]
      ∧ abj_documented_ticks 0 = abj_documented_ticks 1
      ∧ (6 ≤ d → abj_documented_ticks d = abj_documented_ticks 6)
      ∧ (∀ d2 : Int, d ≤ d2 → abj_documented_ticks d ≤ abj_documented_ticks d2) := by
  refine ⟨calc_duration_abj_ticks env self mons added d h hd hs hsd h0, by decide, by decide,
    by decide, ?_, fun d2 h2 => abj_documented_ticks_mono d d2 h2⟩
  intro h6
  unfold abj_documented_ticks
  rw [if_neg (by omega), if_neg (by omega), if_neg (by omega), if_neg (by omega),
    if_neg (by omega)]
  rfl

theorem abj_duration_table_witness :
    (mon_enchant.make ENCH_ABJ 6 none 0).calc_duration still blank none = 1900
      ∧ (mon_enchant.make ENCH_FAKE_ABJURATION 0 none 0).calc_duration still blank
          (some (mon_enchant.make ENCH_FAKE_ABJURATION 5 none 0)) = 900 :=
  ⟨(abj_duration_table still (mon_enchant.make ENCH_ABJ 6 none 0) blank none 6
      (Or.inl rfl) rfl rfl rfl (by decide)).1.trans (by decide),
   (abj_duration_table still (mon_enchant.make ENCH_FAKE_ABJURATION 0 none 0) blank
      (some (mon_enchant.make ENCH_FAKE_ABJURATION 5 none 0)) 5
      (Or.inr rfl) rfl rfl rfl (by decide)).1.trans (by decide)⟩

/-! ## Ephemeral infusion -/

theorem add_effect_infusion (env : Env) (m : monster) (e : mon_enchant) (quiet : Bool)
    (h : e.ench = ENCH_EPHEMERAL_INFUSION) (hn : m.eph_amount = none)
    (ha : 0 < min (Int.tdiv e.degree 2 + env.random2avg e.degree 2)
      (m.max_hit_points - m.hit_points)) :
    (monster.add_enchantment_effect env m e quiet).eph_amount
      = some (if (env.heal m (min (Int.tdiv e.degree 2 + env.random2avg e.degree 2)
            (m.max_hit_points - m.hit_points))).1 = true ∧ quiet = false
          then to_byte (min (Int.tdiv e.degree 2 + env.random2avg e.degree 2)
            (m.max_hit_points - m.hit_points))
          else 0) := by
  rw [monster.add_enchantment_effect]
  simp only [h, ENCH_POISON, ENCH_BERSERK, ENCH_INSANE, ENCH_HASTE,
      ENCH_SLOW, ENCH_SUBMERGED, ENCH_CONFUSION, ENCH_MAD, ENCH_CHARM, ENCH_NEUTRAL_BRIBED,
      ENCH_FRIENDLY_BRIBED, ENCH_HEXED, ENCH_LIQUEFYING, ENCH_SILENCE, ENCH_ROLLING,
      ENCH_FROZEN, ENCH_EPHEMERAL_INFUSION, ENCH_INVIS, Nat.reduceEqDiff, or_self,
      ↓reduceDIte, ↓reduceIte, hn, gt_iff_lt, ha]
  split <;> rfl

theorem add_effect_infusion_state (quiet : Bool) :
    monster.add_enchantment_effect hale wounded infusion quiet
      = { wounded with hit_points := 7, eph_amount := some (if quiet = false then 2 else 0) } := by
  rw [monster.add_enchantment_effect]
  cases quiet <;>
  simp only [infusion, mon_enchant.make, ENCH_POISON, ENCH_BERSERK, ENCH_INSANE, ENCH_HASTE,
      ENCH_SLOW, ENCH_SUBMERGED, ENCH_CONFUSION, ENCH_MAD, ENCH_CHARM, ENCH_NEUTRAL_BRIBED,
      ENCH_FRIENDLY_BRIBED, ENCH_HEXED, ENCH_LIQUEFYING, ENCH_SILENCE, ENCH_ROLLING,
      ENCH_FROZEN, ENCH_EPHEMERAL_INFUSION, ENCH_INVIS, Nat.reduceEqDiff, or_self,
      ↓reduceDIte, ↓reduceIte] <;>
  rfl

theorem remove_effect_infusion (env : Env) (m : monster) (e : mon_enchant) (quiet : Bool)
    (h : e.ench = ENCH_EPHEMERAL_INFUSION) :
    monster.remove_enchantment_effect env m e quiet
      = (if min (m.eph_amount.getD 0) (m.hit_points - 1) > 0
          then env.call (Call.hurt (min (m.eph_amount.getD 0) (m.hit_points - 1)))
            { m with eph_amount := none }
          else { m with eph_amount := none }) := by
  rw [monster.remove_enchantment_effect]
  simp only [h, ↓reduceDIte, ↓reduceIte, ENCH_PETRIFIED, ENCH_TIDE, ENCH_INSANE,
    ENCH_BERSERK, ENCH_HASTE, ENCH_SLOW, ENCH_PARALYSIS, ENCH_PETRIFYING, ENCH_FEAR,
    ENCH_CONFUSION, ENCH_INVIS, ENCH_CHARM, ENCH_NEUTRAL_BRIBED, ENCH_FRIENDLY_BRIBED,
    ENCH_HEXED, ENCH_HELD, ENCH_FAKE_ABJURATION, ENCH_ABJ, ENCH_SHORT_LIVED, ENCH_SUBMERGED,
    ENCH_FLIGHT, ENCH_ROLLING, ENCH_BLIND, ENCH_DUMB, ENCH_MAD, ENCH_FLAYED, ENCH_HAUNTING,
    ENCH_AWAKEN_VINES, ENCH_MERFOLK_AVATAR_SONG, ENCH_FROZEN, ENCH_EPHEMERAL_INFUSION,
    ENCH_BLACK_MARK, Nat.reduceEqDiff, or_self, false_and]
  cases m.eph_amount <;> rfl

/-- C28 (divergence): on a monster at 5 of 10 hit points, in a world where
`heal` succeeds, the on-add hook of a degree-4 ENCH_EPHEMERAL_INFUSION record
heals 2 hit points for either value of `quiet`; with `quiet = false` it stashes
2 and the on-remove hook takes the 2 hit points back, but with `quiet = true`
it stashes 0 and the on-remove hook leaves the monster at 7 hit points. -/
theorem quiet_infusion_stashes_zero :
    wounded.eph_amount = none ∧ wounded.hit_points = 5
      ∧ (monster.add_enchantment_effect hale wounded infusion true).hit_points = 7
      ∧ (monster.add_enchantment_effect hale wounded infusion true).eph_amount = some 0
      ∧ (monster.remove_enchantment_effect hale
          (monster.add_enchantment_effect hale wounded infusion true) infusion true).hit_points = 7
      ∧ (monster.add_enchantment_effect hale wounded infusion false).hit_points = 7
      ∧ (monster.add_enchantment_effect hale wounded infusion false).eph_amount = some 2
      ∧ (monster.remove_enchantment_effect hale
          (monster.add_enchantment_effect hale wounded infusion false) infusion false).hit_points
          = 5 := by
  rw [remove_effect_infusion hale _ infusion true rfl,
    remove_effect_infusion hale _ infusion false rfl,
    add_effect_infusion_state true, add_effect_infusion_state false]
  exact ⟨rfl, rfl, rfl, rfl, rfl, rfl, rfl, rfl⟩

/-! ## Berserk, fatigue and slowness -/

/-- A call of `decay_enchantment` that returns true found the kind present and
ends in the state that `del_ench` of the kind leaves. -/
theorem decay_true_removal (env : Env) (m : monster) (k : enchant_type) (decay_degree : Bool)
    (hm : m.consistent) (h : (m.decay_enchantment env k decay_degree).1 = true) :
    m.has_ench k = true
      ∧ (m.decay_enchantment env k decay_degree).2 = (m.del_ench env k false true).2 := by
  by_cases hc : m.has_ench k = false
  · rw [decay_enchantment_absent env m k decay_degree hc] at h
    cases h
  have hc1 : m.has_ench k = true := by simpa using hc
  refine ⟨hc1, ?_⟩
  have hsome : (m.enchantments k).isSome = true := by
    rw [← hm.1 k]
    exact hc1
  obtain ⟨r, hl⟩ := Option.isSome_iff_exists.mp hsome
  have hk : r.ench = k := hm.2.1 k r hl
  subst hk
  unfold monster.decay_enchantment at h ⊢
  rw [get_ench_single, hl] at h ⊢
  simp only [Option.getD_some, hc1, Bool.true_eq_false, if_false] at h ⊢
  by_cases hinf : r.duration ≥ env.INFINITE_DURATION
  · rw [if_pos hinf] at h
    cases h
  rw [if_neg hinf] at h ⊢
  by_cases hlost : (m.lose_ench_duration env r
      (env.speed_to_duration (if r.ench = ENCH_HELD then m.speed else 10))).1 = true
  · rw [if_pos hlost]
    unfold monster.lose_ench_duration at hlost ⊢
    by_cases h0 : env.speed_to_duration (if r.ench = ENCH_HELD then m.speed else 10) = 0
    · rw [if_pos h0] at hlost
      cases hlost
    rw [if_neg h0, if_neg hinf] at hlost ⊢
    by_cases hd : r.duration ≤ env.speed_to_duration (if r.ench = ENCH_HELD then m.speed else 10)
    · rw [if_pos hd]
    · rw [if_neg hd] at hlost
      cases hlost
  · rw [if_neg hlost] at h
    exfalso
    by_cases hdd : decay_degree = false
    · rw [if_pos hdd] at h
      cases h
    rw [if_neg hdd] at h
    by_cases hdeg : r.degree ≤ 1
    · rw [if_pos hdeg] at h
      cases h
    rw [if_neg hdeg] at h
    have hdeg3 : ¬ r.degree - 1 ≤ 0 := by omega
    by_cases hcond : r.duration
        < Int.tdiv (r.maxduration * (Int.tdiv (r.degree * (r.degree + 1)) 2 - 1))
            (Int.tdiv (r.degree * (r.degree + 1)) 2)
    · rw [if_pos hcond, if_neg hdeg3] at h
      cases h
    · rw [if_neg hcond] at h
      cases h

theorem hook_berserk (env : Env) (m : monster) (me : mon_enchant)
    (h : me.ench = ENCH_BERSERK ∨ me.ench = ENCH_INSANE) :
    m.apply_enchantment env me
      = if (m.decay_enchantment env me.ench env.decay_degree_default).1 = true then
          (((m.decay_enchantment env me.ench env.decay_degree_default).2.add_ench env
              (mon_enchant.make ENCH_FATIGUE 0 none (env.random_range 70 130))).2.add_ench env
            (mon_enchant.make ENCH_SLOW 0 none (env.random_range 70 130))).2
        else (m.decay_enchantment env me.ench env.decay_degree_default).2 := by
  unfold monster.apply_enchantment
  rcases h with h | h <;>
  simp only [h, ENCH_INSANE, ENCH_BERSERK, Nat.reduceEqDiff, or_self, or_true, true_or,
    ↓reduceIte]

theorem add_effect_fatigue (env : Env) (m : monster) (e : mon_enchant) (quiet : Bool)
    (h : e.ench = ENCH_FATIGUE) : monster.add_enchantment_effect env m e quiet = m := by
  rw [monster.add_enchantment_effect]
  simp only [h, ENCH_FATIGUE, ENCH_BERSERK, ENCH_INSANE, ENCH_HASTE,
      ENCH_SLOW, ENCH_SUBMERGED, ENCH_CONFUSION, ENCH_MAD, ENCH_CHARM, ENCH_NEUTRAL_BRIBED,
      ENCH_FRIENDLY_BRIBED, ENCH_HEXED, ENCH_LIQUEFYING, ENCH_SILENCE, ENCH_ROLLING,
      ENCH_FROZEN, ENCH_EPHEMERAL_INFUSION, ENCH_INVIS, Nat.reduceEqDiff, or_self,
      ↓reduceDIte, ↓reduceIte]

/-- The state after the tick hook of a berserk or insane record that runs out:
the kind is gone and fatigue and slowness are stored as constructed. -/
theorem berserk_expiry_state {env : Env} (hP : env.passive) (m : monster) (me : mon_enchant)
    (hm : m.consistent) (h : me.ench = ENCH_BERSERK ∨ me.ench = ENCH_INSANE)
    (hexp : (m.decay_enchantment env me.ench env.decay_degree_default).1 = true)
    (hf : m.enchantments ENCH_FATIGUE = none) (hs : m.enchantments ENCH_SLOW = none)
    (hd : env.random_range 70 130 ≠ 0) :
    (m.apply_enchantment env me).enchantments me.ench = none
      ∧ (m.apply_enchantment env me).enchantments ENCH_FATIGUE
          = some (mon_enchant.make ENCH_FATIGUE 0 none (env.random_range 70 130))
      ∧ (m.apply_enchantment env me).enchantments ENCH_SLOW
          = some (mon_enchant.make ENCH_SLOW 0 none (env.random_range 70 130))
      ∧ (m.apply_enchantment env me).consistent := by
  have hK := passive_keeps_consistent hP
  obtain ⟨hc, hst⟩ := decay_true_removal env m me.ench env.decay_degree_default hm hexp
  have hsome : (m.enchantments me.ench).isSome = true := by
    rw [← hm.1 me.ench]
    exact hc
  obtain ⟨r, hl⟩ := Option.isSome_iff_exists.mp hsome
  have hk : r.ench = me.ench := hm.2.1 _ r hl
  have hkF : me.ench ≠ ENCH_FATIGUE := by rcases h with h | h <;> rw [h] <;> decide
  have hkS : me.ench ≠ ENCH_SLOW := by rcases h with h | h <;> rw [h] <;> decide
  have hk1 : me.ench ≠ ENCH_PETRIFIED := by rcases h with h | h <;> rw [h] <;> decide
  have hk2 : me.ench ≠ ENCH_ABJ := by rcases h with h | h <;> rw [h] <;> decide
  have hk3 : me.ench ≠ ENCH_FAKE_ABJURATION := by rcases h with h | h <;> rw [h] <;> decide
  have hk4 : me.ench ≠ ENCH_HAUNTING := by rcases h with h | h <;> rw [h] <;> decide
  have hk5 : me.ench ≠ ENCH_SUBMERGED := by rcases h with h | h <;> rw [h] <;> decide
  have hgo := del_ench_goes_through env m me.ench false true r hl (by rw [hk]; exact hk5)
  have hgone := ((del_ench_outcome env m me.ench false true hP hm hgo).1
    (Or.inr (Or.inl ⟨hk2, hk3⟩))).1
  have hc0 : (m.del_ench env me.ench false true).2.consistent :=
    del_ench_consistent hK hm _ _ _
  have hF0 : (m.del_ench env me.ench false true).2.enchantments ENCH_FATIGUE = none :=
    (same_at_del_ench_plain hP hm false true (Ne.symm hkF) hk1 hk2 hk3 (Or.inl hk4)).1.trans hf
  have hS0 : (m.del_ench env me.ench false true).2.enchantments ENCH_SLOW = none :=
    (same_at_del_ench_plain hP hm false true (Ne.symm hkS) hk1 hk2 hk3 (Or.inl hk4)).1.trans hs
  have hadd1 := add_ench_fresh env (m.del_ench env me.ench false true).2
    (mon_enchant.make ENCH_FATIGUE 0 none (env.random_range 70 130))
    (show ENCH_FATIGUE ≠ ENCH_NONE by decide)
    (fun hx => absurd hx.1 (show ENCH_FATIGUE ≠ ENCH_FEAR by decide))
    (fun hx => absurd hx.1 (show ENCH_FATIGUE ≠ ENCH_BLIND by decide))
    (show ENCH_FATIGUE ≠ ENCH_FLIGHT by decide) hF0 hd
  rw [add_effect_fatigue env _ _ false rfl] at hadd1
  have hc1 : ((m.del_ench env me.ench false true).2.holding
      (mon_enchant.make ENCH_FATIGUE 0 none (env.random_range 70 130))).consistent :=
    holding_consistent hc0 _ (show ENCH_FATIGUE ≠ ENCH_NONE by decide)
  have hS1 : ((m.del_ench env me.ench false true).2.holding
      (mon_enchant.make ENCH_FATIGUE 0 none (env.random_range 70 130))).enchantments ENCH_SLOW
      = none := by
    simp only [monster.holding]
    exact (Function.update_noteq (show ENCH_SLOW ≠ ENCH_FATIGUE by decide) _ _).trans hS0
  have hadd2 := add_ench_fresh env ((m.del_ench env me.ench false true).2.holding
      (mon_enchant.make ENCH_FATIGUE 0 none (env.random_range 70 130)))
    (mon_enchant.make ENCH_SLOW 0 none (env.random_range 70 130))
    (show ENCH_SLOW ≠ ENCH_NONE by decide)
    (fun hx => absurd hx.1 (show ENCH_SLOW ≠ ENCH_FEAR by decide))
    (fun hx => absurd hx.1 (show ENCH_SLOW ≠ ENCH_BLIND by decide))
    (show ENCH_SLOW ≠ ENCH_FLIGHT by decide) hS1 hd
  have hc2 : (((m.del_ench env me.ench false true).2.holding
      (mon_enchant.make ENCH_FATIGUE 0 none (env.random_range 70 130))).holding
      (mon_enchant.make ENCH_SLOW 0 none (env.random_range 70 130))).consistent :=
    holding_consistent hc1 _ (show ENCH_SLOW ≠ ENCH_NONE by decide)
  have hfin : m.apply_enchantment env me
      = monster.add_enchantment_effect env
          (((m.del_ench env me.ench false true).2.holding
            (mon_enchant.make ENCH_FATIGUE 0 none (env.random_range 70 130))).holding
            (mon_enchant.make ENCH_SLOW 0 none (env.random_range 70 130)))
          (mon_enchant.make ENCH_SLOW 0 none (env.random_range 70 130)) false := by
    rw [hook_berserk env m me h, if_pos hexp, hst, hadd1]
    dsimp only
    rw [hadd2]
  have hframe : ∀ i : enchant_type, i ≠ ENCH_SUBMERGED →
      (m.apply_enchantment env me).enchantments i
        = (((m.del_ench env me.ench false true).2.holding
            (mon_enchant.make ENCH_FATIGUE 0 none (env.random_range 70 130))).holding
            (mon_enchant.make ENCH_SLOW 0 none (env.random_range 70 130))).enchantments i := by
    intro i hi
    rw [hfin]
    exact (same_at_add_effect hP hc2 _ false hi).1
  refine ⟨?_, ?_, ?_, ?_⟩
  · rw [hframe _ hk5]
    simp only [monster.holding]
    exact ((Function.update_noteq hkS _ _).trans (Function.update_noteq hkF _ _)).trans hgone
  · rw [hframe _ (by decide)]
    exact holding_lookup_below _ (mon_enchant.make ENCH_FATIGUE 0 none (env.random_range 70 130))
      (mon_enchant.make ENCH_SLOW 0 none (env.random_range 70 130))
      (show ENCH_FATIGUE ≠ ENCH_SLOW by decide)
  · rw [hframe _ (by decide)]
    exact holding_lookup _ (mon_enchant.make ENCH_SLOW 0 none (env.random_range 70 130))
  · exact apply_enchantment_consistent hK hm me

/-- The tick hook of a fatigue record that runs out leaves no slowness. -/
theorem fatigue_expiry_removes_slow {env : Env} (hP : env.passive) (m : monster)
    (me : mon_enchant) (hm : m.consistent) (h : me.ench = ENCH_FATIGUE)
    (hexp : (m.decay_enchantment env ENCH_FATIGUE env.decay_degree_default).1 = true) :
    (m.apply_enchantment env me).enchantments ENCH_SLOW = none := by
  have hK := passive_keeps_consistent hP
  obtain ⟨_, hst⟩ := decay_true_removal env m ENCH_FATIGUE env.decay_degree_default hm hexp
  rw [hook_fatigue env m me h, if_pos hexp, hst]
  have hc0 : (m.del_ench env ENCH_FATIGUE false true).2.consistent :=
    del_ench_consistent hK hm _ _ _
  cases hl : (m.del_ench env ENCH_FATIGUE false true).2.enchantments ENCH_SLOW with
  | none =>
    rw [del_ench_eq, hl]
    exact hl
  | some r =>
    have hk : r.ench = ENCH_SLOW := hc0.2.1 _ r hl
    have hgo := del_ench_goes_through env _ ENCH_SLOW true true r hl (by rw [hk]; decide)
    exact ((del_ench_outcome env _ ENCH_SLOW true true hP hc0 hgo).1
      (Or.inr (Or.inl ⟨by decide, by decide⟩))).1

theorem absent_of_has_ench_false {m : monster} (hm : m.consistent) {k : enchant_type}
    (h : m.has_ench k = false) : m.enchantments k = none := by
  have h1 : (m.enchantments k).isSome = false := by
    rw [← hm.1 k]
    exact h
  cases hl : m.enchantments k with
  | none => rfl
  | some r =>
    rw [hl] at h1
    cases h1

theorem present_of_has_ench {m : monster} (hm : m.consistent) {k : enchant_type}
    (h : m.has_ench k = true) : ∃ r : mon_enchant, m.enchantments k = some r := by
  have h1 : (m.enchantments k).isSome = true := by
    rw [← hm.1 k]
    exact h
  exact Option.isSome_iff_exists.mp h1

/-- C29: with collaborators that leave the table alone and a `random_range(70,
130)` that answers within its bounds: (1) when the tick hook of a berserk or
insane record finds the record run out (`decay_enchantment` returns true) on a
monster with neither fatigue nor slowness, the berserk/insane kind is absent
afterwards and fatigue and slowness are both present with degree 0 and the same
duration, which lies in [70, 130]; (2) when a pass reaches an active fatigue
kind and its hook finds the record run out, the hook leaves no slowness in the
table, and the pass invokes the fatigue hook once and the slowness hook not at
all. -/
theorem berserk_then_fatigue (env : Env) (hP : env.passive)
    (hr : 70 ≤ env.random_range 70 130 ∧ env.random_range 70 130 ≤ 130) :
    (∀ (m : monster) (me : mon_enchant), m.consistent →
        (me.ench = ENCH_BERSERK ∨ me.ench = ENCH_INSANE) →
        (m.decay_enchantment env me.ench env.decay_degree_default).1 = true →
        m.has_ench ENCH_FATIGUE = false → m.has_ench ENCH_SLOW = false →
        (m.apply_enchantment env me).enchantments me.ench = none
          ∧ (m.apply_enchantment env me).has_ench me.ench = false
          ∧ (m.apply_enchantment env me).has_ench ENCH_FATIGUE = true
          ∧ (m.apply_enchantment env me).has_ench ENCH_SLOW = true
          ∧ ∃ rf rs : mon_enchant,
              (m.apply_enchantment env me).enchantments ENCH_FATIGUE = some rf
                ∧ (m.apply_enchantment env me).enchantments ENCH_SLOW = some rs
                ∧ rf.degree = 0 ∧ rs.degree = 0 ∧ rf.duration = rs.duration
                ∧ 70 ≤ rf.duration ∧ rf.duration ≤ 130)
      ∧ (∀ (p ma : monster) (ra : List enchant_type), p.consistent →
          p.has_ench ENCH_FATIGUE = true →
          monster.apply_enchantments_upto (monster.apply_enchantment env) p.ench_cache p
            ENCH_FATIGUE = some (ma, ra) →
          (ma.decay_enchantment env ENCH_FATIGUE env.decay_degree_default).1 = true →
          ∃ rf : mon_enchant, ma.enchantments ENCH_FATIGUE = some rf
            ∧ (ma.apply_enchantment env rf).enchantments ENCH_SLOW = none
            ∧ ∃ (m' : monster) (ran : List enchant_type),
                p.apply_enchantments env = some (m', ran)
                  ∧ ran.count ENCH_FATIGUE = 1 ∧ ENCH_SLOW ∉ ran) := by
  have hK := passive_keeps_consistent hP
  have hd : env.random_range 70 130 ≠ 0 := by
    have := hr.1
    omega
  refine ⟨?_, ?_⟩
  · intro m me hm h hexp hf hs
    obtain ⟨h1, h2, h3, h4⟩ := berserk_expiry_state hP m me hm h hexp
      (absent_of_has_ench_false hm hf) (absent_of_has_ench_false hm hs) hd
    refine ⟨h1, ?_, ?_, ?_, _, _, h2, h3, rfl, rfl, rfl, hr.1, hr.2⟩
    · show (m.apply_enchantment env me).ench_cache me.ench = false
      rw [h4.1, h1]
      rfl
    · show (m.apply_enchantment env me).ench_cache ENCH_FATIGUE = true
      rw [h4.1, h2]
      rfl
    · show (m.apply_enchantment env me).ench_cache ENCH_SLOW = true
      rw [h4.1, h3]
      rfl
  · intro p ma ra hp ha0 hup hexp
    have hT : ∀ (x : monster) (me : mon_enchant), x.consistent →
        (x.apply_enchantment env me).consistent :=
      fun x me hx => apply_enchantment_consistent hK hx me
    obtain ⟨ma2, ra2, hup2, hcons, _⟩ :=
      upto_spec (monster.apply_enchantment env) p.ench_cache hT p hp ENCH_FATIGUE
    rw [hup] at hup2
    cases hup2
    obtain ⟨hc, _⟩ := decay_true_removal env ma ENCH_FATIGUE env.decay_degree_default hcons hexp
    obtain ⟨rf, hrf⟩ := present_of_has_ench hcons hc
    have hk : rf.ench = ENCH_FATIGUE := hcons.2.1 _ rf hrf
    have hrem := fatigue_expiry_removes_slow hP ma rf hcons hk hexp
    obtain ⟨m', ran, h1, h2, h3⟩ := removed_later_kind_skipped env p hK hp ENCH_FATIGUE
      ENCH_SLOW (by decide) (by decide) ha0 ma ra rf hup hrf hrem
      (fun c _ _ _ h1 h2 => absurd h2 (by
        have : ¬ c < 5 := by
          have h3 : 4 < c := h1
          omega
        exact this))
    exact ⟨rf, hrf, hrem, m', ran, h1, h3, h2⟩

theorem raging_berserk_runs_out :
    (raging.decay_enchantment still (mon_enchant.make ENCH_BERSERK 1 none 5).ench
      still.decay_degree_default).1 = true := by
  have hl : raging.enchantments ENCH_BERSERK = some (mon_enchant.make ENCH_BERSERK 1 none 5) :=
    holding_lookup_below blank (mon_enchant.make ENCH_BERSERK 1 none 5)
      (mon_enchant.make ENCH_HASTE 1 none 100) (by decide)
  have he := (decay_enchantment_expires still raging ENCH_BERSERK still.decay_degree_default _
    raging_consistent hl (by decide) (by decide) (by decide) (by decide)).1
  exact (congrArg Prod.fst he).trans rfl

theorem tired_fatigue_runs_out :
    (tired.decay_enchantment still ENCH_FATIGUE still.decay_degree_default).1 = true := by
  have hl : tired.enchantments ENCH_FATIGUE = some (mon_enchant.make ENCH_FATIGUE 1 none 5) :=
    holding_lookup_below blank (mon_enchant.make ENCH_FATIGUE 1 none 5)
      (mon_enchant.make ENCH_SLOW 1 none 100) (by decide)
  have he := (decay_enchantment_expires still tired ENCH_FATIGUE still.decay_degree_default _
    tired_consistent hl (by decide) (by decide) (by decide) (by decide)).1
  exact (congrArg Prod.fst he).trans rfl

theorem berserk_then_fatigue_witness :
    still.passive ∧ raging.has_ench ENCH_BERSERK = true
      ∧ raging.has_ench ENCH_FATIGUE = false ∧ raging.has_ench ENCH_SLOW = false
      ∧ (raging.apply_enchantment still (mon_enchant.make ENCH_BERSERK 1 none 5)).has_ench
          ENCH_BERSERK = false
      ∧ (∃ rf rs : mon_enchant,
          (raging.apply_enchantment still (mon_enchant.make ENCH_BERSERK 1 none 5)).enchantments
              ENCH_FATIGUE = some rf
            ∧ (raging.apply_enchantment still
                (mon_enchant.make ENCH_BERSERK 1 none 5)).enchantments ENCH_SLOW = some rs
            ∧ rf.degree = 0 ∧ rs.degree = 0 ∧ rf.duration = rs.duration
            ∧ 70 ≤ rf.duration ∧ rf.duration ≤ 130)
      ∧ tired.has_ench ENCH_FATIGUE = true ∧ tired.has_ench ENCH_SLOW = true
      ∧ ∃ (m' : monster) (ran : List enchant_type),
          tired.apply_enchantments still = some (m', ran)
            ∧ ran.count ENCH_FATIGUE = 1 ∧ ENCH_SLOW ∉ ran :=
  have h := berserk_then_fatigue still still_passive ⟨by decide, by decide⟩
  have h1 := h.1 raging (mon_enchant.make ENCH_BERSERK 1 none 5) raging_consistent
    (Or.inl rfl) raging_berserk_runs_out rfl rfl
  have h2 := h.2 tired tired [] tired_consistent rfl rfl tired_fatigue_runs_out
  ⟨still_passive, rfl, rfl, rfl, h1.2.1, h1.2.2.2.2, rfl, rfl,
    h2.elim (fun _ hx => hx.2.2)⟩

/-! ## Divisors of the duration formulas -/

theorem mod_speed_ne_zero (val speed : Int) : _mod_speed val speed ≠ 0 := by
  unfold _mod_speed
  dsimp only
  split_ifs with h1 h2 h2
  · exact h2
  · decide
  · exact h2
  · decide

theorem mod_speed_pos (val speed : Int) (hv : 0 ≤ val) (hs : 0 ≤ speed) :
    1 ≤ _mod_speed val speed := by
  have h0 : 0 ≤ Int.tdiv (val * 10) (if speed = 0 then 10 else speed) := by
    apply Int.tdiv_nonneg (by omega)
    split_ifs <;> omega
  unfold _mod_speed
  dsimp only
  by_cases h : Int.tdiv (val * 10) (if speed = 0 then 10 else speed) ≠ 0
  · rw [if_pos h]
    omega
  · rw [if_neg h]

theorem mod_speed_checked_eq (val speed : Int) :
    _mod_speed_checked val speed = some (_mod_speed val speed) := by
  unfold _mod_speed_checked _mod_speed checked_div
  dsimp only
  have h : (if speed = 0 then (10 : Int) else speed) ≠ 0 := by
    split_ifs with h1
    · decide
    · exact h1
  rw [if_neg h]
  rfl

theorem checked_div_of_ne (a b : Int) (h : b ≠ 0) : checked_div a b = some (Int.tdiv a b) := by
  unfold checked_div
  rw [if_neg h]

theorem ite_some_some {α : Type} (c : Prop) [Decidable c] (a b : α) :
    (if c then some a else some b) = some (if c then a else b) := by
  split <;> rfl

theorem div_by_mod_speed (a val speed : Int) :
    div_by a (_mod_speed_checked val speed) = some (Int.tdiv a (_mod_speed val speed)) := by
  rw [mod_speed_checked_eq]
  exact checked_div_of_ne a _ (mod_speed_ne_zero val speed)

theorem div_by_succ_mod_speed (a val speed : Int) (h : 1 + _mod_speed val speed ≠ 0) :
    div_by a ((_mod_speed_checked val speed).map (fun s => 1 + s))
      = some (Int.tdiv a (1 + _mod_speed val speed)) := by
  rw [mod_speed_checked_eq]
  exact checked_div_of_ne a _ h

/-- Under non-negative speed and hit dice no division of `calc_duration` meets a
zero divisor, and the value is the one `calc_duration` gives. -/
theorem calc_duration_checked_eq (env : Env) (self : mon_enchant) (mons : monster)
    (added : Option mon_enchant) (hs : 0 ≤ mons.speed) (hh : 0 ≤ mons.hit_dice) :
    self.calc_duration_checked env mons added = some (self.calc_duration env mons added) := by
  have h5 : 1 + _mod_speed (mons.hit_dice + 5) mons.speed ≠ 0 := by
    have := mod_speed_pos (mons.hit_dice + 5) mons.speed (by omega) hs
    omega
  have h10 : 1 + _mod_speed (mons.hit_dice + 10) mons.speed ≠ 0 := by
    have := mod_speed_pos (mons.hit_dice + 10) mons.speed (by omega) hs
    omega
  unfold mon_enchant.calc_duration_checked mon_enchant.calc_duration
  cases added <;> simp only [mon_enchant.modded_speed_checked, mon_enchant.modded_speed, div_by_mod_speed,
    div_by_succ_mod_speed _ _ _ h5, div_by_succ_mod_speed _ _ _ h10, Option.map_some',
    Option.some_bind, ite_some_some]

/-- With hit dice of -11 on a speed-10 monster `1 + modded_speed(mons, 10)` is
zero and the slowness formula divides by it. -/
theorem calc_duration_checked_negative_hit_dice :
    (mon_enchant.make ENCH_SLOW 1 none 0).calc_duration_checked still
      { blank with hit_dice := -11 } none = none := by
  rfl

/-- C30: for a monster with speed ≥ 0 and hit dice ≥ 0 no division of
`calc_duration` meets a zero divisor (the function with partial division gives
the value of `calc_duration`); `_mod_speed(val, speed)` is at least 1 for every
`val ≥ 0`, is never 0 for any arguments, and treats speed 0 as speed 10; hence
`modded_speed` is at least 1 and `1 + modded_speed` at least 2. -/
theorem calc_duration_divisors_nonzero (env : Env) (self : mon_enchant) (mons : monster)
    (added : Option mon_enchant) (hs : 0 ≤ mons.speed) (hh : 0 ≤ mons.hit_dice) :
    self.calc_duration_checked env mons added = some (self.calc_duration env mons added)
      ∧ (∀ val : Int, 0 ≤ val → 1 ≤ _mod_speed val mons.speed)
      ∧ (∀ val speed : Int, _mod_speed val speed ≠ 0)
      ∧ (∀ val : Int, _mod_speed val 0 = _mod_speed val 10)
      ∧ (∀ hdplus : Int, 0 ≤ hdplus →
          1 ≤ mon_enchant.modded_speed mons hdplus
            ∧ 2 ≤ 1 + mon_enchant.modded_speed mons hdplus) := by
  refine ⟨calc_duration_checked_eq env self mons added hs hh,
    fun val hv => mod_speed_pos val mons.speed hv hs, mod_speed_ne_zero, fun val => rfl, ?_⟩
  intro hdplus hp
  have h := mod_speed_pos (mons.hit_dice + hdplus) mons.speed (by omega) hs
  have h2 : 1 ≤ mon_enchant.modded_speed mons hdplus := h
  exact ⟨h2, by omega⟩

theorem calc_duration_divisors_nonzero_witness :
    0 ≤ blank.speed ∧ 0 ≤ blank.hit_dice
      ∧ (mon_enchant.make ENCH_SLOW 1 none 0).calc_duration_checked still blank none = some 200
      ∧ mon_enchant.modded_speed blank 10 = 11 :=
  ⟨by decide, by decide,
   (calc_duration_divisors_nonzero still (mon_enchant.make ENCH_SLOW 1 none 0) blank none
      (by decide) (by decide)).1.trans (by decide),
   by decide⟩

theorem has_ench_checked_sound (m : monster) (k : enchant_type) (b : Bool)
    (h : m.has_ench_checked k = some b) :
    b = decide ((m.get_ench k ENCH_NONE).ench = k) := by
  unfold monster.has_ench_checked at h
  dsimp only at h
  by_cases h1 : (m.get_ench k ENCH_NONE).ench = k
  · rw [if_pos h1] at h
    by_cases h2 : m.ench_cache k = false
    · rw [if_pos h2] at h
      cases h
    · rw [if_neg h2] at h
      have h3 : m.ench_cache k = true := by simpa using h2
      rw [h3] at h
      cases h
      simp [h1]
  · rw [if_neg h1] at h
    by_cases h4 : (m.get_ench k ENCH_NONE).ench = ENCH_NONE
    · rw [if_pos h4] at h
      by_cases h2 : m.ench_cache k = true
      · rw [if_pos h2] at h
        cases h
      · rw [if_neg h2] at h
        have h3 : m.ench_cache k = false := by simpa using h2
        rw [h3] at h
        cases h
        simp [h1]
    · rw [if_neg h4] at h
      cases h

theorem has_ench_checked_returns {m : monster} (hm : m.consistent) (k : enchant_type)
    (hk : k ≠ ENCH_NONE) : m.has_ench_checked k = some (m.has_ench k) := by
  unfold monster.has_ench_checked monster.has_ench
  dsimp only
  rw [get_ench_single]
  cases hl : m.enchantments k with
  | none =>
    have hc : m.ench_cache k = false := by rw [hm.1 k, hl]; rfl
    have h0 : ¬ (({} : mon_enchant).ench = k) := fun h => hk h.symm
    simp only [Option.getD_none]
    rw [if_neg h0, if_pos trivial, hc]
    rfl
  | some r =>
    have hc : m.ench_cache k = true := by rw [hm.1 k, hl]; rfl
    simp only [Option.getD_some]
    rw [if_pos (hm.2.1 k r hl), hc]
    rfl

/-- At the sentinel `ENCH_NONE` the check of the diagnostics build does not
pass: `get_ench` answers with the default record, whose kind is the one asked
for, and the cache bit is clear. -/
theorem has_ench_checked_sentinel {m : monster} (hm : m.consistent) :
    m.has_ench_checked ENCH_NONE = none := by
  unfold monster.has_ench_checked
  dsimp only
  rw [get_ench_single, hm.2.2]
  have hc : m.ench_cache ENCH_NONE = false := by rw [hm.1 ENCH_NONE, hm.2.2]; rfl
  simp only [Option.getD_none]
  rw [if_pos trivial, if_pos hc]

/-- C1: in every state reached from an empty table by `add_ench`, `update_ench`,
`del_ench`, `lose_ench_duration`, `lose_ench_levels` and `decay_enchantment`,
run with collaborators that keep the table consistent, the cache bit of every
kind is set exactly when the table holds a record under that kind, that record
has that kind, and no record of kind `ENCH_NONE` is stored; hence whenever
`has_ench(k)` returns, it returns the value of `get_ench(k).ench == k`, and for
every kind `k` (every value other than the sentinel `ENCH_NONE`) it does
return, its checks passing, with the cache bit as its value. -/
theorem reachable_cache_sync (m : monster) (h : Reachable m) :
    (∀ k, (m.ench_cache k = true ↔ ∃ r, m.enchantments k = some r)
        ∧ ∀ r, m.enchantments k = some r → r.ench = k)
      ∧ (∀ k r, m.enchantments k = some r → r.ench ≠ ENCH_NONE)
      ∧ (∀ k b, m.has_ench_checked k = some b →
          b = decide ((m.get_ench k ENCH_NONE).ench = k))
      ∧ (∀ k, k ≠ ENCH_NONE →
          m.has_ench_checked k = some (m.has_ench k)
            ∧ m.has_ench k = decide ((m.get_ench k ENCH_NONE).ench = k)) := by
  have hm := reachable_consistent h
  refine ⟨?_, ?_, ?_, ?_⟩
  · intro k
    refine ⟨?_, hm.2.1 k⟩
    rw [hm.1 k, Option.isSome_iff_exists]
  · intro k r hr h0
    have hk : k = ENCH_NONE := (hm.2.1 k r hr).symm.trans h0
    rw [hk, hm.2.2] at hr
    cases hr
  · intro k b hb
    exact has_ench_checked_sound m k b hb
  · intro k hk
    exact ⟨has_ench_checked_returns hm k hk, get_ench_kind_eq_iff hm k hk⟩

theorem reachable_cache_sync_witness :
    Reachable ((blank.add_ench still (mon_enchant.make ENCH_POISON 2 none 100)).2)
      ∧ (blank.add_ench still (mon_enchant.make ENCH_POISON 2 none 100)).2.has_ench_checked
          ENCH_POISON = some true
      ∧ decide ((((blank.add_ench still (mon_enchant.make ENCH_POISON 2 none 100)).2).get_ench
          ENCH_POISON ENCH_NONE).ench = ENCH_POISON) = true
      ∧ (blank.add_ench still (mon_enchant.make ENCH_POISON 2 none 100)).2.has_ench_checked
          ENCH_SLOW = some false := by
  have hR : Reachable ((blank.add_ench still (mon_enchant.make ENCH_POISON 2 none 100)).2) :=
    Reachable.add_ench still blank _ (passive_keeps_consistent still_passive) blank_reachable
  have h := (reachable_cache_sync _ hR).2.2.2
  have hst : (blank.add_ench still (mon_enchant.make ENCH_POISON 2 none 100)).2
      = blank.holding (mon_enchant.make ENCH_POISON 2 none 100) := by
    have h1 := add_ench_fresh still blank (mon_enchant.make ENCH_POISON 2 none 100)
      (by decide) (by decide) (by decide) (by decide) rfl (by decide)
    rw [add_effect_poison still _ _ false rfl] at h1
    rw [h1]
  have hp : (blank.add_ench still (mon_enchant.make ENCH_POISON 2 none 100)).2.has_ench
      ENCH_POISON = true := by
    rw [hst]
    rfl
  have hs : (blank.add_ench still (mon_enchant.make ENCH_POISON 2 none 100)).2.has_ench
      ENCH_SLOW = false := by
    rw [hst]
    rfl
  refine ⟨hR, ?_, ?_, ?_⟩
  · rw [(h ENCH_POISON (by decide)).1, hp]
  · rw [← (h ENCH_POISON (by decide)).2, hp]
  · rw [(h ENCH_SLOW (by decide)).1, hs]

/-! ## Removal when `monster_die` ends the monster -/

theorem died_consistent (m : monster) : m.died.consistent := by
  refine ⟨fun _ => rfl, ?_, rfl⟩
  intro k r h
  cases h

theorem mortal_keeps_consistent {env : Env} (hT : env.mortal) :
    env.keeps monster.consistent := by
  refine ⟨?_, ?_, ?_⟩
  · intro c m h
    rcases hT.2.1 c m with h1 | h1
    · exact consistent_of_eq h h1.1 h1.2
    · exact consistent_of_eq (died_consistent m) h1.1 h1.2
  · intro m a h
    exact consistent_of_eq h (hT.2.2.1 m a).1 (hT.2.2.1 m a).2
  · intro m h
    exact consistent_of_eq h (hT.2.2.2 m).1 (hT.2.2.2 m).2

theorem gone_of_eq {i : enchant_type} {a b : monster} (h : gone_at i a)
    (ht : b.enchantments = a.enchantments) (hc : b.ench_cache = a.ench_cache) : gone_at i b :=
  ⟨by rw [ht]; exact h.1, by rw [hc]; exact h.2⟩

theorem gone_call {env : Env} (hT : env.mortal) (i : enchant_type) (c : Call) {m : monster}
    (h : gone_at i m) : gone_at i (env.call c m) := by
  rcases hT.2.1 c m with h1 | h1
  · exact gone_of_eq h h1.1 h1.2
  · exact ⟨by rw [h1.1]; rfl, by rw [h1.2]; rfl⟩

theorem gone_die {env : Env} (hT : env.mortal) (i : enchant_type) (kt : killer_type)
    (m : monster) : gone_at i (env.call (Call.monster_die kt) m) :=
  ⟨by rw [(hT.1 kt m).1]; rfl, by rw [(hT.1 kt m).2]; rfl⟩

theorem gone_erase (i j : enchant_type) {m : monster} (h : gone_at i m) :
    gone_at i (m.erase j) := by
  by_cases hij : i = j
  · subst hij
    exact ⟨by simp [monster.erase], by simp [monster.erase]⟩
  · exact ⟨by simp only [monster.erase, Function.update_noteq hij]; exact h.1,
      by simp only [monster.erase, Function.update_noteq hij]; exact h.2⟩

theorem gone_erase_self (i : enchant_type) (m : monster) : gone_at i (m.erase i) :=
  ⟨by simp [monster.erase], by simp [monster.erase]⟩

theorem gone_update_ench (i : enchant_type) (e : mon_enchant) {m : monster}
    (h : gone_at i m) : gone_at i (m.update_ench e) := by
  unfold monster.update_ench
  by_cases h0 : e.ench ≠ ENCH_NONE
  · rw [if_pos h0]
    cases hl : m.enchantments e.ench with
    | none => exact h
    | some r =>
      have hne : i ≠ e.ench := by
        intro hx
        rw [← hx, h.1] at hl
        cases hl
      exact ⟨by simp only [Function.update_noteq hne]; exact h.1, h.2⟩
  · rw [if_neg h0]
    exact h

theorem gone_prepare {env : Env} (hT : env.mortal) (i : enchant_type) {m : monster}
    (me : mon_enchant) (h : gone_at i m) : gone_at i (_prepare_del_ench env m me).2 := by
  unfold _prepare_del_ench
  split_ifs
  · exact h
  · exact h
  · exact h
  · exact gone_of_eq h (hT.2.2.2 m).1 (hT.2.2.2 m).2

/-- The on-remove hook of a kind other than `ENCH_PETRIFIED` brings no absent
kind back. -/
theorem gone_remove_effect_plain {env : Env} (hT : env.mortal) (i : enchant_type)
    {m : monster} (me : mon_enchant) (quiet : Bool) (h1 : me.ench ≠ ENCH_PETRIFIED)
    (h : gone_at i m) : gone_at i (monster.remove_enchantment_effect env m me quiet) := by
  rw [monster.remove_enchantment_effect]
  simp only [h1, false_and, or_self, dite_false, if_false, ↓reduceDIte, ↓reduceIte]
  repeat' first
    | exact h
    | exact gone_die hT i _ _
    | exact gone_call hT i _ h
    | exact gone_call hT i _ (gone_call hT i _ h)
    | exact gone_of_eq h rfl rfl
    | exact gone_call hT i _ (gone_of_eq h rfl rfl)
    | exact gone_update_ench i _ h
    | apply ite_holds (gone_at i)

/-- Removing a kind other than `ENCH_PETRIFIED` brings no absent kind back. -/
theorem gone_del_ench_plain {env : Env} (hT : env.mortal) (i j : enchant_type) {m : monster}
    (hm : m.consistent) (quiet effect : Bool) (hj : j ≠ ENCH_PETRIFIED) (h : gone_at i m) :
    gone_at i (m.del_ench env j quiet effect).2 := by
  rw [del_ench_eq]
  cases hf : m.enchantments j with
  | none => exact h
  | some me =>
    have hme : me.ench = j := hm.2.1 j me hf
    have hp := gone_prepare hT i me h
    dsimp only
    apply ite_holds (fun r : Bool × monster => gone_at i r.2)
    · exact hp
    · apply ite_holds (fun r : Bool × monster => gone_at i r.2)
      · exact gone_remove_effect_plain hT i me quiet (hme ▸ hj) (gone_erase i j hp)
      · exact gone_erase i j hp

/-- The on-remove hook of any kind brings no absent kind back. -/
theorem gone_remove_effect {env : Env} (hT : env.mortal) (i : enchant_type) {m : monster}
    (hm : m.consistent) (me : mon_enchant) (quiet : Bool) (h : gone_at i m) :
    gone_at i (monster.remove_enchantment_effect env m me quiet) := by
  by_cases h1 : me.ench = ENCH_PETRIFIED
  · rw [monster.remove_enchantment_effect]
    simp only [h1, ↓reduceDIte, ↓reduceIte, ENCH_PETRIFIED, ENCH_TIDE, ENCH_INSANE,
      ENCH_BERSERK, ENCH_HASTE, ENCH_SLOW, ENCH_PARALYSIS, Nat.reduceEqDiff]
    exact gone_call hT i _ (gone_del_ench_plain hT i ENCH_PETRIFYING hm false true
      (by decide) h)
  · exact gone_remove_effect_plain hT i me quiet h1 h

/-- A removal that returns true leaves the kind out of the table and its cache
bit clear, for every kind. -/
theorem del_ench_true_gone (env : Env) (m : monster) (k : enchant_type) (quiet effect : Bool)
    (hT : env.mortal) (hm : m.consistent) (hr : (m.del_ench env k quiet effect).1 = true) :
    gone_at k (m.del_ench env k quiet effect).2 := by
  rw [del_ench_eq] at hr ⊢
  cases hf : m.enchantments k with
  | none =>
    rw [hf] at hr
    cases hr
  | some me =>
    rw [hf] at hr
    have hpc := prepare_consistent (mortal_keeps_consistent hT) hm me
    dsimp only at hr ⊢
    by_cases hv : (_prepare_del_ench env m me).1 = false
    · rw [if_pos hv] at hr
      cases hr
    rw [if_neg hv]
    cases effect with
    | false => exact gone_erase_self k _
    | true =>
      simp only [if_true]
      exact gone_remove_effect hT k (erase_consistent hpc k) me quiet (gone_erase_self k _)

theorem fatal_mortal : fatal.mortal := by
  refine ⟨fun kt m => ⟨rfl, rfl⟩, ?_, fun m a => ⟨rfl, rfl⟩, fun m => ⟨rfl, rfl⟩⟩
  intro c m
  cases c <;> first
    | exact Or.inl ⟨rfl, rfl⟩
    | exact Or.inr ⟨rfl, rfl⟩

/-- C9: whenever `del_ench(k, quiet, effect)` returns true, for every kind `k`
and both values of `effect`, the table holds no record of kind `k` and
`has_ench(k)` is false afterwards.  The table is consistent before the call;
`monster_die`, into which the on-remove hooks of the abjuration and the
short-lived kinds end, is modelled from the spec as ending the monster. -/
theorem del_ench_true_then_absent (env : Env) (m : monster) (k : enchant_type)
    (quiet effect : Bool) (hT : env.mortal) (hm : m.consistent)
    (hr : (m.del_ench env k quiet effect).1 = true) :
    (m.del_ench env k quiet effect).2.enchantments k = none
      ∧ (m.del_ench env k quiet effect).2.has_ench k = false :=
  del_ench_true_gone env m k quiet effect hT hm hr

theorem del_ench_true_then_absent_witness :
    fatal.mortal ∧ summoned.consistent
      ∧ summoned.has_ench ENCH_ABJ = true
      ∧ (summoned.del_ench fatal ENCH_ABJ false true).1 = true
      ∧ (summoned.del_ench fatal ENCH_ABJ false true).2.enchantments ENCH_ABJ = none
      ∧ (summoned.del_ench fatal ENCH_ABJ false true).2.has_ench ENCH_ABJ = false
      ∧ (envenomed.del_ench fatal ENCH_POISON false false).2.has_ench ENCH_POISON = false :=
  have hr : (summoned.del_ench fatal ENCH_ABJ false true).1 = true :=
    del_ench_goes_through fatal summoned ENCH_ABJ false true _ (holding_lookup blank _)
      (by decide)
  have hr2 : (envenomed.del_ench fatal ENCH_POISON false false).1 = true :=
    del_ench_goes_through fatal envenomed ENCH_POISON false false _ (holding_lookup blank _)
      (by decide)
  have h := del_ench_true_then_absent fatal summoned ENCH_ABJ false true fatal_mortal
    summoned_consistent hr
  ⟨fatal_mortal, summoned_consistent, rfl, hr, h.1, h.2,
    (del_ench_true_then_absent fatal envenomed ENCH_POISON false false fatal_mortal
      envenomed_consistent hr2).2⟩

/-! ## Which duration decides the re-run -/

/-- The duration of the merged record does not decide the re-run.  A poison of
duration 100 is merged with a poison of unset duration: the
merged record has duration 100, not zero, and the duration calculation is run
all the same, its 80 added to the 100.  A poison of duration -5 is merged with
a poison of duration 5: the merged record has duration zero and the duration
calculation is not run, zero being stored. -/
theorem merged_duration_does_not_decide :
    ((mon_enchant.make ENCH_POISON 2 none 100).add_assign still
        (mon_enchant.make ENCH_POISON 1 none 0)).duration = 100
      ∧ (envenomed.add_ench still (mon_enchant.make ENCH_POISON 1 none 0)).2.enchantments
          ENCH_POISON
        = some { ench := ENCH_POISON, degree := 3, duration := 180, maxduration := 180 }
      ∧ ((mon_enchant.make ENCH_POISON 1 none (-5)).add_assign still
          (mon_enchant.make ENCH_POISON 1 none 5)).duration = 0
      ∧ ((blank.holding (mon_enchant.make ENCH_POISON 1 none (-5))).add_ench still
          (mon_enchant.make ENCH_POISON 1 none 5)).2.enchantments ENCH_POISON
        = some { ench := ENCH_POISON, degree := 2, duration := 0, maxduration := 0 } := by
  refine ⟨by decide, ?_, by decide, ?_⟩
  · have h := add_ench_merge still envenomed (mon_enchant.make ENCH_POISON 1 none 0)
      (mon_enchant.make ENCH_POISON 2 none 100) (by decide) (by decide) (by decide) (by decide)
      (holding_lookup blank _)
    exact h.trans (by decide)
  · have h := add_ench_merge still (blank.holding (mon_enchant.make ENCH_POISON 1 none (-5)))
      (mon_enchant.make ENCH_POISON 1 none 5)
      (mon_enchant.make ENCH_POISON 1 none (-5)) (by decide) (by decide) (by decide) (by decide)
      (holding_lookup blank _)
    exact h.trans (by decide)
end Crawl
